import Mathlib

/-!
# kube-config-chain: a shallow embedding of `main.go`

The program lists the ConfigMaps and Secrets of a namespace, builds a registry
`map[string]*ConfigChain` keyed by `"<kind>/<name>"`, and then walks the pod
templates of deployments, daemonsets, statefulsets and replication controllers,
recording which workload uses which source (as a whole volume, as a volume item,
or as an environment variable).

Modelling choices:

* A Go `map[string]V` is an association list `GoMap V`; it is read only through
  `GoMap.lookup`, written through `GoMap.store` (replace the binding of the key,
  or add one) and `GoMap.delete`.  No statement depends on iteration order.
* The registry holds pointers (`*ConfigChain`, `*KeyUsed`).  Every pointer is
  created fresh for exactly one map slot, so a write through the pointer is
  modelled by storing the updated record back under its key.
* A Go `panic` is the `error` case of `Except String`; the message is the
  panic value.  `os.Stderr` is the `stderr` component of `World`.
* `nil` and empty slices are both `[]` (the code only uses `len` and `append`).
-/

namespace KubeConfigChain

/-! ## Go maps with string keys -/

/-- A Go `map[string]α`, as a list of bindings. -/
abbrev GoMap (α : Type) := List (String × α)

namespace GoMap

/-- Map indexing, `v, ok := m[k]`: the first binding of `k`. -/
def lookup {α : Type} : GoMap α → String → Option α
  | [], _ => none
  | (k', v) :: m, k => if k' = k then some v else lookup m k

/-- Map assignment, `m[k] = v`: replaces the binding of `k`, or adds one. -/
def store {α : Type} : GoMap α → String → α → GoMap α
  | [], k, v => [(k, v)]
  | (k', v') :: m, k, v => if k' = k then (k, v) :: m else (k', v') :: store m k v

/-- Builtin `delete(m, k)`. -/
def delete {α : Type} (m : GoMap α) (k : String) : GoMap α :=
  m.filter (fun e => decide (e.1 ≠ k))

/-- The keys a `for k := range m` loop visits. -/
def keys {α : Type} (m : GoMap α) : List String := m.map Prod.fst

/-- Number of bindings stored under `k`. -/
def countKey {α : Type} (m : GoMap α) (k : String) : Nat :=
  (m.filter (fun e => decide (e.1 = k))).length

end GoMap

/-! ## Strings -/

/-- Splitting a character sequence at every occurrence of `sep`. -/
def splitChars (sep : Char) : List Char → List (List Char)
  | [] => [[]]
  | c :: cs =>
    if c = sep then [] :: splitChars sep cs
    else
      match splitChars sep cs with
      | [] => [[c]]
      | h :: t => (c :: h) :: t

/-- The call `strings.Split(s, sep)` for a one-character separator. -/
def stringsSplit (s : String) (sep : Char) : List String :=
  (splitChars sep s.data).map String.mk

/-! ## The Kubernetes API types, restricted to the fields the program reads -/

namespace v1

structure KeyToPath where
  Key : String
  Path : String
  deriving DecidableEq, Repr

structure ConfigMapVolumeSource where
  Name : String
  Items : List KeyToPath
  deriving DecidableEq, Repr

structure SecretVolumeSource where
  SecretName : String
  Items : List KeyToPath
  deriving DecidableEq, Repr

/-- A nil pointer field is `none`. -/
structure VolumeSource where
  ConfigMap : Option ConfigMapVolumeSource
  Secret : Option SecretVolumeSource
  deriving DecidableEq, Repr

structure Volume where
  Name : String
  VolumeSource : VolumeSource
  deriving DecidableEq, Repr

structure ConfigMapKeySelector where
  Name : String
  Key : String
  deriving DecidableEq, Repr

structure SecretKeySelector where
  Name : String
  Key : String
  deriving DecidableEq, Repr

structure EnvVarSource where
  ConfigMapKeyRef : Option ConfigMapKeySelector
  SecretKeyRef : Option SecretKeySelector
  deriving DecidableEq, Repr

structure EnvVar where
  Name : String
  Value : String
  ValueFrom : Option EnvVarSource
  deriving DecidableEq, Repr

structure Container where
  Name : String
  Env : List EnvVar
  deriving DecidableEq, Repr

structure PodSpec where
  Volumes : List Volume
  Containers : List Container
  deriving DecidableEq, Repr

/-- A ConfigMap: `Data` is a `map[string]string`. -/
structure ConfigMap where
  Name : String
  Namespace : String
  Data : GoMap String
  deriving DecidableEq, Repr

/-- A Secret: `Data` is a `map[string][]byte`. -/
structure Secret where
  Name : String
  Namespace : String
  Data : GoMap (List Nat)
  deriving DecidableEq, Repr

/-- A workload object (Deployment, DaemonSet, StatefulSet or
ReplicationController): its name and `Spec.Template.Spec`. -/
structure Workload where
  Name : String
  PodSpec : PodSpec
  deriving DecidableEq, Repr

end v1

/-! ## The program's own types -/

/-- Go: `type UsedBy string`. -/
abbrev UsedBy := String

structure KeyUsed where
  AsEnv : List UsedBy
  AsVolumn : List UsedBy
  deriving DecidableEq, Repr

/-- Go: `type ConfigChain struct`; the field `Type` is written `Type_`. -/
structure ConfigChain where
  Name : String
  Type_ : String
  Namespace : String
  UsedAsVolumn : List UsedBy
  KeyUsed : GoMap KeyUsed
  deriving DecidableEq, Repr

/-- The mutable state a resolution step acts on: the registry behind the
`*map[string]*ConfigChain` argument, and what has been written to `os.Stderr`. -/
structure World where
  configChains : GoMap ConfigChain
  stderr : List String
  deriving DecidableEq, Repr

/-! ## The functions of `main.go` -/

def configmapKey (name : String) : String := "configmap/" ++ name

def secretKey (name : String) : String := "secret/" ++ name

def NewUsedByDeployment (deployment : v1.Workload) : UsedBy := "deployment/" ++ deployment.Name

def NewUsedByRC (rc : v1.Workload) : UsedBy := "rc/" ++ rc.Name

def NewUsedByStatefuleSet (statefulset : v1.Workload) : UsedBy :=
  "statefulset/" ++ statefulset.Name

def NewUsedByDaemonSet (daemonset : v1.Workload) : UsedBy := "daemonset/" ++ daemonset.Name

/-- The record `getOrUnexpected` allocates for a name that is not in the map. -/
def unexpectedConfigChain (name : String) : ConfigChain :=
  { Name := name
    Type_ := "unexpected/" ++ (stringsSplit name '/').headD ""
    Namespace := ""
    UsedAsVolumn := []
    KeyUsed := [] }

/-- Go: `getOrUnexpected`.  Returns the map after the call and the record the
returned pointer points to (which is the record stored under `name`). -/
def getOrUnexpected (configChains : GoMap ConfigChain) (name : String) :
    GoMap ConfigChain × ConfigChain :=
  match GoMap.lookup configChains name with
  | some configChain => (configChains, configChain)
  | none =>
    (GoMap.store configChains name (unexpectedConfigChain name), unexpectedConfigChain name)

/-- Go: `appendUsedAsVolumn`; `getOrUnexpected` is called twice, first for the
left-hand side of the assignment. -/
def appendUsedAsVolumn (w : World) (name : String) (usedBy : UsedBy) : World :=
  let lhs := getOrUnexpected w.configChains name
  let rhs := getOrUnexpected lhs.1 name
  { w with
    configChains :=
      GoMap.store rhs.1 name { rhs.2 with UsedAsVolumn := rhs.2.UsedAsVolumn ++ [usedBy] } }

/-- Go: `appendKeyUsedAsEnv`; the `else` branch panics. -/
def appendKeyUsedAsEnv (w : World) (name keyName : String) (usedBy : UsedBy) :
    Except String World :=
  let got := getOrUnexpected w.configChains name
  match GoMap.lookup got.2.KeyUsed keyName with
  | some keyUsed =>
    .ok { w with
          configChains :=
            GoMap.store got.1 name
              { got.2 with
                KeyUsed :=
                  GoMap.store got.2.KeyUsed keyName
                    { keyUsed with AsEnv := keyUsed.AsEnv ++ [usedBy] } } }
  | none => .error (keyName ++ " is not in " ++ name)

/-- Go: `appendKeyUsedAsVolumn`; the `else` branch prints a line to stderr. -/
def appendKeyUsedAsVolumn (w : World) (name keyName : String) (usedBy : UsedBy) : World :=
  let got := getOrUnexpected w.configChains name
  match GoMap.lookup got.2.KeyUsed keyName with
  | some keyUsed =>
    { w with
      configChains :=
        GoMap.store got.1 name
          { got.2 with
            KeyUsed :=
              GoMap.store got.2.KeyUsed keyName
                { keyUsed with AsVolumn := keyUsed.AsVolumn ++ [usedBy] } } }
  | none =>
    { configChains := got.1
      stderr := w.stderr ++ [keyName ++ " is not in " ++ name] }

/-- The loop `for _, item := range source.Items` of `caculateConfigChain`. -/
def caculateItems (name : String) (usedBy : UsedBy) : World → List v1.KeyToPath → World
  | w, [] => w
  | w, item :: items =>
    caculateItems name usedBy (appendKeyUsedAsVolumn w name item.Key usedBy) items

/-- What `caculateConfigChain` does for a volume source of composite key `name`. -/
def caculateSource (w : World) (name : String) (items : List v1.KeyToPath)
    (usedBy : UsedBy) : World :=
  if items.length = 0 then appendUsedAsVolumn w name usedBy
  else caculateItems name usedBy w items

/-- The body of the loop over `podSpec.Volumes`. -/
def caculateVolume (w : World) (volume : v1.Volume) (usedBy : UsedBy) : World :=
  let w1 :=
    match volume.VolumeSource.ConfigMap with
    | some configmapSource =>
      caculateSource w (configmapKey configmapSource.Name) configmapSource.Items usedBy
    | none => w
  match volume.VolumeSource.Secret with
  | some secretSource =>
    caculateSource w1 (secretKey secretSource.SecretName) secretSource.Items usedBy
  | none => w1

/-- The loop over `podSpec.Volumes`. -/
def caculateVolumes (usedBy : UsedBy) : World → List v1.Volume → World
  | w, [] => w
  | w, volume :: volumes => caculateVolumes usedBy (caculateVolume w volume usedBy) volumes

/-- The body of the loop over `container.Env`. -/
def caculateEnv (w : World) (env : v1.EnvVar) (usedBy : UsedBy) : Except String World :=
  match env.ValueFrom with
  | none => .ok w
  | some valueFrom =>
    let r1 :=
      match valueFrom.ConfigMapKeyRef with
      | some configMapKeyRef =>
        appendKeyUsedAsEnv w (configmapKey configMapKeyRef.Name) configMapKeyRef.Key usedBy
      | none => .ok w
    match r1 with
    | .error e => .error e
    | .ok w1 =>
      match valueFrom.SecretKeyRef with
      | some secretKeyRef =>
        appendKeyUsedAsEnv w1 (secretKey secretKeyRef.Name) secretKeyRef.Key usedBy
      | none => .ok w1

/-- The loop over `container.Env`. -/
def caculateEnvs (usedBy : UsedBy) : World → List v1.EnvVar → Except String World
  | w, [] => .ok w
  | w, env :: envs =>
    match caculateEnv w env usedBy with
    | .error e => .error e
    | .ok w1 => caculateEnvs usedBy w1 envs

/-- The loop over `podSpec.Containers`. -/
def caculateContainers (usedBy : UsedBy) : World → List v1.Container → Except String World
  | w, [] => .ok w
  | w, container :: containers =>
    match caculateEnvs usedBy w container.Env with
    | .error e => .error e
    | .ok w1 => caculateContainers usedBy w1 containers

/-- Go: `caculateConfigChain`: first all volumes, then all containers. -/
def caculateConfigChain (w : World) (podSpec : v1.PodSpec) (usedBy : UsedBy) :
    Except String World :=
  caculateContainers usedBy (caculateVolumes usedBy w podSpec.Volumes) podSpec.Containers

/-! ## `readConfigChains` -/

/-- The loop `for keyName := range data { keyUsed[keyName] = &KeyUsed{} }`, over
the keys of the data map. -/
def newKeyUsed : GoMap KeyUsed → List String → GoMap KeyUsed
  | keyUsed, [] => keyUsed
  | keyUsed, keyName :: keyNames =>
    newKeyUsed (GoMap.store keyUsed keyName { AsEnv := [], AsVolumn := [] }) keyNames

/-- The loop over `configmaps.Items` of `readConfigChains`. -/
def readConfigMaps : GoMap ConfigChain → List v1.ConfigMap → GoMap ConfigChain
  | configChains, [] => configChains
  | configChains, configmap :: configmaps =>
    readConfigMaps
      (GoMap.store configChains (configmapKey configmap.Name)
        { Name := configmap.Name
          Type_ := "configmap"
          Namespace := configmap.Namespace
          UsedAsVolumn := []
          KeyUsed := newKeyUsed [] (GoMap.keys configmap.Data) })
      configmaps

/-- The loop over `secrets.Items` of `readConfigChains`. -/
def readSecrets : GoMap ConfigChain → List v1.Secret → GoMap ConfigChain
  | configChains, [] => configChains
  | configChains, secret :: secrets =>
    readSecrets
      (GoMap.store configChains (secretKey secret.Name)
        { Name := secret.Name
          Type_ := "secret"
          Namespace := secret.Namespace
          UsedAsVolumn := []
          KeyUsed := newKeyUsed [] (GoMap.keys secret.Data) })
      secrets

/-- One of the four workload loops of `readConfigChains`: every item is resolved
with the reference `newUsedBy` gives it; a panic ends the loop. -/
def resolveWorkloads (newUsedBy : v1.Workload → UsedBy) :
    World → List v1.Workload → Except String World
  | w, [] => .ok w
  | w, workload :: workloads =>
    match caculateConfigChain w workload.PodSpec (newUsedBy workload) with
    | .error msg => .error msg
    | .ok w1 => resolveWorkloads newUsedBy w1 workloads

/-- What a `List` call of the clientset returns: the list pointer (`none` is
`nil`) and the error (`none` is `nil`). -/
structure ListResult (α : Type) where
  list : Option (List α)
  err : Option String
  deriving DecidableEq, Repr

/-- The answers of the cluster to the six `List` calls of `readConfigChains`. -/
structure Clientset where
  ConfigMaps : ListResult v1.ConfigMap
  Secrets : ListResult v1.Secret
  Deployments : ListResult v1.Workload
  DaemonSets : ListResult v1.Workload
  StatefulSets : ListResult v1.Workload
  ReplicationControllers : ListResult v1.Workload
  deriving DecidableEq, Repr

/-- How a call of `readConfigChains` ends: it returns the registry (with what was
written to stderr on the way), it returns an error, or it panics.  The error
returned is `fmt.Errorf(format)`, a call without operands; `failed` carries the
string `format` that the code hands to `fmt.Errorf`, and `fmt.Errorf` itself is
not interpreted (the text of the error is `format` when `format` holds no `%`). -/
inductive Outcome where
  | returned (configChains : GoMap ConfigChain) (stderr : List String)
  | failed (format : String)
  | panicked (msg : String)
  deriving DecidableEq, Repr

/-- The panic of the Go runtime on `list.Items` for a nil `list`. -/
def nilDereference : String := "runtime error: invalid memory address or nil pointer dereference"

/-- One workload stage of `readConfigChains`: the error of the `List` call is
checked, then the items are resolved, then `next` runs on the resulting state.
On an error the code returns `fmt.Errorf("Can not list <kind>: " + err.Error())`:
the concatenation is the format string, which is what `failed` carries. -/
def readWorkloads (kind : String) (newUsedBy : v1.Workload → UsedBy)
    (result : ListResult v1.Workload) (w : World) (next : World → Outcome) : Outcome :=
  match result.err with
  | some err => .failed ("Can not list " ++ kind ++ ": " ++ err)
  | none =>
    match result.list with
    | none => .panicked nilDereference
    | some items =>
      match resolveWorkloads newUsedBy w items with
      | .error msg => .panicked msg
      | .ok w1 => next w1

/-- Go: `readConfigChains`.  `newForConfig` is the result of
`kubernetes.NewForConfig(config)`; the errors of the configmap and secret
listings are not looked at.  When `NewForConfig` fails the code returns
`fmt.Errorf("Can not create clientset: " + err.Error())`, and `failed` carries
that format string. -/
def readConfigChains (newForConfig : Except String Clientset) : Outcome :=
  match newForConfig with
  | .error err => .failed ("Can not create clientset: " ++ err)
  | .ok clientset =>
    match clientset.ConfigMaps.list with
    | none => .panicked nilDereference
    | some configmaps =>
      match clientset.Secrets.list with
      | none => .panicked nilDereference
      | some secrets =>
        readWorkloads "deployments" NewUsedByDeployment clientset.Deployments
          { configChains := readSecrets (readConfigMaps [] configmaps) secrets, stderr := [] }
          fun w1 =>
            readWorkloads "daemonsets" NewUsedByDaemonSet clientset.DaemonSets w1
              fun w2 =>
                readWorkloads "statefulsets" NewUsedByStatefuleSet clientset.StatefulSets w2
                  fun w3 =>
                    readWorkloads "rcs" NewUsedByRC clientset.ReplicationControllers w3
                      fun w4 => .returned w4.configChains w4.stderr

/-! ## The name filter of `main` -/

/-- The loop `for name, _ := range configChain` of `main`, over the keys of the
map: a key the pattern does not match is deleted. -/
def filterLoop (re : String → Bool) : GoMap ConfigChain → List String → GoMap ConfigChain
  | configChain, [] => configChain
  | configChain, name :: names =>
    filterLoop re (if !re name then GoMap.delete configChain name else configChain) names

/-- The name filter of `main`.  `compile` is `regexp.Compile`, and the compiled
pattern is its `MatchString`; an error of `compile` panics. -/
def mainFilter (compile : String → Except String (String → Bool)) (configName : String)
    (configChain : GoMap ConfigChain) : Except String (GoMap ConfigChain) :=
  if configName ≠ "" ∧ configName ≠ "*" ∧ configName ≠ ".*" then
    match compile configName with
    | .error err => .error err
    | .ok re => .ok (filterLoop re configChain (GoMap.keys configChain))
  else .ok configChain

/-! ## `formatConfigChains` -/

/-- The bindings a `for k, v := range m` loop visits: every key once, with the
value `m[k]`. -/
def GoMap.range {α : Type} : GoMap α → GoMap α
  | [] => []
  | (k, v) :: m => (k, v) :: GoMap.delete (GoMap.range m) k

/-- The dynamic values `formatConfigChains` puts into a `map[string]interface{}`
of a source: a string (the namespace), a `[]UsedBy`, or the map of the per-key
records, each of which is a `map[string]interface{}` holding `[]UsedBy` only. -/
inductive Value where
  | str (s : String)
  | users (l : List UsedBy)
  | keyUseds (m : GoMap (GoMap (List UsedBy)))
  deriving DecidableEq, Repr

/-- The `keyUsedItem` that `formatConfigChains` builds for one key. -/
def formatKeyUsed (keyUsed : KeyUsed) : GoMap (List UsedBy) :=
  let keyUsedItem : GoMap (List UsedBy) := []
  let keyUsedItem :=
    if keyUsed.AsEnv.length ≠ 0 then GoMap.store keyUsedItem "asEnv" keyUsed.AsEnv
    else keyUsedItem
  if keyUsed.AsVolumn.length ≠ 0 then GoMap.store keyUsedItem "asVolume" keyUsed.AsVolumn
  else keyUsedItem

/-- The loop `for keyName, keyUsed := range configChain.KeyUsed`. -/
def formatKeyUseds :
    GoMap (GoMap (List UsedBy)) → List (String × KeyUsed) → GoMap (GoMap (List UsedBy))
  | keyUseds, [] => keyUseds
  | keyUseds, (keyName, keyUsed) :: rest =>
    formatKeyUseds
      (if (formatKeyUsed keyUsed).length ≠ 0 then
        GoMap.store keyUseds keyName (formatKeyUsed keyUsed)
      else keyUseds)
      rest

/-- The `configChainForDisplay` that `formatConfigChains` builds for one source. -/
def formatConfigChain (configChain : ConfigChain) (withNamespace : Bool) : GoMap Value :=
  let configChainForDisplay : GoMap Value := []
  let configChainForDisplay :=
    if withNamespace then
      GoMap.store configChainForDisplay "namespace" (Value.str configChain.Namespace)
    else configChainForDisplay
  let configChainForDisplay :=
    if configChain.UsedAsVolumn.length ≠ 0 then
      GoMap.store configChainForDisplay "usedAsVolumn" (Value.users configChain.UsedAsVolumn)
    else configChainForDisplay
  let keyUseds := formatKeyUseds [] (GoMap.range configChain.KeyUsed)
  if keyUseds.length ≠ 0 then
    GoMap.store configChainForDisplay "keyUsed" (Value.keyUseds keyUseds)
  else configChainForDisplay

/-- The loop `for name, configChain := range *configChains`. -/
def formatLoop (withNamespace : Bool) :
    GoMap (GoMap Value) → List (String × ConfigChain) → GoMap (GoMap Value)
  | configChainsForDisplay, [] => configChainsForDisplay
  | configChainsForDisplay, (name, configChain) :: rest =>
    formatLoop withNamespace
      (GoMap.store configChainsForDisplay name (formatConfigChain configChain withNamespace))
      rest

/-- Go: `formatConfigChains`. -/
def formatConfigChains (configChains : GoMap ConfigChain) (withNamespace : Bool) :
    GoMap (GoMap Value) :=
  formatLoop withNamespace [] (GoMap.range configChains)

/-- The value `main` hands to the serializer: the registry itself, or its
simplified form. -/
inductive Display where
  | registry (configChain : GoMap ConfigChain)
  | simplified (configChainsForDisplay : GoMap (GoMap Value))
  deriving DecidableEq, Repr

/-- The choice of `configChainForDisplay` in `main`. -/
def configChainForDisplay (simplify : Bool) (configChain : GoMap ConfigChain) : Display :=
  if simplify then Display.simplified (formatConfigChains configChain false)
  else Display.registry configChain

/-! ## Specification vocabulary -/

/-- The key `key` is in the `KeyUsed` map the registry holds for `name`; a source
that is not in the registry has no keys. -/
def hasKey (m : GoMap ConfigChain) (name key : String) : Bool :=
  match GoMap.lookup m name with
  | some c => (GoMap.lookup c.KeyUsed key).isSome
  | none => false

/-- The record resolution works on for `name`: the stored one, or the
placeholder `getOrUnexpected` would create. -/
def entryOf (m : GoMap ConfigChain) (name : String) : ConfigChain :=
  (GoMap.lookup m name).getD (unexpectedConfigChain name)

/-- The key references of one environment entry, as (composite key, key). -/
def envRefsOfEnv (env : v1.EnvVar) : List (String × String) :=
  match env.ValueFrom with
  | none => []
  | some valueFrom =>
    (match valueFrom.ConfigMapKeyRef with
      | some r => [(configmapKey r.Name, r.Key)]
      | none => []) ++
    (match valueFrom.SecretKeyRef with
      | some r => [(secretKey r.Name, r.Key)]
      | none => [])

/-- The key references of a list of environment entries, in order. -/
def envRefsOfEnvs : List v1.EnvVar → List (String × String)
  | [] => []
  | env :: envs => envRefsOfEnv env ++ envRefsOfEnvs envs

/-- The key references of a list of containers, in container/env order. -/
def envRefsOfContainers : List v1.Container → List (String × String)
  | [] => []
  | c :: cs => envRefsOfEnvs c.Env ++ envRefsOfContainers cs

/-- All environment key references of a pod template, in container/env order. -/
def envRefs (podSpec : v1.PodSpec) : List (String × String) :=
  envRefsOfContainers podSpec.Containers

/-- Recording a list of environment key references one after the other. -/
def recordEnvRefs (usedBy : UsedBy) : World → List (String × String) → Except String World
  | w, [] => .ok w
  | w, r :: rs =>
    match appendKeyUsedAsEnv w r.1 r.2 usedBy with
    | .error e => .error e
    | .ok w1 => recordEnvRefs usedBy w1 rs

/-- A reference made by a volume: the whole source, or one key of it. -/
inductive VolumeRef where
  | whole (name : String)
  | item (name key : String)
  deriving DecidableEq, Repr

/-- The references of a volume source of composite key `name`. -/
def volumeRefsOfSource (name : String) (items : List v1.KeyToPath) : List VolumeRef :=
  if items.length = 0 then [VolumeRef.whole name]
  else items.map (fun item => VolumeRef.item name item.Key)

/-- The references of one volume: its configmap source, then its secret source. -/
def volumeRefsOfVolume (volume : v1.Volume) : List VolumeRef :=
  (match volume.VolumeSource.ConfigMap with
    | some s => volumeRefsOfSource (configmapKey s.Name) s.Items
    | none => []) ++
  (match volume.VolumeSource.Secret with
    | some s => volumeRefsOfSource (secretKey s.SecretName) s.Items
    | none => [])

/-- All volume references of a list of volumes, in order. -/
def volumeRefs : List v1.Volume → List VolumeRef
  | [] => []
  | v :: vs => volumeRefsOfVolume v ++ volumeRefs vs

/-- Recording one volume reference. -/
def recordVolumeRef (usedBy : UsedBy) (w : World) : VolumeRef → World
  | .whole name => appendUsedAsVolumn w name usedBy
  | .item name key => appendKeyUsedAsVolumn w name key usedBy

/-- Recording a list of volume references one after the other. -/
def recordVolumeRefs (usedBy : UsedBy) : World → List VolumeRef → World
  | w, [] => w
  | w, r :: rs => recordVolumeRefs usedBy (recordVolumeRef usedBy w r) rs

/-- The first reference of `rs` whose key the registry `m` does not know. -/
def firstUnknown (m : GoMap ConfigChain) (rs : List (String × String)) :
    Option (String × String) :=
  rs.find? (fun r => !hasKey m r.1 r.2)

/-- The composite key a volume reference names. -/
def VolumeRef.name : VolumeRef → String
  | .whole name => name
  | .item name _ => name

/-- The usage record of a key after `n` more volume-item uses by `usedBy`. -/
def addAsVolumn (n : Nat) (usedBy : UsedBy) (keyUsed : KeyUsed) : KeyUsed :=
  { keyUsed with AsVolumn := keyUsed.AsVolumn ++ List.replicate n usedBy }

/-- The usage record of a key after `n` more environment uses by `usedBy`. -/
def addAsEnv (n : Nat) (usedBy : UsedBy) (keyUsed : KeyUsed) : KeyUsed :=
  { keyUsed with AsEnv := keyUsed.AsEnv ++ List.replicate n usedBy }

/-- The record `e'` is the record `e` of source `name` after the volume
references `rs` of workload `usedBy` have been recorded: same identity, one more
whole-volume user per whole reference, one more volume user of a known key per
item reference to it, and no new key. -/
def RecordedVolumes (usedBy : UsedBy) (rs : List VolumeRef) (name : String)
    (e e' : ConfigChain) : Prop :=
  e'.Name = e.Name ∧ e'.Type_ = e.Type_ ∧ e'.Namespace = e.Namespace ∧
    e'.UsedAsVolumn = e.UsedAsVolumn ++ List.replicate (rs.count (VolumeRef.whole name)) usedBy ∧
    ∀ k, GoMap.lookup e'.KeyUsed k =
      (GoMap.lookup e.KeyUsed k).map (addAsVolumn (rs.count (VolumeRef.item name k)) usedBy)

/-- The record `e'` is the record `e` of source `name` after the environment
references `rs` of workload `usedBy` have been recorded. -/
def RecordedEnvs (usedBy : UsedBy) (rs : List (String × String)) (name : String)
    (e e' : ConfigChain) : Prop :=
  e'.Name = e.Name ∧ e'.Type_ = e.Type_ ∧ e'.Namespace = e.Namespace ∧
    e'.UsedAsVolumn = e.UsedAsVolumn ∧
    ∀ k, GoMap.lookup e'.KeyUsed k =
      (GoMap.lookup e.KeyUsed k).map (addAsEnv (rs.count (name, k)) usedBy)

/-- The number of bindings of a key once it has been stored to. -/
def bump (c : Nat) : Nat := if c = 0 then 1 else c

/-- How many times one volume mounts the source `name` whole (with no item
list): its configmap source and its secret source are looked at separately. -/
def wholeMountsOfVolume (name : String) (volume : v1.Volume) : Nat :=
  (match volume.VolumeSource.ConfigMap with
    | some s => if configmapKey s.Name = name ∧ s.Items.length = 0 then 1 else 0
    | none => 0) +
  (match volume.VolumeSource.Secret with
    | some s => if secretKey s.SecretName = name ∧ s.Items.length = 0 then 1 else 0
    | none => 0)

/-- The number of volumes of a pod template that mount the source `name` whole. -/
def wholeMounts (name : String) : List v1.Volume → Nat
  | [] => 0
  | v :: vs => wholeMountsOfVolume name v + wholeMounts name vs

/-- The record `readConfigChains` stores for a listed configmap. -/
def configChainOfConfigMap (configmap : v1.ConfigMap) : ConfigChain :=
  { Name := configmap.Name
    Type_ := "configmap"
    Namespace := configmap.Namespace
    UsedAsVolumn := []
    KeyUsed := newKeyUsed [] (GoMap.keys configmap.Data) }

/-- The record `readConfigChains` stores for a listed secret. -/
def configChainOfSecret (secret : v1.Secret) : ConfigChain :=
  { Name := secret.Name
    Type_ := "secret"
    Namespace := secret.Namespace
    UsedAsVolumn := []
    KeyUsed := newKeyUsed [] (GoMap.keys secret.Data) }

/-- Storing a list of bindings one after the other. -/
def storeAll {α : Type} : GoMap α → List (String × α) → GoMap α
  | m, [] => m
  | m, kv :: kvs => storeAll (GoMap.store m kv.1 kv.2) kvs

/-- Every source and key of the registry of `w` is still in the registry of
`w1`, and no source has a key in `w1` that it did not have in `w`. -/
def Survives (w w1 : World) : Prop :=
  ∀ name, (GoMap.lookup w.configChains name ≠ none →
      GoMap.lookup w1.configChains name ≠ none) ∧
    ∀ key, hasKey w1.configChains name key = hasKey w.configChains name key

/-! ## Simplifying again -/

/-- Some workload uses the key, as a variable or as a volume item. -/
def hasUsers (keyUsed : KeyUsed) : Bool :=
  !(decide (keyUsed.AsEnv = []) && decide (keyUsed.AsVolumn = []))

/-- The registry obtained by removing every key with no users. -/
def removeUnusedKeys (configChains : GoMap ConfigChain) : GoMap ConfigChain :=
  (GoMap.range configChains).map fun e =>
    (e.1, { e.2 with KeyUsed := (GoMap.range e.2.KeyUsed).filter fun kv => hasUsers kv.2 })

/-- Simplifying a per-key record of the display form: empty lists are dropped. -/
def simplifyItem (item : GoMap (List UsedBy)) : GoMap (List UsedBy) :=
  (GoMap.range item).filter fun f => !decide (f.2 = [])

/-- Simplifying the `keyUsed` section of the display form: empty lists are
dropped from every per-key record, and keys whose record becomes empty are
dropped. -/
def simplifyKeyUseds (m : GoMap (GoMap (List UsedBy))) : GoMap (GoMap (List UsedBy)) :=
  (GoMap.range m).filterMap fun e =>
    if (simplifyItem e.2).length = 0 then none else some (e.1, simplifyItem e.2)

/-- Simplifying one field of a source's display record: the namespace and empty
usage fields are dropped. -/
def simplifyField (f : String × Value) : Option (String × Value) :=
  match f.2 with
  | Value.str _ => if f.1 = "namespace" then none else some f
  | Value.users l => if l = [] then none else some f
  | Value.keyUseds m =>
    if (simplifyKeyUseds m).length = 0 then none
    else some (f.1, Value.keyUseds (simplifyKeyUseds m))

/-- Simplifying a display form again: in every record the namespace field and
the empty usage fields are dropped. -/
def simplifyAgain (display : GoMap (GoMap Value)) : GoMap (GoMap Value) :=
  (GoMap.range display).map fun e => (e.1, (GoMap.range e.2).filterMap simplifyField)

/-! ## The sources a workload references -/

/-- The volume names the source of composite key `key`, as a configmap or as a
secret (with or without an item list). -/
def volumeNames (volume : v1.Volume) (key : String) : Prop :=
  (∃ s, volume.VolumeSource.ConfigMap = some s ∧ configmapKey s.Name = key) ∨
    (∃ s, volume.VolumeSource.Secret = some s ∧ secretKey s.SecretName = key)

/-- The environment entry takes its value from some key of the source of
composite key `key`. -/
def envNames (env : v1.EnvVar) (key : String) : Prop :=
  ∃ valueFrom, env.ValueFrom = some valueFrom ∧
    ((∃ s, valueFrom.ConfigMapKeyRef = some s ∧ configmapKey s.Name = key) ∨
      (∃ s, valueFrom.SecretKeyRef = some s ∧ secretKey s.Name = key))

/-- The pod template references the source of composite key `key`, through a
configmap or secret volume or through an environment key reference. -/
def referencesKey (podSpec : v1.PodSpec) (key : String) : Prop :=
  (∃ volume ∈ podSpec.Volumes, volumeNames volume key) ∨
    (∃ c ∈ podSpec.Containers, ∃ env ∈ c.Env, envNames env key)

/-! ## Counting the references of a workload -/

/-- The volume mounts the source of composite key `key` whole: it names it, as a
configmap or as a secret, with an empty item list. -/
def mountsWhole (key : String) (volume : v1.Volume) : Bool :=
  (match volume.VolumeSource.ConfigMap with
    | some s => decide (configmapKey s.Name = key) && decide (s.Items.length = 0)
    | none => false) ||
  (match volume.VolumeSource.Secret with
    | some s => decide (secretKey s.SecretName = key) && decide (s.Items.length = 0)
    | none => false)

/-- The number of items of one volume that reference the key `keyName` of the
source of composite key `key`. -/
def itemUsesOfVolume (key keyName : String) (volume : v1.Volume) : Nat :=
  (match volume.VolumeSource.ConfigMap with
    | some s =>
      if configmapKey s.Name = key then s.Items.countP (fun item => decide (item.Key = keyName))
      else 0
    | none => 0) +
  (match volume.VolumeSource.Secret with
    | some s =>
      if secretKey s.SecretName = key then
        s.Items.countP (fun item => decide (item.Key = keyName))
      else 0
    | none => 0)

/-- The number of volume items, across all volumes, that reference the key
`keyName` of the source of composite key `key`. -/
def itemUses (key keyName : String) : List v1.Volume → Nat
  | [] => 0
  | v :: vs => itemUsesOfVolume key keyName v + itemUses key keyName vs

/-- The environment entry references the key `keyName` of the source of
composite key `key`. -/
def envUsesKey (key keyName : String) (env : v1.EnvVar) : Bool :=
  match env.ValueFrom with
  | none => false
  | some valueFrom =>
    (match valueFrom.ConfigMapKeyRef with
      | some s => decide (configmapKey s.Name = key) && decide (s.Key = keyName)
      | none => false) ||
    (match valueFrom.SecretKeyRef with
      | some s => decide (secretKey s.Name = key) && decide (s.Key = keyName)
      | none => false)

/-- The number of environment entries, across all containers, that reference the
key `keyName` of the source of composite key `key`. -/
def envUses (key keyName : String) : List v1.Container → Nat
  | [] => 0
  | c :: cs => c.Env.countP (envUsesKey key keyName) + envUses key keyName cs

/-- The workloads of a run with their references, in the order
`readConfigChains` resolves them: deployments, daemonsets, statefulsets, rcs. -/
def workloadsInOrder (deployments daemonsets statefulsets rcs : List v1.Workload) :
    List (UsedBy × v1.PodSpec) :=
  deployments.map (fun x => (NewUsedByDeployment x, x.PodSpec)) ++
    daemonsets.map (fun x => (NewUsedByDaemonSet x, x.PodSpec)) ++
    statefulsets.map (fun x => (NewUsedByStatefuleSet x, x.PodSpec)) ++
    rcs.map (fun x => (NewUsedByRC x, x.PodSpec))

/-- Resolving a list of (reference, pod template) pairs one after the other. -/
def resolvePairs : World → List (UsedBy × v1.PodSpec) → Except String World
  | w, [] => .ok w
  | w, p :: ps =>
    match caculateConfigChain w p.2 p.1 with
    | .error msg => .error msg
    | .ok w1 => resolvePairs w1 ps

/-- The user list that results from appending, for every workload in order,
`count` copies of its reference. -/
def usersInOrder (count : v1.PodSpec → Nat) : List (UsedBy × v1.PodSpec) → List UsedBy
  | [] => []
  | p :: ps => List.replicate (count p.2) p.1 ++ usersInOrder count ps

/-! ## Keys and types -/

/-- The `Type` of the entry agrees with the kind its composite key starts with. -/
def TypeAgrees (key : String) (e : ConfigChain) : Prop :=
  (∃ n, key = "configmap/" ++ n ∧
      (e.Type_ = "configmap" ∨ e.Type_ = "unexpected/configmap")) ∨
    (∃ n, key = "secret/" ++ n ∧ (e.Type_ = "secret" ∨ e.Type_ = "unexpected/secret"))

/-! ## Volume items -/

/-- The items with which the volume references the source of composite key
`key` (as a configmap or as a secret). -/
def volumeItems (volume : v1.Volume) (key : String) : List v1.KeyToPath :=
  (match volume.VolumeSource.ConfigMap with
    | some s => if configmapKey s.Name = key then s.Items else []
    | none => []) ++
  (match volume.VolumeSource.Secret with
    | some s => if secretKey s.SecretName = key then s.Items else []
    | none => [])

/-- The volume `reduced` is the volume `volume` without one item `bad` of its
reference to the source of composite key `key`; at least one item of that
reference is left, so both volumes carry an item list. -/
def DropsItem (volume reduced : v1.Volume) (key : String) (bad : v1.KeyToPath) : Prop :=
  (∃ n before after, configmapKey n = key ∧ before ++ after ≠ [] ∧
      volume.VolumeSource.ConfigMap = some ⟨n, before ++ bad :: after⟩ ∧
      reduced.VolumeSource.ConfigMap = some ⟨n, before ++ after⟩ ∧
      reduced.VolumeSource.Secret = volume.VolumeSource.Secret) ∨
    (∃ n before after, secretKey n = key ∧ before ++ after ≠ [] ∧
      volume.VolumeSource.Secret = some ⟨n, before ++ bad :: after⟩ ∧
      reduced.VolumeSource.Secret = some ⟨n, before ++ after⟩ ∧
      reduced.VolumeSource.ConfigMap = volume.VolumeSource.ConfigMap)

/-! ## Sample inputs -/

/-- A registry holding the configmap `app-config` with the keys `A` and `B`. -/
def sampleWorld : World :=
  { configChains :=
      [("configmap/app-config",
        { Name := "app-config", Type_ := "configmap", Namespace := "default",
          UsedAsVolumn := [], KeyUsed := [("A", ⟨[], []⟩), ("B", ⟨[], []⟩)] })]
    stderr := [] }

/-- The record `sampleWorld` holds for `app-config`. -/
def sampleConfigChain : ConfigChain :=
  { Name := "app-config", Type_ := "configmap", Namespace := "default",
    UsedAsVolumn := [], KeyUsed := [("A", ⟨[], []⟩), ("B", ⟨[], []⟩)] }

/-- The empty registry. -/
def emptyWorld : World := { configChains := [], stderr := [] }

/-- A volume mounting the whole configmap `foo`. -/
def fooVolume (volumeName : String) : v1.Volume :=
  { Name := volumeName, VolumeSource := { ConfigMap := some ⟨"foo", []⟩, Secret := none } }

/-- A pod template with one volume mounting the whole configmap `foo`. -/
def oneFooPod : v1.PodSpec := { Volumes := [fooVolume "v1"], Containers := [] }

/-- A pod template with two volumes, each mounting the whole configmap `foo`. -/
def twoFooPod : v1.PodSpec :=
  { Volumes := [fooVolume "v1", fooVolume "v2"], Containers := [] }

/-- The registry after `oneFooPod` of `deployment/web` has been resolved against
the empty registry. -/
def oneFooResult : World :=
  { configChains :=
      [("configmap/foo",
        { Name := "configmap/foo", Type_ := "unexpected/configmap", Namespace := "",
          UsedAsVolumn := ["deployment/web"], KeyUsed := [] })]
    stderr := [] }

/-- The registry after `twoFooPod` of `deployment/web` has been resolved against
the empty registry. -/
def twoFooResult : World :=
  { configChains :=
      [("configmap/foo",
        { Name := "configmap/foo", Type_ := "unexpected/configmap", Namespace := "",
          UsedAsVolumn := ["deployment/web", "deployment/web"], KeyUsed := [] })]
    stderr := [] }

/-- A pod template whose only container takes the variable `E` from the key `k`
of the configmap `foo`. -/
def envFooPod : v1.PodSpec :=
  { Volumes := []
    Containers :=
      [{ Name := "main"
         Env := [{ Name := "E", Value := "",
                   ValueFrom := some { ConfigMapKeyRef := some ⟨"foo", "k"⟩,
                                       SecretKeyRef := none } }] }] }

/-- The configmap `app-config` with the keys `A` and `B`. -/
def appConfig : v1.ConfigMap :=
  { Name := "app-config", Namespace := "default", Data := [("A", "1"), ("B", "2")] }

/-- A secret that is also called `app-config`, with the key `P`. -/
def appSecret : v1.Secret :=
  { Name := "app-config", Namespace := "default", Data := [("P", [112])] }

/-- The deployment `web`: one configmap volume naming `app-config` with the
single item `A`. -/
def webDeployment : v1.Workload :=
  { Name := "web"
    PodSpec :=
      { Volumes :=
          [{ Name := "config"
             VolumeSource := { ConfigMap := some ⟨"app-config", [⟨"A", "a.txt"⟩]⟩,
                               Secret := none } }]
        Containers := [{ Name := "web", Env := [] }] } }

/-- The deployment `api`: one container taking a variable from key `B` of the
configmap `app-config`. -/
def apiDeployment : v1.Workload :=
  { Name := "api"
    PodSpec :=
      { Volumes := []
        Containers :=
          [{ Name := "api"
             Env := [{ Name := "B", Value := "",
                       ValueFrom := some { ConfigMapKeyRef := some ⟨"app-config", "B"⟩,
                                           SecretKeyRef := none } }] }] } }

/-- A cluster with the configmap `app-config` and the deployments `web` and `api`. -/
def sampleClientset : Clientset :=
  { ConfigMaps := ⟨some [appConfig], none⟩
    Secrets := ⟨some [], none⟩
    Deployments := ⟨some [webDeployment, apiDeployment], none⟩
    DaemonSets := ⟨some [], none⟩
    StatefulSets := ⟨some [], none⟩
    ReplicationControllers := ⟨some [], none⟩ }

/-- The registry `readConfigChains` returns for `sampleClientset`. -/
def sampleRegistry : GoMap ConfigChain :=
  [("configmap/app-config",
    { Name := "app-config", Type_ := "configmap", Namespace := "default",
      UsedAsVolumn := [],
      KeyUsed := [("A", ⟨[], ["deployment/web"]⟩), ("B", ⟨["deployment/api"], []⟩)] })]

/-- Two listed configmaps with the same name (from two namespaces). -/
def sameNameConfigMaps : List v1.ConfigMap :=
  [{ Name := "a", Namespace := "ns1", Data := [("x", "1")] },
   { Name := "a", Namespace := "ns2", Data := [("y", "2")] }]

/-- A cluster with the two configmaps of `sameNameConfigMaps` and no workload. -/
def sameNameClientset : Clientset :=
  { ConfigMaps := ⟨some sameNameConfigMaps, none⟩
    Secrets := ⟨some [], none⟩
    Deployments := ⟨some [], none⟩
    DaemonSets := ⟨some [], none⟩
    StatefulSets := ⟨some [], none⟩
    ReplicationControllers := ⟨some [], none⟩ }

/-- The registry `readConfigChains` returns for `sameNameClientset`. -/
def sameNameRegistry : GoMap ConfigChain :=
  [("configmap/a",
    { Name := "a", Type_ := "configmap", Namespace := "ns2", UsedAsVolumn := [],
      KeyUsed := [("y", ⟨[], []⟩)] })]

/-- A pod template with one volume mounting the whole configmap `app-config`. -/
def wholeAppConfigPod : v1.PodSpec :=
  { Volumes :=
      [{ Name := "config"
         VolumeSource := { ConfigMap := some ⟨"app-config", []⟩, Secret := none } }]
    Containers := [{ Name := "web", Env := [{ Name := "MODE", Value := "prod", ValueFrom := none }] }] }

/-- A cluster with no configmap and no secret, and the deployment `web` whose pod
template mounts the whole configmap `foo`. -/
def unlistedClientset : Clientset :=
  { ConfigMaps := ⟨some [], none⟩
    Secrets := ⟨some [], none⟩
    Deployments := ⟨some [{ Name := "web", PodSpec := oneFooPod }], none⟩
    DaemonSets := ⟨some [], none⟩
    StatefulSets := ⟨some [], none⟩
    ReplicationControllers := ⟨some [], none⟩ }

/-- The simplified form of `sampleRegistry`. -/
def sampleSimplified : GoMap (GoMap Value) :=
  [("configmap/app-config",
    [("keyUsed",
      Value.keyUseds
        [("A", [("asVolume", ["deployment/web"])]), ("B", [("asEnv", ["deployment/api"])])])])]

/-- A cluster whose configmap listing fails (empty list, non-nil error) while
every other listing succeeds with an empty list. -/
def configMapsFailClientset : Clientset :=
  { ConfigMaps := ⟨some [], some "connection refused"⟩
    Secrets := ⟨some [], none⟩
    Deployments := ⟨some [], none⟩
    DaemonSets := ⟨some [], none⟩
    StatefulSets := ⟨some [], none⟩
    ReplicationControllers := ⟨some [], none⟩ }

/-- A cluster whose secret listing fails (empty list, non-nil error) while every
other listing succeeds with an empty list. -/
def secretsFailClientset : Clientset :=
  { ConfigMaps := ⟨some [], none⟩
    Secrets := ⟨some [], some "connection refused"⟩
    Deployments := ⟨some [], none⟩
    DaemonSets := ⟨some [], none⟩
    StatefulSets := ⟨some [], none⟩
    ReplicationControllers := ⟨some [], none⟩ }

/-- A cluster whose deployment listing fails while every other listing succeeds. -/
def deploymentsFailClientset : Clientset :=
  { ConfigMaps := ⟨some [], none⟩
    Secrets := ⟨some [], none⟩
    Deployments := ⟨some [], some "connection refused"⟩
    DaemonSets := ⟨some [], none⟩
    StatefulSets := ⟨some [], none⟩
    ReplicationControllers := ⟨some [], none⟩ }

/-- The entry of `app-config` in `sampleRegistry`. -/
def sampleResolvedConfigChain : ConfigChain :=
  { Name := "app-config", Type_ := "configmap", Namespace := "default",
    UsedAsVolumn := [],
    KeyUsed := [("A", ⟨[], ["deployment/web"]⟩), ("B", ⟨["deployment/api"], []⟩)] }

/-- The state after `api` has been resolved against `sampleWorld`. -/
def sampleAfterApi : World :=
  { configChains :=
      [("configmap/app-config",
        { Name := "app-config", Type_ := "configmap", Namespace := "default",
          UsedAsVolumn := [],
          KeyUsed := [("A", ⟨[], []⟩), ("B", ⟨["deployment/api"], []⟩)] })]
    stderr := [] }

/-- A cluster without sources whose deployment `web` mounts the configmap
`team/app`, a name that itself holds a `/`. -/
def slashClientset : Clientset :=
  { ConfigMaps := ⟨some [], none⟩
    Secrets := ⟨some [], none⟩
    Deployments :=
      ⟨some [{ Name := "web"
               PodSpec :=
                 { Volumes :=
                     [{ Name := "v"
                        VolumeSource := { ConfigMap := some ⟨"team/app", []⟩,
                                          Secret := none } }]
                   Containers := [] } }], none⟩
    DaemonSets := ⟨some [], none⟩
    StatefulSets := ⟨some [], none⟩
    ReplicationControllers := ⟨some [], none⟩ }

/-- The registry `readConfigChains` returns for `slashClientset`. -/
def slashRegistry : GoMap ConfigChain :=
  [("configmap/team/app",
    { Name := "configmap/team/app", Type_ := "unexpected/configmap", Namespace := "",
      UsedAsVolumn := ["deployment/web"], KeyUsed := [] })]

/-- A cluster whose configmap listing fails and returns a nil list. -/
def configMapsNilClientset : Clientset :=
  { ConfigMaps := ⟨none, some "connection refused"⟩
    Secrets := ⟨some [], none⟩
    Deployments := ⟨some [], none⟩
    DaemonSets := ⟨some [], none⟩
    StatefulSets := ⟨some [], none⟩
    ReplicationControllers := ⟨some [], none⟩ }

/-- A volume of `app-config` with the items `A` (a key the configmap has) and
`Z` (a key it does not have). -/
def mixedItemsVolume : v1.Volume :=
  { Name := "config"
    VolumeSource :=
      { ConfigMap := some ⟨"app-config", [⟨"A", "a.txt"⟩, ⟨"Z", "z.txt"⟩]⟩, Secret := none } }

/-- A pod template whose only volume is `mixedItemsVolume`. -/
def mixedItemsPod : v1.PodSpec :=
  { Volumes := [mixedItemsVolume], Containers := [{ Name := "web", Env := [] }] }

/-- The state after `mixedItemsPod` of `deployment/web` has been resolved against
`sampleWorld`. -/
def mixedItemsResult : World :=
  { configChains :=
      [("configmap/app-config",
        { Name := "app-config", Type_ := "configmap", Namespace := "default",
          UsedAsVolumn := [],
          KeyUsed := [("A", ⟨[], ["deployment/web"]⟩), ("B", ⟨[], []⟩)] })]
    stderr := ["Z is not in configmap/app-config"] }

/-- A pod template that mounts the whole configmap `foo` and whose container
takes the variable `E` from the key `k` of the same configmap. -/
def mountAndEnvFooPod : v1.PodSpec :=
  { Volumes := [fooVolume "v1"], Containers := envFooPod.Containers }

/-! ## Lemmas on maps -/

namespace GoMap

variable {α : Type}

theorem lookup_store (m : GoMap α) (k k' : String) (v : α) :
    lookup (store m k v) k' = if k = k' then some v else lookup m k' := by
  induction m with
  | nil => simp [store, lookup]
  | cons e m ih =>
    obtain ⟨k0, v0⟩ := e
    by_cases h : k0 = k
    · subst h
      by_cases h' : k0 = k' <;> simp [store, lookup, h']
    · by_cases h' : k0 = k'
      · subst h'
        have : ¬ k = k0 := fun e => h e.symm
        simp [store, lookup, h, this]
      · simp [store, lookup, h, h', ih]

theorem lookup_store_self (m : GoMap α) (k : String) (v : α) :
    lookup (store m k v) k = some v := by
  simp [lookup_store]

theorem lookup_store_of_ne (m : GoMap α) {k k' : String} (v : α) (h : k ≠ k') :
    lookup (store m k v) k' = lookup m k' := by
  simp [lookup_store, h]

theorem store_of_lookup_none (m : GoMap α) (k : String) (v : α) (h : lookup m k = none) :
    store m k v = m ++ [(k, v)] := by
  induction m with
  | nil => rfl
  | cons e m ih =>
    obtain ⟨k0, v0⟩ := e
    by_cases h0 : k0 = k
    · simp [lookup, h0] at h
    · simp only [lookup, h0, if_false] at h
      simp [store, h0, ih h]

theorem length_store_of_lookup_some (m : GoMap α) (k : String) (v v0 : α)
    (h : lookup m k = some v0) : (store m k v).length = m.length := by
  induction m with
  | nil => simp [lookup] at h
  | cons e m ih =>
    obtain ⟨k0, v1⟩ := e
    by_cases h0 : k0 = k
    · simp [store, h0]
    · simp only [lookup, h0, if_false] at h
      simp [store, h0, ih h]

theorem keys_store_of_lookup_some (m : GoMap α) (k : String) (v v0 : α)
    (h : lookup m k = some v0) : keys (store m k v) = keys m := by
  induction m with
  | nil => simp [lookup] at h
  | cons e m ih =>
    obtain ⟨k0, v1⟩ := e
    by_cases h0 : k0 = k
    · simp [store, keys, h0]
    · simp only [lookup, h0, if_false] at h
      have := ih h
      simp only [keys] at this
      simp [store, keys, h0, this]

theorem lookup_eq_none_iff (m : GoMap α) (k : String) :
    lookup m k = none ↔ k ∉ keys m := by
  induction m with
  | nil => simp [lookup, keys]
  | cons e m ih =>
    obtain ⟨k0, v0⟩ := e
    by_cases h0 : k0 = k
    · simp [lookup, keys, h0]
    · have h1 : ¬ k = k0 := fun e => h0 e.symm
      simp only [keys] at ih
      simp [lookup, keys, h0, h1, ih]

theorem countKey_eq_zero_iff (m : GoMap α) (k : String) :
    countKey m k = 0 ↔ lookup m k = none := by
  induction m with
  | nil => simp [lookup, countKey]
  | cons e m ih =>
    obtain ⟨k0, v0⟩ := e
    by_cases h0 : k0 = k
    · simp [lookup, countKey, h0, List.filter_cons]
    · simp only [countKey] at ih
      simp [lookup, countKey, h0, List.filter_cons, ih]

theorem countKey_cons (m : GoMap α) (k0 k : String) (v0 : α) :
    countKey ((k0, v0) :: m) k = (if k0 = k then 1 else 0) + countKey m k := by
  by_cases h : k0 = k <;> simp [countKey, List.filter_cons, h, Nat.add_comm]

theorem countKey_store (m : GoMap α) (k k' : String) (v : α) :
    countKey (store m k v) k' =
      if k = k' then (if countKey m k = 0 then 1 else countKey m k) else countKey m k' := by
  induction m with
  | nil =>
    by_cases h : k = k' <;> simp [store, countKey, List.filter_cons, h]
  | cons e m ih =>
    obtain ⟨k0, v0⟩ := e
    by_cases h0 : k0 = k
    · subst h0
      by_cases h : k0 = k' <;> simp [store, countKey_cons, h]
    · have h1 : ¬ k = k0 := fun e => h0 e.symm
      by_cases h : k0 = k'
      · subst h
        simp [store, countKey_cons, h0, h1, ih]
      · by_cases h2 : k = k'
        · subst h2
          simp [store, countKey_cons, h0, ih]
        · simp [store, countKey_cons, h0, h, h2, ih]

theorem lookup_delete_self (m : GoMap α) (k : String) : lookup (delete m k) k = none := by
  induction m with
  | nil => simp [delete, lookup]
  | cons e m ih =>
    obtain ⟨k0, v0⟩ := e
    simp only [delete] at ih ⊢
    by_cases h0 : k0 = k
    · simp [List.filter_cons, h0]
      simpa using ih
    · simp [List.filter_cons, h0, lookup]
      simpa using ih

theorem lookup_delete_of_ne (m : GoMap α) {k k' : String} (h : k ≠ k') :
    lookup (delete m k) k' = lookup m k' := by
  induction m with
  | nil => simp [delete, lookup]
  | cons e m ih =>
    obtain ⟨k0, v0⟩ := e
    simp only [delete] at ih ⊢
    by_cases h0 : k0 = k
    · have h1 : ¬ k0 = k' := fun e => h (h0 ▸ e)
      simp [List.filter_cons, h0, lookup]
      subst h0
      simp [h1]
      simpa using ih
    · by_cases h1 : k0 = k'
      · subst h1
        simp [List.filter_cons, h0, lookup]
      · simp [List.filter_cons, h0, lookup, h1]
        simpa using ih

theorem lookup_delete (m : GoMap α) (k k' : String) :
    lookup (delete m k) k' = if k = k' then none else lookup m k' := by
  by_cases h : k = k'
  · subst h; simp [lookup_delete_self]
  · simp [h, lookup_delete_of_ne m h]

end GoMap

/-! ## Lemmas on the registry operations -/

theorem getOrUnexpected_snd (m : GoMap ConfigChain) (name : String) :
    (getOrUnexpected m name).2 = entryOf m name := by
  unfold getOrUnexpected entryOf
  cases GoMap.lookup m name <;> rfl

theorem getOrUnexpected_fst_of_some (m : GoMap ConfigChain) (name : String) (c : ConfigChain)
    (h : GoMap.lookup m name = some c) : (getOrUnexpected m name).1 = m := by
  unfold getOrUnexpected
  rw [h]

theorem getOrUnexpected_fst_of_none (m : GoMap ConfigChain) (name : String)
    (h : GoMap.lookup m name = none) :
    (getOrUnexpected m name).1 = m ++ [(name, unexpectedConfigChain name)] := by
  unfold getOrUnexpected
  rw [h]
  exact GoMap.store_of_lookup_none m name _ h

theorem lookup_getOrUnexpected (m : GoMap ConfigChain) (name k : String) :
    GoMap.lookup (getOrUnexpected m name).1 k =
      if name = k then some (entryOf m name) else GoMap.lookup m k := by
  unfold getOrUnexpected entryOf
  cases h : GoMap.lookup m name with
  | none => simp [GoMap.lookup_store]
  | some c =>
    by_cases hk : name = k
    · subst hk; simp [h]
    · simp [hk]

theorem lookup_getOrUnexpected_self (m : GoMap ConfigChain) (name : String) :
    GoMap.lookup (getOrUnexpected m name).1 name = some (entryOf m name) := by
  simp [lookup_getOrUnexpected]

theorem entryOf_getOrUnexpected (m : GoMap ConfigChain) (name k : String) :
    entryOf (getOrUnexpected m name).1 k = entryOf m k := by
  unfold entryOf
  rw [lookup_getOrUnexpected]
  by_cases hk : name = k
  · subst hk; simp [entryOf]
  · simp [hk]

theorem countKey_getOrUnexpected (m : GoMap ConfigChain) (name k : String) :
    GoMap.countKey (getOrUnexpected m name).1 k =
      if name = k then (if GoMap.countKey m name = 0 then 1 else GoMap.countKey m name)
      else GoMap.countKey m k := by
  unfold getOrUnexpected
  cases h : GoMap.lookup m name with
  | none => simp [GoMap.countKey_store]
  | some c =>
    have h0 : GoMap.countKey m name ≠ 0 := by
      rw [Ne, GoMap.countKey_eq_zero_iff, h]; simp
    by_cases hk : name = k
    · subst hk; simp [h0]
    · simp [hk]

theorem hasKey_eq (m : GoMap ConfigChain) (name key : String) :
    hasKey m name key = (GoMap.lookup (entryOf m name).KeyUsed key).isSome := by
  unfold hasKey entryOf
  cases GoMap.lookup m name <;> simp [unexpectedConfigChain, GoMap.lookup]

/-- The effect of `appendUsedAsVolumn`, with the second `getOrUnexpected` resolved. -/
theorem appendUsedAsVolumn_eq (w : World) (name : String) (usedBy : UsedBy) :
    appendUsedAsVolumn w name usedBy =
      { configChains :=
          GoMap.store (getOrUnexpected w.configChains name).1 name
            { entryOf w.configChains name with
              UsedAsVolumn := (entryOf w.configChains name).UsedAsVolumn ++ [usedBy] }
        stderr := w.stderr } := by
  unfold appendUsedAsVolumn
  simp only [getOrUnexpected_snd, entryOf_getOrUnexpected]
  rw [getOrUnexpected_fst_of_some _ name _ (lookup_getOrUnexpected_self _ _)]

theorem appendKeyUsedAsVolumn_of_some (w : World) (name keyName : String) (usedBy : UsedBy)
    (keyUsed : KeyUsed)
    (h : GoMap.lookup (entryOf w.configChains name).KeyUsed keyName = some keyUsed) :
    appendKeyUsedAsVolumn w name keyName usedBy =
      { configChains :=
          GoMap.store (getOrUnexpected w.configChains name).1 name
            { entryOf w.configChains name with
              KeyUsed :=
                GoMap.store (entryOf w.configChains name).KeyUsed keyName
                  { keyUsed with AsVolumn := keyUsed.AsVolumn ++ [usedBy] } }
        stderr := w.stderr } := by
  unfold appendKeyUsedAsVolumn
  simp only [getOrUnexpected_snd, h]

theorem appendKeyUsedAsVolumn_of_none (w : World) (name keyName : String) (usedBy : UsedBy)
    (h : GoMap.lookup (entryOf w.configChains name).KeyUsed keyName = none) :
    appendKeyUsedAsVolumn w name keyName usedBy =
      { configChains := (getOrUnexpected w.configChains name).1
        stderr := w.stderr ++ [keyName ++ " is not in " ++ name] } := by
  unfold appendKeyUsedAsVolumn
  simp only [getOrUnexpected_snd, h]

theorem appendKeyUsedAsEnv_of_some (w : World) (name keyName : String) (usedBy : UsedBy)
    (keyUsed : KeyUsed)
    (h : GoMap.lookup (entryOf w.configChains name).KeyUsed keyName = some keyUsed) :
    appendKeyUsedAsEnv w name keyName usedBy =
      .ok { configChains :=
              GoMap.store (getOrUnexpected w.configChains name).1 name
                { entryOf w.configChains name with
                  KeyUsed :=
                    GoMap.store (entryOf w.configChains name).KeyUsed keyName
                      { keyUsed with AsEnv := keyUsed.AsEnv ++ [usedBy] } }
            stderr := w.stderr } := by
  unfold appendKeyUsedAsEnv
  simp only [getOrUnexpected_snd, h]

theorem appendKeyUsedAsEnv_of_none (w : World) (name keyName : String) (usedBy : UsedBy)
    (h : GoMap.lookup (entryOf w.configChains name).KeyUsed keyName = none) :
    appendKeyUsedAsEnv w name keyName usedBy = .error (keyName ++ " is not in " ++ name) := by
  unfold appendKeyUsedAsEnv
  simp only [getOrUnexpected_snd, h]

/-! ### The record seen under each key after an operation -/

theorem entryOf_store (m : GoMap ConfigChain) (name k : String) (c : ConfigChain) :
    entryOf (GoMap.store m name c) k = if name = k then c else entryOf m k := by
  unfold entryOf
  rw [GoMap.lookup_store]
  by_cases hk : name = k <;> simp [hk]

theorem entryOf_appendUsedAsVolumn (w : World) (name k : String) (usedBy : UsedBy) :
    entryOf (appendUsedAsVolumn w name usedBy).configChains k =
      if name = k then
        { entryOf w.configChains name with
          UsedAsVolumn := (entryOf w.configChains name).UsedAsVolumn ++ [usedBy] }
      else entryOf w.configChains k := by
  rw [appendUsedAsVolumn_eq]
  simp only [entryOf_store, entryOf_getOrUnexpected]

theorem hasKey_appendUsedAsVolumn (w : World) (name : String) (usedBy : UsedBy)
    (n k : String) :
    hasKey (appendUsedAsVolumn w name usedBy).configChains n k = hasKey w.configChains n k := by
  rw [hasKey_eq, hasKey_eq, entryOf_appendUsedAsVolumn]
  by_cases h : name = n
  · subst h; simp
  · simp [h]

theorem hasKey_store_key (m : GoMap ConfigChain) (name keyName : String) (v0 v : KeyUsed)
    (h : GoMap.lookup (entryOf m name).KeyUsed keyName = some v0) (n k : String) :
    hasKey
        (GoMap.store (getOrUnexpected m name).1 name
          { entryOf m name with KeyUsed := GoMap.store (entryOf m name).KeyUsed keyName v })
        n k =
      hasKey m n k := by
  rw [hasKey_eq, hasKey_eq, entryOf_store, entryOf_getOrUnexpected]
  by_cases hn : name = n
  · subst hn
    simp only [if_true, GoMap.lookup_store]
    by_cases hk : keyName = k
    · subst hk; simp [h]
    · simp [hk]
  · simp [hn]

theorem hasKey_getOrUnexpected (m : GoMap ConfigChain) (name n k : String) :
    hasKey (getOrUnexpected m name).1 n k = hasKey m n k := by
  rw [hasKey_eq, hasKey_eq, entryOf_getOrUnexpected]

theorem hasKey_appendKeyUsedAsVolumn (w : World) (name keyName : String) (usedBy : UsedBy)
    (n k : String) :
    hasKey (appendKeyUsedAsVolumn w name keyName usedBy).configChains n k =
      hasKey w.configChains n k := by
  cases h : GoMap.lookup (entryOf w.configChains name).KeyUsed keyName with
  | none =>
    rw [appendKeyUsedAsVolumn_of_none w name keyName usedBy h]
    exact hasKey_getOrUnexpected _ _ _ _
  | some v0 =>
    rw [appendKeyUsedAsVolumn_of_some w name keyName usedBy v0 h]
    exact hasKey_store_key _ _ _ v0 _ h _ _

theorem appendKeyUsedAsEnv_ok_iff (w : World) (name keyName : String) (usedBy : UsedBy) :
    (∃ w1, appendKeyUsedAsEnv w name keyName usedBy = .ok w1) ↔
      hasKey w.configChains name keyName = true := by
  rw [hasKey_eq]
  cases h : GoMap.lookup (entryOf w.configChains name).KeyUsed keyName with
  | none => simp [appendKeyUsedAsEnv_of_none w name keyName usedBy h]
  | some v0 => simp [appendKeyUsedAsEnv_of_some w name keyName usedBy v0 h]

theorem appendKeyUsedAsEnv_error_of_not_hasKey (w : World) (name keyName : String)
    (usedBy : UsedBy) (h : hasKey w.configChains name keyName = false) :
    appendKeyUsedAsEnv w name keyName usedBy = .error (keyName ++ " is not in " ++ name) := by
  rw [hasKey_eq] at h
  apply appendKeyUsedAsEnv_of_none
  simpa using h

theorem hasKey_appendKeyUsedAsEnv (w w1 : World) (name keyName : String) (usedBy : UsedBy)
    (hok : appendKeyUsedAsEnv w name keyName usedBy = .ok w1) (n k : String) :
    hasKey w1.configChains n k = hasKey w.configChains n k := by
  cases h : GoMap.lookup (entryOf w.configChains name).KeyUsed keyName with
  | none => simp [appendKeyUsedAsEnv_of_none w name keyName usedBy h] at hok
  | some v0 =>
    rw [appendKeyUsedAsEnv_of_some w name keyName usedBy v0 h] at hok
    injection hok with hok
    subst hok
    exact hasKey_store_key _ _ _ v0 _ h _ _

/-! ## The loops of `caculateConfigChain` as runs over reference lists -/

theorem recordVolumeRefs_append (usedBy : UsedBy) (w : World) (xs ys : List VolumeRef) :
    recordVolumeRefs usedBy w (xs ++ ys) =
      recordVolumeRefs usedBy (recordVolumeRefs usedBy w xs) ys := by
  induction xs generalizing w with
  | nil => rfl
  | cons x xs ih => simp [recordVolumeRefs, ih]

theorem caculateItems_eq (name : String) (usedBy : UsedBy) (w : World)
    (items : List v1.KeyToPath) :
    caculateItems name usedBy w items =
      recordVolumeRefs usedBy w (items.map (fun item => VolumeRef.item name item.Key)) := by
  induction items generalizing w with
  | nil => rfl
  | cons item items ih => simp [caculateItems, recordVolumeRefs, recordVolumeRef, ih]

theorem caculateSource_eq (w : World) (name : String) (items : List v1.KeyToPath)
    (usedBy : UsedBy) :
    caculateSource w name items usedBy =
      recordVolumeRefs usedBy w (volumeRefsOfSource name items) := by
  unfold caculateSource volumeRefsOfSource
  by_cases h : items.length = 0
  · simp [h, recordVolumeRefs, recordVolumeRef]
  · simp only [h, if_false, caculateItems_eq]

theorem caculateVolume_eq (w : World) (volume : v1.Volume) (usedBy : UsedBy) :
    caculateVolume w volume usedBy =
      recordVolumeRefs usedBy w (volumeRefsOfVolume volume) := by
  unfold caculateVolume volumeRefsOfVolume
  rw [recordVolumeRefs_append]
  cases volume.VolumeSource.ConfigMap <;> cases volume.VolumeSource.Secret <;>
    simp [caculateSource_eq, recordVolumeRefs]

theorem caculateVolumes_eq (usedBy : UsedBy) (w : World) (volumes : List v1.Volume) :
    caculateVolumes usedBy w volumes = recordVolumeRefs usedBy w (volumeRefs volumes) := by
  induction volumes generalizing w with
  | nil => rfl
  | cons v vs ih =>
    simp [caculateVolumes, volumeRefs, recordVolumeRefs_append, caculateVolume_eq, ih]

theorem recordEnvRefs_append (usedBy : UsedBy) (w : World) (xs ys : List (String × String)) :
    recordEnvRefs usedBy w (xs ++ ys) =
      match recordEnvRefs usedBy w xs with
      | .error e => .error e
      | .ok w1 => recordEnvRefs usedBy w1 ys := by
  induction xs generalizing w with
  | nil => rfl
  | cons x xs ih =>
    simp only [List.cons_append, recordEnvRefs]
    cases appendKeyUsedAsEnv w x.1 x.2 usedBy with
    | error e => rfl
    | ok w1 => exact ih w1

theorem recordEnvRefs_singleton (usedBy : UsedBy) (w : World) (r : String × String) :
    recordEnvRefs usedBy w [r] = appendKeyUsedAsEnv w r.1 r.2 usedBy := by
  simp only [recordEnvRefs]
  cases appendKeyUsedAsEnv w r.1 r.2 usedBy <;> rfl

theorem caculateEnv_eq (w : World) (env : v1.EnvVar) (usedBy : UsedBy) :
    caculateEnv w env usedBy = recordEnvRefs usedBy w (envRefsOfEnv env) := by
  obtain ⟨envName, envValue, valueFrom⟩ := env
  cases valueFrom with
  | none => rfl
  | some valueFrom =>
    obtain ⟨cmRef, secRef⟩ := valueFrom
    cases cmRef <;> cases secRef <;>
      simp only [caculateEnv, envRefsOfEnv, recordEnvRefs_append, recordEnvRefs_singleton] <;>
      rfl

theorem caculateEnvs_eq (usedBy : UsedBy) (w : World) (envs : List v1.EnvVar) :
    caculateEnvs usedBy w envs = recordEnvRefs usedBy w (envRefsOfEnvs envs) := by
  induction envs generalizing w with
  | nil => rfl
  | cons env envs ih =>
    simp only [caculateEnvs, envRefsOfEnvs, recordEnvRefs_append, caculateEnv_eq]
    cases recordEnvRefs usedBy w (envRefsOfEnv env) with
    | error e => rfl
    | ok w1 => exact ih w1

theorem caculateContainers_eq (usedBy : UsedBy) (w : World) (cs : List v1.Container) :
    caculateContainers usedBy w cs = recordEnvRefs usedBy w (envRefsOfContainers cs) := by
  induction cs generalizing w with
  | nil => rfl
  | cons c cs ih =>
    simp only [caculateContainers, envRefsOfContainers, recordEnvRefs_append, caculateEnvs_eq]
    cases recordEnvRefs usedBy w (envRefsOfEnvs c.Env) with
    | error e => rfl
    | ok w1 => exact ih w1

theorem caculateConfigChain_eq (w : World) (podSpec : v1.PodSpec) (usedBy : UsedBy) :
    caculateConfigChain w podSpec usedBy =
      recordEnvRefs usedBy (recordVolumeRefs usedBy w (volumeRefs podSpec.Volumes))
        (envRefs podSpec) := by
  unfold caculateConfigChain envRefs
  rw [caculateVolumes_eq, caculateContainers_eq]

/-! ## Key sets never change -/

theorem hasKey_recordVolumeRef (usedBy : UsedBy) (w : World) (r : VolumeRef) (n k : String) :
    hasKey (recordVolumeRef usedBy w r).configChains n k = hasKey w.configChains n k := by
  cases r with
  | whole name => exact hasKey_appendUsedAsVolumn w name usedBy n k
  | item name key => exact hasKey_appendKeyUsedAsVolumn w name key usedBy n k

theorem hasKey_recordVolumeRefs (usedBy : UsedBy) (w : World) (rs : List VolumeRef)
    (n k : String) :
    hasKey (recordVolumeRefs usedBy w rs).configChains n k = hasKey w.configChains n k := by
  induction rs generalizing w with
  | nil => rfl
  | cons r rs ih => rw [recordVolumeRefs, ih, hasKey_recordVolumeRef]

theorem hasKey_recordEnvRefs (usedBy : UsedBy) (w w1 : World) (rs : List (String × String))
    (hok : recordEnvRefs usedBy w rs = .ok w1) (n k : String) :
    hasKey w1.configChains n k = hasKey w.configChains n k := by
  induction rs generalizing w with
  | nil =>
    simp only [recordEnvRefs] at hok
    injection hok with hok
    rw [hok]
  | cons r rs ih =>
    simp only [recordEnvRefs] at hok
    cases h : appendKeyUsedAsEnv w r.1 r.2 usedBy with
    | error e => simp [h] at hok
    | ok w2 =>
      simp only [h] at hok
      rw [ih w2 hok, hasKey_appendKeyUsedAsEnv w w2 r.1 r.2 usedBy h]


theorem recordEnvRefs_error_iff (usedBy : UsedBy) (w : World) (rs : List (String × String))
    (msg : String) :
    recordEnvRefs usedBy w rs = .error msg ↔
      ∃ r, firstUnknown w.configChains rs = some r ∧ msg = r.2 ++ " is not in " ++ r.1 := by
  induction rs generalizing w with
  | nil => simp [recordEnvRefs, firstUnknown]
  | cons r rs ih =>
    cases hk : hasKey w.configChains r.1 r.2 with
    | false =>
      rw [recordEnvRefs, appendKeyUsedAsEnv_error_of_not_hasKey w r.1 r.2 usedBy hk]
      simp only [firstUnknown, List.find?_cons, hk, Bool.not_false]
      constructor
      · intro h
        injection h with h
        exact ⟨r, rfl, h.symm⟩
      · rintro ⟨r0, h1, h2⟩
        injection h1 with h1
        subst h1
        rw [h2]
    | true =>
      obtain ⟨w1, hw1⟩ := (appendKeyUsedAsEnv_ok_iff w r.1 r.2 usedBy).2 hk
      rw [recordEnvRefs, hw1]
      simp only [firstUnknown, List.find?_cons, hk, Bool.not_true]
      rw [ih w1]
      have hsame : firstUnknown w1.configChains rs = firstUnknown w.configChains rs := by
        unfold firstUnknown
        congr 1
        funext r0
        rw [hasKey_appendKeyUsedAsEnv w w1 r.1 r.2 usedBy hw1]
      rw [hsame]
      rfl

/-! ## What a run over references records -/

theorem addAsVolumn_zero (usedBy : UsedBy) (keyUsed : KeyUsed) :
    addAsVolumn 0 usedBy keyUsed = keyUsed := by
  simp [addAsVolumn]

theorem addAsVolumn_add (a b : Nat) (usedBy : UsedBy) (keyUsed : KeyUsed) :
    addAsVolumn b usedBy (addAsVolumn a usedBy keyUsed) = addAsVolumn (a + b) usedBy keyUsed := by
  simp only [addAsVolumn, List.append_assoc, List.append_replicate_replicate]

theorem addAsEnv_zero (usedBy : UsedBy) (keyUsed : KeyUsed) :
    addAsEnv 0 usedBy keyUsed = keyUsed := by
  simp [addAsEnv]

theorem addAsEnv_add (a b : Nat) (usedBy : UsedBy) (keyUsed : KeyUsed) :
    addAsEnv b usedBy (addAsEnv a usedBy keyUsed) = addAsEnv (a + b) usedBy keyUsed := by
  simp only [addAsEnv, List.append_assoc, List.append_replicate_replicate]

theorem option_map_addAsVolumn_zero (usedBy : UsedBy) (o : Option KeyUsed) :
    o.map (addAsVolumn 0 usedBy) = o := by
  cases o <;> simp [addAsVolumn_zero]

theorem option_map_addAsEnv_zero (usedBy : UsedBy) (o : Option KeyUsed) :
    o.map (addAsEnv 0 usedBy) = o := by
  cases o <;> simp [addAsEnv_zero]

theorem recordedVolumes_nil (usedBy : UsedBy) (name : String) (e : ConfigChain) :
    RecordedVolumes usedBy [] name e e := by
  simp [RecordedVolumes, option_map_addAsVolumn_zero]

theorem recordedVolumes_cons {usedBy : UsedBy} {r : VolumeRef} {rs : List VolumeRef}
    {name : String} {e e1 e2 : ConfigChain}
    (h1 : RecordedVolumes usedBy [r] name e e1) (h2 : RecordedVolumes usedBy rs name e1 e2) :
    RecordedVolumes usedBy (r :: rs) name e e2 := by
  obtain ⟨a1, b1, c1, d1, k1⟩ := h1
  obtain ⟨a2, b2, c2, d2, k2⟩ := h2
  refine ⟨a2.trans a1, b2.trans b1, c2.trans c1, ?_, ?_⟩
  · rw [d2, d1, List.append_assoc, ← List.replicate_add]
    congr 2
    simp only [List.count_cons, List.count_nil]
    omega
  · intro k
    rw [k2, k1]
    cases GoMap.lookup e.KeyUsed k with
    | none => rfl
    | some ku =>
      simp only [Option.map_some', addAsVolumn_add]
      congr 2
      simp only [List.count_cons, List.count_nil]
      omega

theorem recordedEnvs_nil (usedBy : UsedBy) (name : String) (e : ConfigChain) :
    RecordedEnvs usedBy [] name e e := by
  simp [RecordedEnvs, option_map_addAsEnv_zero]

theorem recordedEnvs_cons {usedBy : UsedBy} {r : String × String} {rs : List (String × String)}
    {name : String} {e e1 e2 : ConfigChain}
    (h1 : RecordedEnvs usedBy [r] name e e1) (h2 : RecordedEnvs usedBy rs name e1 e2) :
    RecordedEnvs usedBy (r :: rs) name e e2 := by
  obtain ⟨a1, b1, c1, d1, k1⟩ := h1
  obtain ⟨a2, b2, c2, d2, k2⟩ := h2
  refine ⟨a2.trans a1, b2.trans b1, c2.trans c1, d2.trans d1, ?_⟩
  intro k
  rw [k2, k1]
  cases GoMap.lookup e.KeyUsed k with
  | none => rfl
  | some ku =>
    simp only [Option.map_some', addAsEnv_add]
    congr 2
    simp only [List.count_cons, List.count_nil]
    omega

theorem entryOf_appendKeyUsedAsVolumn (w : World) (name keyName : String) (usedBy : UsedBy)
    (k : String) :
    entryOf (appendKeyUsedAsVolumn w name keyName usedBy).configChains k =
      if name = k then
        match GoMap.lookup (entryOf w.configChains name).KeyUsed keyName with
        | some keyUsed =>
          { entryOf w.configChains name with
            KeyUsed :=
              GoMap.store (entryOf w.configChains name).KeyUsed keyName
                { keyUsed with AsVolumn := keyUsed.AsVolumn ++ [usedBy] } }
        | none => entryOf w.configChains name
      else entryOf w.configChains k := by
  cases h : GoMap.lookup (entryOf w.configChains name).KeyUsed keyName with
  | none =>
    rw [appendKeyUsedAsVolumn_of_none w name keyName usedBy h]
    simp only [entryOf_getOrUnexpected]
    by_cases hk : name = k
    · subst hk; simp
    · simp [hk]
  | some v0 =>
    rw [appendKeyUsedAsVolumn_of_some w name keyName usedBy v0 h]
    simp only [entryOf_store, entryOf_getOrUnexpected]

theorem entryOf_appendKeyUsedAsEnv (w w1 : World) (name keyName : String) (usedBy : UsedBy)
    (hok : appendKeyUsedAsEnv w name keyName usedBy = .ok w1) (k : String) :
    entryOf w1.configChains k =
      if name = k then
        match GoMap.lookup (entryOf w.configChains name).KeyUsed keyName with
        | some keyUsed =>
          { entryOf w.configChains name with
            KeyUsed :=
              GoMap.store (entryOf w.configChains name).KeyUsed keyName
                { keyUsed with AsEnv := keyUsed.AsEnv ++ [usedBy] } }
        | none => entryOf w.configChains name
      else entryOf w.configChains k := by
  cases h : GoMap.lookup (entryOf w.configChains name).KeyUsed keyName with
  | none => simp [appendKeyUsedAsEnv_of_none w name keyName usedBy h] at hok
  | some v0 =>
    rw [appendKeyUsedAsEnv_of_some w name keyName usedBy v0 h] at hok
    injection hok with hok
    subst hok
    simp only [entryOf_store, entryOf_getOrUnexpected]

theorem recordedVolumes_recordVolumeRef (usedBy : UsedBy) (w : World) (r : VolumeRef)
    (n : String) :
    RecordedVolumes usedBy [r] n (entryOf w.configChains n)
      (entryOf (recordVolumeRef usedBy w r).configChains n) := by
  cases r with
  | whole name =>
    simp only [recordVolumeRef, entryOf_appendUsedAsVolumn]
    by_cases hn : name = n
    · subst hn
      simp [RecordedVolumes, List.count_cons, option_map_addAsVolumn_zero]
    · simp [RecordedVolumes, List.count_cons, option_map_addAsVolumn_zero, hn]
  | item name key =>
    simp only [recordVolumeRef, entryOf_appendKeyUsedAsVolumn]
    by_cases hn : name = n
    · subst hn
      simp only [if_true]
      cases h : GoMap.lookup (entryOf w.configChains name).KeyUsed key with
      | none =>
        refine ⟨rfl, rfl, rfl, by simp [List.count_cons], ?_⟩
        intro k
        by_cases hk : key = k
        · subst hk; simp [h]
        · simp [List.count_cons, hk, option_map_addAsVolumn_zero]
      | some v0 =>
        refine ⟨rfl, rfl, rfl, by simp [List.count_cons], ?_⟩
        intro k
        simp only [GoMap.lookup_store]
        by_cases hk : key = k
        · subst hk; simp [h, addAsVolumn, List.count_cons]
        · simp [List.count_cons, hk, option_map_addAsVolumn_zero]
    · simp [RecordedVolumes, List.count_cons, option_map_addAsVolumn_zero, hn]

theorem recordedVolumes_recordVolumeRefs (usedBy : UsedBy) (w : World) (rs : List VolumeRef)
    (n : String) :
    RecordedVolumes usedBy rs n (entryOf w.configChains n)
      (entryOf (recordVolumeRefs usedBy w rs).configChains n) := by
  induction rs generalizing w with
  | nil => exact recordedVolumes_nil _ _ _
  | cons r rs ih =>
    exact recordedVolumes_cons (recordedVolumes_recordVolumeRef usedBy w r n)
      (ih (recordVolumeRef usedBy w r))

theorem recordedEnvs_appendKeyUsedAsEnv (usedBy : UsedBy) (w w1 : World) (r : String × String)
    (hok : appendKeyUsedAsEnv w r.1 r.2 usedBy = .ok w1) (n : String) :
    RecordedEnvs usedBy [r] n (entryOf w.configChains n) (entryOf w1.configChains n) := by
  obtain ⟨name, key⟩ := r
  rw [entryOf_appendKeyUsedAsEnv w w1 name key usedBy hok]
  by_cases hn : name = n
  · subst hn
    simp only [if_true]
    cases h : GoMap.lookup (entryOf w.configChains name).KeyUsed key with
    | none => simp [appendKeyUsedAsEnv_of_none w name key usedBy h] at hok
    | some v0 =>
      refine ⟨rfl, rfl, rfl, rfl, ?_⟩
      intro k
      simp only [GoMap.lookup_store]
      by_cases hk : key = k
      · subst hk; simp [h, addAsEnv, List.count_cons]
      · simp [List.count_cons, hk, option_map_addAsEnv_zero]
  · simp [RecordedEnvs, List.count_cons, option_map_addAsEnv_zero, hn]

theorem recordedEnvs_recordEnvRefs (usedBy : UsedBy) (w w1 : World)
    (rs : List (String × String)) (hok : recordEnvRefs usedBy w rs = .ok w1) (n : String) :
    RecordedEnvs usedBy rs n (entryOf w.configChains n) (entryOf w1.configChains n) := by
  induction rs generalizing w with
  | nil =>
    simp only [recordEnvRefs] at hok
    injection hok with hok
    subst hok
    exact recordedEnvs_nil _ _ _
  | cons r rs ih =>
    simp only [recordEnvRefs] at hok
    cases h : appendKeyUsedAsEnv w r.1 r.2 usedBy with
    | error e => simp [h] at hok
    | ok w2 =>
      simp only [h] at hok
      exact recordedEnvs_cons (recordedEnvs_appendKeyUsedAsEnv usedBy w w2 r h n) (ih w2 hok)

/-! ## Which keys a run creates -/

theorem bump_ne_zero (c : Nat) : bump c ≠ 0 := by
  unfold bump; split <;> omega

theorem bump_bump (c : Nat) : bump (bump c) = bump c := by
  unfold bump; split <;> simp_all

theorem bump_of_ne_zero {c : Nat} (h : c ≠ 0) : bump c = c := by
  simp [bump, h]

theorem lookup_eq_some_entryOf {m : GoMap ConfigChain} {name : String} {c : ConfigChain}
    (h : GoMap.lookup m name = some c) : entryOf m name = c := by
  simp [entryOf, h]

theorem entryOf_of_lookup_none {m : GoMap ConfigChain} {name : String}
    (h : GoMap.lookup m name = none) : entryOf m name = unexpectedConfigChain name := by
  simp [entryOf, h]

theorem lookup_of_countKey_ne_zero {m : GoMap ConfigChain} {name : String}
    (h : GoMap.countKey m name ≠ 0) : GoMap.lookup m name = some (entryOf m name) := by
  cases hl : GoMap.lookup m name with
  | none => exact absurd ((GoMap.countKey_eq_zero_iff m name).2 hl) h
  | some c => simp [entryOf, hl]

theorem countKey_getOrUnexpected_bump (m : GoMap ConfigChain) (name k : String) :
    GoMap.countKey (getOrUnexpected m name).1 k =
      if name = k then bump (GoMap.countKey m k) else GoMap.countKey m k := by
  rw [countKey_getOrUnexpected]
  by_cases h : name = k
  · subst h; simp [bump]
  · simp [h]

theorem countKey_store_getOrUnexpected (m : GoMap ConfigChain) (name k : String)
    (c : ConfigChain) :
    GoMap.countKey (GoMap.store (getOrUnexpected m name).1 name c) k =
      if name = k then bump (GoMap.countKey m k) else GoMap.countKey m k := by
  simp only [GoMap.countKey_store, countKey_getOrUnexpected_bump]
  by_cases h : name = k
  · subst h
    simp [bump_ne_zero]
  · simp [h]

theorem countKey_appendUsedAsVolumn (w : World) (name : String) (usedBy : UsedBy) (k : String) :
    GoMap.countKey (appendUsedAsVolumn w name usedBy).configChains k =
      if name = k then bump (GoMap.countKey w.configChains k)
      else GoMap.countKey w.configChains k := by
  rw [appendUsedAsVolumn_eq]
  exact countKey_store_getOrUnexpected _ _ _ _

theorem countKey_appendKeyUsedAsVolumn (w : World) (name keyName : String) (usedBy : UsedBy)
    (k : String) :
    GoMap.countKey (appendKeyUsedAsVolumn w name keyName usedBy).configChains k =
      if name = k then bump (GoMap.countKey w.configChains k)
      else GoMap.countKey w.configChains k := by
  cases h : GoMap.lookup (entryOf w.configChains name).KeyUsed keyName with
  | none =>
    rw [appendKeyUsedAsVolumn_of_none w name keyName usedBy h]
    exact countKey_getOrUnexpected_bump _ _ _
  | some v0 =>
    rw [appendKeyUsedAsVolumn_of_some w name keyName usedBy v0 h]
    exact countKey_store_getOrUnexpected _ _ _ _

theorem countKey_appendKeyUsedAsEnv (w w1 : World) (name keyName : String) (usedBy : UsedBy)
    (hok : appendKeyUsedAsEnv w name keyName usedBy = .ok w1) (k : String) :
    GoMap.countKey w1.configChains k =
      if name = k then bump (GoMap.countKey w.configChains k)
      else GoMap.countKey w.configChains k := by
  cases h : GoMap.lookup (entryOf w.configChains name).KeyUsed keyName with
  | none => simp [appendKeyUsedAsEnv_of_none w name keyName usedBy h] at hok
  | some v0 =>
    rw [appendKeyUsedAsEnv_of_some w name keyName usedBy v0 h] at hok
    injection hok with hok
    subst hok
    exact countKey_store_getOrUnexpected _ _ _ _

theorem countKey_recordVolumeRef (usedBy : UsedBy) (w : World) (r : VolumeRef) (k : String) :
    GoMap.countKey (recordVolumeRef usedBy w r).configChains k =
      if r.name = k then bump (GoMap.countKey w.configChains k)
      else GoMap.countKey w.configChains k := by
  cases r with
  | whole name => exact countKey_appendUsedAsVolumn w name usedBy k
  | item name key => exact countKey_appendKeyUsedAsVolumn w name key usedBy k

theorem countKey_recordVolumeRefs (usedBy : UsedBy) (w : World) (rs : List VolumeRef)
    (k : String) :
    GoMap.countKey (recordVolumeRefs usedBy w rs).configChains k =
      if k ∈ rs.map VolumeRef.name then bump (GoMap.countKey w.configChains k)
      else GoMap.countKey w.configChains k := by
  induction rs generalizing w with
  | nil => simp [recordVolumeRefs]
  | cons r rs ih =>
    rw [recordVolumeRefs, ih, countKey_recordVolumeRef]
    by_cases h1 : r.name = k
    · subst h1
      by_cases h2 : r.name ∈ rs.map VolumeRef.name
      · simp only [h2, if_true, List.map_cons, List.mem_cons, true_or, bump_bump]
      · simp only [h2, if_false, if_true, List.map_cons, List.mem_cons, true_or]
    · have h3 : ¬ k = r.name := fun e => h1 e.symm
      by_cases h2 : k ∈ rs.map VolumeRef.name
      · simp only [h1, h2, h3, if_true, if_false, List.map_cons, List.mem_cons, or_true]
      · simp only [h1, h2, h3, if_false, List.map_cons, List.mem_cons, or_self]

theorem countKey_recordEnvRefs (usedBy : UsedBy) (w w1 : World) (rs : List (String × String))
    (hok : recordEnvRefs usedBy w rs = .ok w1) (k : String) :
    GoMap.countKey w1.configChains k =
      if k ∈ rs.map Prod.fst then bump (GoMap.countKey w.configChains k)
      else GoMap.countKey w.configChains k := by
  induction rs generalizing w with
  | nil =>
    simp only [recordEnvRefs] at hok
    injection hok with hok
    subst hok
    simp
  | cons r rs ih =>
    simp only [recordEnvRefs] at hok
    cases h : appendKeyUsedAsEnv w r.1 r.2 usedBy with
    | error e => simp [h] at hok
    | ok w2 =>
      simp only [h] at hok
      rw [ih w2 hok, countKey_appendKeyUsedAsEnv w w2 r.1 r.2 usedBy h]
      by_cases h1 : r.1 = k
      · subst h1
        by_cases h2 : r.1 ∈ rs.map Prod.fst
        · simp only [h2, if_true, List.map_cons, List.mem_cons, true_or, bump_bump]
        · simp only [h2, if_false, if_true, List.map_cons, List.mem_cons, true_or]
      · have h3 : ¬ k = r.1 := fun e => h1 e.symm
        by_cases h2 : k ∈ rs.map Prod.fst
        · simp only [h1, h2, h3, if_true, if_false, List.map_cons, List.mem_cons, or_true]
        · simp only [h1, h2, h3, if_false, List.map_cons, List.mem_cons, or_self]

/-! ## Strings -/

theorem configmapKey_ne_secretKey (a b : String) : configmapKey a ≠ secretKey b := by
  intro h
  have := congrArg String.data h
  simp [configmapKey, secretKey, String.data_append] at this

theorem configmapKey_injective {a b : String} (h : configmapKey a = configmapKey b) : a = b := by
  have := congrArg String.data h
  simp only [configmapKey, String.data_append, List.append_cancel_left_eq] at this
  exact String.ext this

theorem secretKey_injective {a b : String} (h : secretKey a = secretKey b) : a = b := by
  have := congrArg String.data h
  simp only [secretKey, String.data_append, List.append_cancel_left_eq] at this
  exact String.ext this

theorem stringsSplit_configmapKey (name : String) :
    (stringsSplit (configmapKey name) '/').headD "" = "configmap" := by
  have h : (configmapKey name).data = "configmap/".data ++ name.data := by
    simp [configmapKey, String.data_append]
  unfold stringsSplit
  rw [h]
  simp [splitChars]

theorem stringsSplit_secretKey (name : String) :
    (stringsSplit (secretKey name) '/').headD "" = "secret" := by
  have h : (secretKey name).data = "secret/".data ++ name.data := by
    simp [secretKey, String.data_append]
  unfold stringsSplit
  rw [h]
  simp [splitChars]

theorem unexpectedConfigChain_configmapKey (name : String) :
    unexpectedConfigChain (configmapKey name) =
      { Name := configmapKey name, Type_ := "unexpected/configmap", Namespace := "",
        UsedAsVolumn := [], KeyUsed := [] } := by
  unfold unexpectedConfigChain
  rw [stringsSplit_configmapKey]
  rfl

theorem unexpectedConfigChain_secretKey (name : String) :
    unexpectedConfigChain (secretKey name) =
      { Name := secretKey name, Type_ := "unexpected/secret", Namespace := "",
        UsedAsVolumn := [], KeyUsed := [] } := by
  unfold unexpectedConfigChain
  rw [stringsSplit_secretKey]
  rfl

theorem GoMap.eq_nil_of_lookup_none {α : Type} (m : GoMap α)
    (h : ∀ k, GoMap.lookup m k = none) : m = [] := by
  cases m with
  | nil => rfl
  | cons e m =>
    obtain ⟨k0, v0⟩ := e
    have := h k0
    simp [GoMap.lookup] at this

/-! ## Environment references: the strict policy -/

theorem mem_envRefsOfEnv (env : v1.EnvVar) (r : String × String) :
    r ∈ envRefsOfEnv env ↔
      ∃ valueFrom, env.ValueFrom = some valueFrom ∧
        ((∃ s, valueFrom.ConfigMapKeyRef = some s ∧ r = (configmapKey s.Name, s.Key)) ∨
          (∃ s, valueFrom.SecretKeyRef = some s ∧ r = (secretKey s.Name, s.Key))) := by
  obtain ⟨envName, envValue, valueFrom⟩ := env
  cases valueFrom with
  | none => simp [envRefsOfEnv]
  | some valueFrom =>
    obtain ⟨cmRef, secRef⟩ := valueFrom
    cases cmRef <;> cases secRef <;> simp [envRefsOfEnv]

theorem mem_envRefsOfEnvs (envs : List v1.EnvVar) (r : String × String) :
    r ∈ envRefsOfEnvs envs ↔ ∃ env ∈ envs, r ∈ envRefsOfEnv env := by
  induction envs with
  | nil => simp [envRefsOfEnvs]
  | cons env envs ih => simp [envRefsOfEnvs, ih]

theorem mem_envRefsOfContainers (cs : List v1.Container) (r : String × String) :
    r ∈ envRefsOfContainers cs ↔ ∃ c ∈ cs, ∃ env ∈ c.Env, r ∈ envRefsOfEnv env := by
  induction cs with
  | nil => simp [envRefsOfContainers]
  | cons c cs ih => simp [envRefsOfContainers, ih, mem_envRefsOfEnvs]

theorem firstUnknown_isSome_iff (m : GoMap ConfigChain) (rs : List (String × String)) :
    (∃ r, firstUnknown m rs = some r) ↔ ∃ r ∈ rs, hasKey m r.1 r.2 = false := by
  unfold firstUnknown
  constructor
  · rintro ⟨r, hr⟩
    refine ⟨r, List.mem_of_find?_eq_some hr, ?_⟩
    simpa using List.find?_some hr
  · rintro ⟨r, hr, hk⟩
    cases h : rs.find? (fun r => !hasKey m r.1 r.2) with
    | some r0 => exact ⟨r0, rfl⟩
    | none =>
      rw [List.find?_eq_none] at h
      have := h r hr
      simp [hk] at this

theorem caculateConfigChain_error_iff (w : World) (podSpec : v1.PodSpec) (usedBy : UsedBy)
    (msg : String) :
    caculateConfigChain w podSpec usedBy = .error msg ↔
      ∃ r, firstUnknown w.configChains (envRefs podSpec) = some r ∧
        msg = r.2 ++ " is not in " ++ r.1 := by
  rw [caculateConfigChain_eq, recordEnvRefs_error_iff]
  have hsame :
      firstUnknown (recordVolumeRefs usedBy w (volumeRefs podSpec.Volumes)).configChains
          (envRefs podSpec) =
        firstUnknown w.configChains (envRefs podSpec) := by
    unfold firstUnknown
    congr 1
    funext r
    rw [hasKey_recordVolumeRefs]
  rw [hsame]

/-- The environment entries that make `caculateConfigChain` panic. -/
theorem caculateConfigChain_panics_iff (w : World) (podSpec : v1.PodSpec) (usedBy : UsedBy) :
    (∃ msg, caculateConfigChain w podSpec usedBy = .error msg) ↔
      ∃ c ∈ podSpec.Containers, ∃ env ∈ c.Env, ∃ valueFrom,
        env.ValueFrom = some valueFrom ∧
          ((∃ s, valueFrom.ConfigMapKeyRef = some s ∧
              hasKey w.configChains (configmapKey s.Name) s.Key = false) ∨
            (∃ s, valueFrom.SecretKeyRef = some s ∧
              hasKey w.configChains (secretKey s.Name) s.Key = false)) := by
  constructor
  · rintro ⟨msg, hmsg⟩
    obtain ⟨r, hr, -⟩ := (caculateConfigChain_error_iff w podSpec usedBy msg).1 hmsg
    obtain ⟨r0, hmem, hk⟩ := (firstUnknown_isSome_iff _ _).1 ⟨r, hr⟩
    obtain ⟨c, hc, env, henv, hin⟩ := (mem_envRefsOfContainers _ _).1 hmem
    obtain ⟨valueFrom, hvf, hcase⟩ := (mem_envRefsOfEnv _ _).1 hin
    refine ⟨c, hc, env, henv, valueFrom, hvf, ?_⟩
    rcases hcase with ⟨s, hs, rfl⟩ | ⟨s, hs, rfl⟩
    · exact Or.inl ⟨s, hs, hk⟩
    · exact Or.inr ⟨s, hs, hk⟩
  · rintro ⟨c, hc, env, henv, valueFrom, hvf, hcase⟩
    have hex : ∃ r ∈ envRefs podSpec, hasKey w.configChains r.1 r.2 = false := by
      rcases hcase with ⟨s, hs, hk⟩ | ⟨s, hs, hk⟩
      · exact ⟨(configmapKey s.Name, s.Key),
          (mem_envRefsOfContainers _ _).2
            ⟨c, hc, env, henv, (mem_envRefsOfEnv _ _).2 ⟨valueFrom, hvf, Or.inl ⟨s, hs, rfl⟩⟩⟩,
          hk⟩
      · exact ⟨(secretKey s.Name, s.Key),
          (mem_envRefsOfContainers _ _).2
            ⟨c, hc, env, henv, (mem_envRefsOfEnv _ _).2 ⟨valueFrom, hvf, Or.inr ⟨s, hs, rfl⟩⟩⟩,
          hk⟩
    obtain ⟨r, hr⟩ := (firstUnknown_isSome_iff _ _).2 hex
    exact ⟨_, (caculateConfigChain_error_iff w podSpec usedBy _).2 ⟨r, hr, rfl⟩⟩

/-- C1: `caculateConfigChain` panics if and only if some container environment
entry has a `ConfigMapKeyRef` or `SecretKeyRef` whose key is not in the `KeyUsed`
map the registry held for the referenced composite key before the call (a source
absent from the registry has no keys); the panic message is
`"<key> is not in <kind>/<name>"` for the first such reference in container/env
order. -/
theorem caculateConfigChain_panics_iff_unknown_env_key (w : World) (podSpec : v1.PodSpec)
    (usedBy : UsedBy) :
    ((∃ msg, caculateConfigChain w podSpec usedBy = .error msg) ↔
        ∃ c ∈ podSpec.Containers, ∃ env ∈ c.Env, ∃ valueFrom,
          env.ValueFrom = some valueFrom ∧
            ((∃ s, valueFrom.ConfigMapKeyRef = some s ∧
                hasKey w.configChains (configmapKey s.Name) s.Key = false) ∨
              (∃ s, valueFrom.SecretKeyRef = some s ∧
                hasKey w.configChains (secretKey s.Name) s.Key = false))) ∧
      (∀ msg, caculateConfigChain w podSpec usedBy = .error msg ↔
        ∃ r, (envRefs podSpec).find? (fun r => !hasKey w.configChains r.1 r.2) = some r ∧
          msg = r.2 ++ " is not in " ++ r.1) :=
  ⟨caculateConfigChain_panics_iff w podSpec usedBy,
    fun msg => caculateConfigChain_error_iff w podSpec usedBy msg⟩

/-! ## Volume items: the tolerant policy -/

theorem count_item_map (name k : String) (items : List v1.KeyToPath) :
    (items.map (fun item => VolumeRef.item name item.Key)).count (VolumeRef.item name k) =
      items.countP (fun item => decide (item.Key = k)) := by
  induction items with
  | nil => rfl
  | cons item items ih =>
    by_cases h : item.Key = k <;> simp [List.count_cons, List.countP_cons, h, ih]

theorem count_whole_map_item (name n : String) (items : List v1.KeyToPath) :
    (items.map (fun item => VolumeRef.item name item.Key)).count (VolumeRef.whole n) = 0 := by
  induction items with
  | nil => rfl
  | cons item items ih => simp [List.count_cons, ih]

/-! ## Placeholders for sources that were not listed -/

theorem count_whole_volumeRefsOfSource (name n : String) (items : List v1.KeyToPath) :
    (volumeRefsOfSource n items).count (VolumeRef.whole name) =
      if n = name ∧ items.length = 0 then 1 else 0 := by
  unfold volumeRefsOfSource
  by_cases h : items.length = 0
  · by_cases hn : n = name <;> simp [h, hn, List.count_cons]
  · simp [h, count_whole_map_item]

theorem count_whole_volumeRefs (name : String) (volumes : List v1.Volume) :
    (volumeRefs volumes).count (VolumeRef.whole name) = wholeMounts name volumes := by
  induction volumes with
  | nil => rfl
  | cons v vs ih =>
    obtain ⟨vname, cm, sec⟩ := v
    simp only [volumeRefs, wholeMounts, List.count_append, ih, volumeRefsOfVolume,
      wholeMountsOfVolume]
    cases cm <;> cases sec <;> simp [count_whole_volumeRefsOfSource]

theorem mem_names_of_count_pos {rs : List VolumeRef} {name : String}
    (h : 0 < rs.count (VolumeRef.whole name)) : name ∈ rs.map VolumeRef.name := by
  have hm : VolumeRef.whole name ∈ rs := List.count_pos_iff.1 h
  exact List.mem_map.2 ⟨_, hm, rfl⟩

/-- What `caculateConfigChain` leaves under a composite key that was not in the
registry and that some volume of the workload mounts whole. -/
theorem placeholder_after_whole_mount (w w1 : World) (podSpec : v1.PodSpec) (usedBy : UsedBy)
    (name : String) (habs : GoMap.lookup w.configChains name = none)
    (hvol : 0 < wholeMounts name podSpec.Volumes)
    (hok : caculateConfigChain w podSpec usedBy = .ok w1) :
    GoMap.lookup w1.configChains name =
        some { unexpectedConfigChain name with
               UsedAsVolumn := List.replicate (wholeMounts name podSpec.Volumes) usedBy } ∧
      GoMap.countKey w1.configChains name = 1 := by
  rw [caculateConfigChain_eq] at hok
  have hv := recordedVolumes_recordVolumeRefs usedBy w (volumeRefs podSpec.Volumes) name
  have he := recordedEnvs_recordEnvRefs usedBy _ w1 (envRefs podSpec) hok name
  rw [entryOf_of_lookup_none habs] at hv
  obtain ⟨a1, b1, c1, d1, k1⟩ := hv
  rw [count_whole_volumeRefs] at d1
  obtain ⟨a2, b2, c2, d2, k2⟩ := he
  have hcount : GoMap.countKey w1.configChains name = 1 := by
    rw [countKey_recordEnvRefs usedBy _ w1 (envRefs podSpec) hok, countKey_recordVolumeRefs]
    have h0 : GoMap.countKey w.configChains name = 0 := (GoMap.countKey_eq_zero_iff _ _).2 habs
    have hmem : name ∈ (volumeRefs podSpec.Volumes).map VolumeRef.name :=
      mem_names_of_count_pos (by rw [count_whole_volumeRefs]; exact hvol)
    simp [hmem, h0, bump]
  refine ⟨?_, hcount⟩
  rw [lookup_of_countKey_ne_zero (by rw [hcount]; exact one_ne_zero)]
  have hkeys : (entryOf w1.configChains name).KeyUsed = [] := by
    apply GoMap.eq_nil_of_lookup_none
    intro k
    rw [k2, k1]
    simp [unexpectedConfigChain, GoMap.lookup]
  have hused : (entryOf w1.configChains name).UsedAsVolumn =
      List.replicate (wholeMounts name podSpec.Volumes) usedBy := by
    rw [d2, d1]
    simp [unexpectedConfigChain]
  generalize entryOf w1.configChains name = e at a2 b2 c2 hkeys hused
  obtain ⟨eName, eType, eNamespace, eUsed, eKeys⟩ := e
  simp only at a2 b2 c2 hkeys hused
  rw [a2, a1, b2, b1, c2, c1, hkeys, hused]
  rfl

/-- C3 (amended): if the registry has no entry under `"<kind>/<name>"` and the
workload has at least one volume naming that source with no item list, then
after a completed `caculateConfigChain` the registry has exactly one entry under
that key; its `Type` is `"unexpected/<kind>"`, its `Namespace` and `KeyUsed` are
empty, and its `UsedAsVolumn` holds the workload reference once per such volume
(so exactly once when exactly one volume mounts the source whole). -/
theorem unexpected_entry_after_whole_mount (w w1 : World) (podSpec : v1.PodSpec)
    (usedBy : UsedBy) (kind name key : String)
    (hkey : kind = "configmap" ∧ key = configmapKey name ∨
      kind = "secret" ∧ key = secretKey name)
    (habs : GoMap.lookup w.configChains key = none)
    (hvol : 0 < wholeMounts key podSpec.Volumes)
    (hok : caculateConfigChain w podSpec usedBy = .ok w1) :
    GoMap.lookup w1.configChains key =
        some { Name := key, Type_ := "unexpected/" ++ kind, Namespace := "",
               UsedAsVolumn := List.replicate (wholeMounts key podSpec.Volumes) usedBy,
               KeyUsed := [] } ∧
      GoMap.countKey w1.configChains key = 1 ∧
      (wholeMounts key podSpec.Volumes = 1 →
        ∃ e, GoMap.lookup w1.configChains key = some e ∧ e.UsedAsVolumn = [usedBy]) := by
  obtain ⟨h1, h2⟩ := placeholder_after_whole_mount w w1 podSpec usedBy key habs hvol hok
  have h3 : GoMap.lookup w1.configChains key =
      some { Name := key, Type_ := "unexpected/" ++ kind, Namespace := "",
             UsedAsVolumn := List.replicate (wholeMounts key podSpec.Volumes) usedBy,
             KeyUsed := [] } := by
    rw [h1]
    rcases hkey with ⟨hk, rfl⟩ | ⟨hk, rfl⟩
    · rw [unexpectedConfigChain_configmapKey, hk]; rfl
    · rw [unexpectedConfigChain_secretKey, hk]; rfl
  refine ⟨h3, h2, ?_⟩
  intro hone
  exact ⟨_, h3, by simp [hone]⟩

/-- C3 (amended), at a concrete input: one deployment mounting the unlisted
configmap `foo` whole, resolved against the empty registry. -/
theorem unexpected_entry_after_whole_mount_witness :
    GoMap.lookup emptyWorld.configChains "configmap/foo" = none ∧
      0 < wholeMounts "configmap/foo" oneFooPod.Volumes ∧
      caculateConfigChain emptyWorld oneFooPod "deployment/web" = .ok oneFooResult ∧
      GoMap.countKey oneFooResult.configChains "configmap/foo" = 1 :=
  ⟨by decide, by decide, rfl,
    (unexpected_entry_after_whole_mount emptyWorld oneFooResult oneFooPod "deployment/web"
      "configmap" "foo" "configmap/foo" (Or.inl ⟨rfl, by decide⟩) (by decide) (by decide)
      rfl).2.1⟩

/-- C3, as stated, fails: a workload with two volumes that both mount the
unlisted configmap `foo` whole is recorded twice in its `UsedAsVolumn`. -/
theorem unexpected_entry_used_once_counterexample :
    GoMap.lookup emptyWorld.configChains (configmapKey "foo") = none ∧
      (∃ v ∈ twoFooPod.Volumes, v.VolumeSource.ConfigMap = some ⟨"foo", []⟩) ∧
      ∃ w1 e, caculateConfigChain emptyWorld twoFooPod "deployment/web" = .ok w1 ∧
        GoMap.lookup w1.configChains (configmapKey "foo") = some e ∧
        e.UsedAsVolumn = ["deployment/web", "deployment/web"] ∧
        e.UsedAsVolumn ≠ ["deployment/web"] :=
  ⟨by decide, ⟨fooVolume "v1", by decide, by decide⟩,
    ⟨twoFooResult,
      { Name := "configmap/foo", Type_ := "unexpected/configmap", Namespace := "",
        UsedAsVolumn := ["deployment/web", "deployment/web"], KeyUsed := [] },
      rfl, by decide, by decide, by decide⟩⟩

/-! ## Environment references to sources that were not listed -/

theorem hasKey_of_lookup_none {m : GoMap ConfigChain} {name : String}
    (h : GoMap.lookup m name = none) (key : String) : hasKey m name key = false := by
  simp [hasKey, h]

/-- C4, as stated, fails: resolving a workload whose container references key
`k` of the unlisted configmap `foo` aborts the run. -/
theorem env_reference_to_unlisted_source_counterexample :
    GoMap.lookup emptyWorld.configChains (configmapKey "foo") = none ∧
      (∃ c ∈ envFooPod.Containers, ∃ env ∈ c.Env, ∃ valueFrom,
        env.ValueFrom = some valueFrom ∧ valueFrom.ConfigMapKeyRef = some ⟨"foo", "k"⟩) ∧
      caculateConfigChain emptyWorld envFooPod "deployment/web" =
        .error "k is not in configmap/foo" :=
  ⟨by decide,
    ⟨_, List.mem_singleton.2 rfl, _, List.mem_singleton.2 rfl, _, rfl, rfl⟩, rfl⟩

/-! ## The registry built from the listed sources -/

theorem lookup_newKeyUsed (keyUsed : GoMap KeyUsed) (keyNames : List String) (k : String) :
    GoMap.lookup (newKeyUsed keyUsed keyNames) k =
      if k ∈ keyNames then some { AsEnv := [], AsVolumn := [] } else GoMap.lookup keyUsed k := by
  induction keyNames generalizing keyUsed with
  | nil => simp [newKeyUsed]
  | cons keyName keyNames ih =>
    rw [newKeyUsed, ih, GoMap.lookup_store]
    by_cases h1 : k ∈ keyNames
    · simp [h1]
    · by_cases h2 : keyName = k
      · subst h2; simp
      · have h3 : ¬ k = keyName := fun e => h2 e.symm
        simp [h1, h2, h3]

theorem readConfigMaps_eq_storeAll (m : GoMap ConfigChain) (configmaps : List v1.ConfigMap) :
    readConfigMaps m configmaps =
      storeAll m (configmaps.map (fun c => (configmapKey c.Name, configChainOfConfigMap c))) := by
  induction configmaps generalizing m with
  | nil => rfl
  | cons c cs ih => simp only [readConfigMaps, List.map_cons, storeAll, ih]; rfl

theorem readSecrets_eq_storeAll (m : GoMap ConfigChain) (secrets : List v1.Secret) :
    readSecrets m secrets =
      storeAll m (secrets.map (fun s => (secretKey s.Name, configChainOfSecret s))) := by
  induction secrets generalizing m with
  | nil => rfl
  | cons s ss ih => simp only [readSecrets, List.map_cons, storeAll, ih]; rfl

theorem GoMap.keys_append {α : Type} (a b : GoMap α) :
    GoMap.keys (a ++ b) = GoMap.keys a ++ GoMap.keys b := by
  simp [GoMap.keys]

theorem storeAll_eq_append {α : Type} (m kvs : GoMap α)
    (hnodup : (GoMap.keys kvs).Nodup) (hnew : ∀ k ∈ GoMap.keys kvs, k ∉ GoMap.keys m) :
    storeAll m kvs = m ++ kvs := by
  induction kvs generalizing m with
  | nil => simp [storeAll]
  | cons kv kvs ih =>
    obtain ⟨k0, v0⟩ := kv
    simp only [GoMap.keys, List.map_cons, List.nodup_cons] at hnodup
    have h0 : GoMap.lookup m k0 = none :=
      (GoMap.lookup_eq_none_iff m k0).2 (hnew k0 (by simp [GoMap.keys]))
    rw [storeAll, GoMap.store_of_lookup_none m k0 v0 h0, ih _ hnodup.2]
    · simp
    · intro k hk
      rw [GoMap.keys_append]
      simp only [List.mem_append, not_or]
      refine ⟨hnew k (by simp only [GoMap.keys, List.map_cons, List.mem_cons]; exact Or.inr hk),
        ?_⟩
      simp only [GoMap.keys, List.map_cons, List.map_nil, List.mem_singleton]
      intro e
      subst e
      exact hnodup.1 hk

theorem GoMap.lookup_of_mem {α : Type} (m : GoMap α) (hnodup : (GoMap.keys m).Nodup)
    (k : String) (v : α) (hmem : (k, v) ∈ m) : GoMap.lookup m k = some v := by
  induction m with
  | nil => simp at hmem
  | cons e m ih =>
    obtain ⟨k0, v0⟩ := e
    simp only [GoMap.keys, List.map_cons, List.nodup_cons] at hnodup
    rcases List.mem_cons.1 hmem with h | h
    · injection h with h1 h2
      subst h1 h2
      simp [GoMap.lookup]
    · have hne : ¬ k0 = k := by
        intro e
        subst e
        exact hnodup.1 (List.mem_map.2 ⟨(k0, v), h, rfl⟩)
      simp only [GoMap.lookup, hne, if_false]
      exact ih hnodup.2 h

theorem sourceKeys_nodup (configmaps : List v1.ConfigMap) (secrets : List v1.Secret)
    (hcm : (configmaps.map (fun c => c.Name)).Nodup)
    (hsec : (secrets.map (fun s => s.Name)).Nodup) :
    (configmaps.map (fun c => configmapKey c.Name) ++
      secrets.map (fun s => secretKey s.Name)).Nodup := by
  rw [List.nodup_append]
  refine ⟨?_, ?_, ?_⟩
  · have := List.Nodup.map (f := configmapKey) (fun a b h => configmapKey_injective h) hcm
    simpa [List.map_map] using this
  · have := List.Nodup.map (f := secretKey) (fun a b h => secretKey_injective h) hsec
    simpa [List.map_map] using this
  · intro k h1 h2
    obtain ⟨c, -, rfl⟩ := List.mem_map.1 h1
    obtain ⟨s, -, hs⟩ := List.mem_map.1 h2
    exact configmapKey_ne_secretKey _ _ hs.symm

/-- With names unique within each kind, the first phase of `readConfigChains`
builds the list of the sources' records, in listing order. -/
theorem readSources_eq (configmaps : List v1.ConfigMap) (secrets : List v1.Secret)
    (hcm : (configmaps.map (fun c => c.Name)).Nodup)
    (hsec : (secrets.map (fun s => s.Name)).Nodup) :
    readSecrets (readConfigMaps [] configmaps) secrets =
      configmaps.map (fun c => (configmapKey c.Name, configChainOfConfigMap c)) ++
        secrets.map (fun s => (secretKey s.Name, configChainOfSecret s)) := by
  have hall := sourceKeys_nodup configmaps secrets hcm hsec
  rw [List.nodup_append] at hall
  obtain ⟨h1, h2, h3⟩ := hall
  rw [readSecrets_eq_storeAll, readConfigMaps_eq_storeAll,
    storeAll_eq_append [] _ (by simpa [GoMap.keys, List.map_map] using h1) (by simp [GoMap.keys]),
    storeAll_eq_append _ _ (by simpa [GoMap.keys, List.map_map] using h2)]
  · simp
  · intro k hk hk2
    simp only [GoMap.keys, List.map_map, List.nil_append] at hk hk2
    exact h3 (by simpa using hk2) (by simpa using hk)

/-- C5: for configmaps and secrets with names unique within each kind, the
registry built by the first phase of `readConfigChains` has exactly one entry per
source: its keys are the composite keys `"configmap/<name>"` and
`"secret/<name>"` of the sources, without repetition (a configmap key is never a
secret key), and the entry of a source has the source's `Name`, the `Type`
`"configmap"` or `"secret"`, the source's `Namespace`, an empty `UsedAsVolumn`,
and a `KeyUsed` map whose keys are exactly the keys of the source's data, each
with empty `AsEnv` and `AsVolumn`. -/
theorem registry_built_from_sources (configmaps : List v1.ConfigMap) (secrets : List v1.Secret)
    (hcm : (configmaps.map (fun c => c.Name)).Nodup)
    (hsec : (secrets.map (fun s => s.Name)).Nodup) :
    GoMap.keys (readSecrets (readConfigMaps [] configmaps) secrets) =
        configmaps.map (fun c => configmapKey c.Name) ++
          secrets.map (fun s => secretKey s.Name) ∧
      (GoMap.keys (readSecrets (readConfigMaps [] configmaps) secrets)).Nodup ∧
      (∀ a b, configmapKey a ≠ secretKey b) ∧
      (∀ c ∈ configmaps,
        ∃ e, GoMap.lookup (readSecrets (readConfigMaps [] configmaps) secrets)
              (configmapKey c.Name) = some e ∧
          e.Name = c.Name ∧ e.Type_ = "configmap" ∧ e.Namespace = c.Namespace ∧
          e.UsedAsVolumn = [] ∧
          ∀ k, GoMap.lookup e.KeyUsed k =
            if k ∈ GoMap.keys c.Data then some { AsEnv := [], AsVolumn := [] } else none) ∧
      (∀ s ∈ secrets,
        ∃ e, GoMap.lookup (readSecrets (readConfigMaps [] configmaps) secrets)
              (secretKey s.Name) = some e ∧
          e.Name = s.Name ∧ e.Type_ = "secret" ∧ e.Namespace = s.Namespace ∧
          e.UsedAsVolumn = [] ∧
          ∀ k, GoMap.lookup e.KeyUsed k =
            if k ∈ GoMap.keys s.Data then some { AsEnv := [], AsVolumn := [] } else none) := by
  have hkeys : GoMap.keys (readSecrets (readConfigMaps [] configmaps) secrets) =
      configmaps.map (fun c => configmapKey c.Name) ++
        secrets.map (fun s => secretKey s.Name) := by
    rw [readSources_eq configmaps secrets hcm hsec]
    simp [GoMap.keys, List.map_map, Function.comp_def]
  have hnodup := sourceKeys_nodup configmaps secrets hcm hsec
  rw [← hkeys] at hnodup
  refine ⟨hkeys, hnodup, configmapKey_ne_secretKey, ?_, ?_⟩
  · intro c hc
    refine ⟨configChainOfConfigMap c, ?_, rfl, rfl, rfl, rfl, ?_⟩
    · apply GoMap.lookup_of_mem _ hnodup
      rw [readSources_eq configmaps secrets hcm hsec]
      exact List.mem_append_left _ (List.mem_map.2 ⟨c, hc, rfl⟩)
    · intro k
      simp [configChainOfConfigMap, lookup_newKeyUsed, GoMap.lookup]
  · intro s hs
    refine ⟨configChainOfSecret s, ?_, rfl, rfl, rfl, rfl, ?_⟩
    · apply GoMap.lookup_of_mem _ hnodup
      rw [readSources_eq configmaps secrets hcm hsec]
      exact List.mem_append_right _ (List.mem_map.2 ⟨s, hs, rfl⟩)
    · intro k
      simp [configChainOfSecret, lookup_newKeyUsed, GoMap.lookup]

/-- C5, at a concrete input: a configmap and a secret that are both called
`app-config` get one entry each. -/
theorem registry_built_from_sources_witness :
    ([appConfig].map (fun c => c.Name)).Nodup ∧ ([appSecret].map (fun s => s.Name)).Nodup ∧
      GoMap.keys (readSecrets (readConfigMaps [] [appConfig]) [appSecret]) =
        [appConfig].map (fun c => configmapKey c.Name) ++
          [appSecret].map (fun s => secretKey s.Name) :=
  ⟨by decide, by decide,
    (registry_built_from_sources [appConfig] [appSecret] (by decide) (by decide)).1⟩

/-! ## Listed sources and keys survive resolution -/

theorem survives_refl (w : World) : Survives w w :=
  fun _ => ⟨fun h => h, fun _ => rfl⟩

theorem survives_trans {w w1 w2 : World} (h1 : Survives w w1) (h2 : Survives w1 w2) :
    Survives w w2 :=
  fun name =>
    ⟨fun h => (h2 name).1 ((h1 name).1 h), fun key => ((h2 name).2 key).trans ((h1 name).2 key)⟩

theorem lookup_ne_none_iff_countKey (m : GoMap ConfigChain) (name : String) :
    GoMap.lookup m name ≠ none ↔ GoMap.countKey m name ≠ 0 := by
  rw [Ne, Ne, GoMap.countKey_eq_zero_iff]

theorem survives_caculateConfigChain (w w1 : World) (podSpec : v1.PodSpec) (usedBy : UsedBy)
    (hok : caculateConfigChain w podSpec usedBy = .ok w1) : Survives w w1 := by
  rw [caculateConfigChain_eq] at hok
  intro name
  constructor
  · rw [lookup_ne_none_iff_countKey, lookup_ne_none_iff_countKey,
      countKey_recordEnvRefs usedBy _ w1 _ hok, countKey_recordVolumeRefs]
    intro h
    have hb := bump_ne_zero (GoMap.countKey w.configChains name)
    split <;> split <;> simp_all [bump_ne_zero]
  · intro key
    rw [hasKey_recordEnvRefs usedBy _ w1 _ hok, hasKey_recordVolumeRefs]

theorem survives_resolveWorkloads (newUsedBy : v1.Workload → UsedBy) (w w1 : World)
    (workloads : List v1.Workload) (hok : resolveWorkloads newUsedBy w workloads = .ok w1) :
    Survives w w1 := by
  induction workloads generalizing w with
  | nil =>
    simp only [resolveWorkloads] at hok
    injection hok with hok
    subst hok
    exact survives_refl w
  | cons x xs ih =>
    simp only [resolveWorkloads] at hok
    cases h : caculateConfigChain w x.PodSpec (newUsedBy x) with
    | error e => simp [h] at hok
    | ok w2 =>
      simp only [h] at hok
      exact survives_trans (survives_caculateConfigChain w w2 _ _ h) (ih w2 hok)

theorem readWorkloads_returned (kind : String) (newUsedBy : v1.Workload → UsedBy)
    (result : ListResult v1.Workload) (w : World) (next : World → Outcome)
    (reg : GoMap ConfigChain) (stderr : List String)
    (h : readWorkloads kind newUsedBy result w next = .returned reg stderr) :
    ∃ items w1, result.list = some items ∧ result.err = none ∧
      resolveWorkloads newUsedBy w items = .ok w1 ∧ next w1 = .returned reg stderr := by
  unfold readWorkloads at h
  cases herr : result.err with
  | some e => simp [herr] at h
  | none =>
    cases hlist : result.list with
    | none => simp [herr, hlist] at h
    | some items =>
      cases hres : resolveWorkloads newUsedBy w items with
      | error msg => simp [herr, hlist, hres] at h
      | ok w1 =>
        simp only [herr, hlist, hres] at h
        exact ⟨items, w1, rfl, rfl, hres, h⟩

/-- A returning `readConfigChains` has built the registry from the two source
lists and resolved the four workload lists in order. -/
theorem readConfigChains_returned (clientset : Clientset) (reg : GoMap ConfigChain)
    (stderr : List String) (h : readConfigChains (.ok clientset) = .returned reg stderr) :
    ∃ configmaps secrets deployments daemonsets statefulsets rcs w1 w2 w3 w4,
      clientset.ConfigMaps.list = some configmaps ∧ clientset.Secrets.list = some secrets ∧
      clientset.Deployments.list = some deployments ∧
      clientset.DaemonSets.list = some daemonsets ∧
      clientset.StatefulSets.list = some statefulsets ∧
      clientset.ReplicationControllers.list = some rcs ∧
      resolveWorkloads NewUsedByDeployment
        { configChains := readSecrets (readConfigMaps [] configmaps) secrets, stderr := [] }
        deployments = .ok w1 ∧
      resolveWorkloads NewUsedByDaemonSet w1 daemonsets = .ok w2 ∧
      resolveWorkloads NewUsedByStatefuleSet w2 statefulsets = .ok w3 ∧
      resolveWorkloads NewUsedByRC w3 rcs = .ok w4 ∧
      reg = w4.configChains ∧ stderr = w4.stderr := by
  unfold readConfigChains at h
  cases hcm : clientset.ConfigMaps.list with
  | none => simp [hcm] at h
  | some configmaps =>
    cases hsec : clientset.Secrets.list with
    | none => simp [hcm, hsec] at h
    | some secrets =>
      simp only [hcm, hsec] at h
      obtain ⟨deployments, w1, hl1, -, hr1, h⟩ := readWorkloads_returned _ _ _ _ _ _ _ h
      obtain ⟨daemonsets, w2, hl2, -, hr2, h⟩ := readWorkloads_returned _ _ _ _ _ _ _ h
      obtain ⟨statefulsets, w3, hl3, -, hr3, h⟩ := readWorkloads_returned _ _ _ _ _ _ _ h
      obtain ⟨rcs, w4, hl4, -, hr4, h⟩ := readWorkloads_returned _ _ _ _ _ _ _ h
      injection h with h5 h6
      exact ⟨configmaps, secrets, deployments, daemonsets, statefulsets, rcs, w1, w2, w3, w4,
        rfl, rfl, hl1, hl2, hl3, hl4, hr1, hr2, hr3, hr4, h5.symm, h6.symm⟩

theorem hasKey_of_lookup {m : GoMap ConfigChain} {name key : String} {e : ConfigChain}
    (h : GoMap.lookup m name = some e) :
    hasKey m name key = (GoMap.lookup e.KeyUsed key).isSome := by
  simp [hasKey, h]

/-- C6 (amended): if the names of the listed sources are unique within each
kind and `readConfigChains` returns (no listing fails, no resolution panics),
the returned registry has an entry for every listed source, and that entry's
`KeyUsed` contains every key of the source's data, referenced or not;
`caculateConfigChain` never removes a registry entry and never changes the key
set of a source. -/
theorem listed_sources_and_keys_survive (clientset : Clientset)
    (configmaps : List v1.ConfigMap) (secrets : List v1.Secret)
    (reg : GoMap ConfigChain) (stderr : List String)
    (hcmlist : clientset.ConfigMaps.list = some configmaps)
    (hseclist : clientset.Secrets.list = some secrets)
    (hcm : (configmaps.map (fun c => c.Name)).Nodup)
    (hsec : (secrets.map (fun s => s.Name)).Nodup)
    (hret : readConfigChains (.ok clientset) = .returned reg stderr) :
    (∀ c ∈ configmaps,
        ∃ e, GoMap.lookup reg (configmapKey c.Name) = some e ∧
          ∀ k ∈ GoMap.keys c.Data, (GoMap.lookup e.KeyUsed k).isSome = true) ∧
      (∀ s ∈ secrets,
        ∃ e, GoMap.lookup reg (secretKey s.Name) = some e ∧
          ∀ k ∈ GoMap.keys s.Data, (GoMap.lookup e.KeyUsed k).isSome = true) ∧
      (∀ (w w1 : World) (podSpec : v1.PodSpec) (usedBy : UsedBy),
        caculateConfigChain w podSpec usedBy = .ok w1 →
          ∀ name, (GoMap.lookup w.configChains name ≠ none →
              GoMap.lookup w1.configChains name ≠ none) ∧
            ∀ key, hasKey w1.configChains name key = hasKey w.configChains name key) := by
  obtain ⟨cms, secs, ds, dss, sss, rcs, w1, w2, w3, w4, h1, h2, -, -, -, -, r1, r2, r3, r4,
    hreg, -⟩ := readConfigChains_returned clientset reg stderr hret
  rw [hcmlist] at h1
  rw [hseclist] at h2
  injection h1 with h1
  injection h2 with h2
  subst h1 h2 hreg
  have hsurv : Survives
      { configChains := readSecrets (readConfigMaps [] configmaps) secrets, stderr := [] } w4 :=
    survives_trans
      (survives_trans
        (survives_trans (survives_resolveWorkloads _ _ _ _ r1)
          (survives_resolveWorkloads _ _ _ _ r2))
        (survives_resolveWorkloads _ _ _ _ r3))
      (survives_resolveWorkloads _ _ _ _ r4)
  have hnodup :
      (GoMap.keys (readSecrets (readConfigMaps [] configmaps) secrets)).Nodup := by
    rw [readSources_eq configmaps secrets hcm hsec]
    have := sourceKeys_nodup configmaps secrets hcm hsec
    simpa [GoMap.keys, List.map_map, Function.comp_def] using this
  have key : ∀ (name : String) (e0 : ConfigChain),
      (name, e0) ∈ readSecrets (readConfigMaps [] configmaps) secrets →
      ∃ e, GoMap.lookup w4.configChains name = some e ∧
        ∀ k, (GoMap.lookup e0.KeyUsed k).isSome = true →
          (GoMap.lookup e.KeyUsed k).isSome = true := by
    intro name e0 hmem
    have h0 := GoMap.lookup_of_mem _ hnodup name e0 hmem
    have hpres := (hsurv name).1 (by simp [h0])
    cases h4 : GoMap.lookup w4.configChains name with
    | none => exact absurd h4 hpres
    | some e =>
      refine ⟨e, rfl, ?_⟩
      intro k hk
      have := (hsurv name).2 k
      rw [hasKey_of_lookup h4, hasKey_of_lookup h0] at this
      rw [this]
      exact hk
  refine ⟨?_, ?_, fun w w1 podSpec usedBy hok => survives_caculateConfigChain w w1 podSpec usedBy hok⟩
  · intro c hc
    obtain ⟨e, he, hk⟩ := key (configmapKey c.Name) (configChainOfConfigMap c) (by
      rw [readSources_eq configmaps secrets hcm hsec]
      exact List.mem_append_left _ (List.mem_map.2 ⟨c, hc, rfl⟩))
    refine ⟨e, he, fun k hkd => hk k ?_⟩
    simp [configChainOfConfigMap, lookup_newKeyUsed, hkd]
  · intro s hs
    obtain ⟨e, he, hk⟩ := key (secretKey s.Name) (configChainOfSecret s) (by
      rw [readSources_eq configmaps secrets hcm hsec]
      exact List.mem_append_right _ (List.mem_map.2 ⟨s, hs, rfl⟩))
    refine ⟨e, he, fun k hkd => hk k ?_⟩
    simp [configChainOfSecret, lookup_newKeyUsed, hkd]

/-- C6 (amended), at a concrete input: `app-config` with keys `A` and `B`, used
by the deployments `web` and `api`. -/
theorem listed_sources_and_keys_survive_witness :
    readConfigChains (.ok sampleClientset) = .returned sampleRegistry [] ∧
      ∀ c ∈ [appConfig],
        ∃ e, GoMap.lookup sampleRegistry (configmapKey c.Name) = some e ∧
          ∀ k ∈ GoMap.keys c.Data, (GoMap.lookup e.KeyUsed k).isSome = true :=
  ⟨rfl,
    (listed_sources_and_keys_survive sampleClientset [appConfig] [] sampleRegistry [] rfl rfl
      (by decide) (by decide) rfl).1⟩

/-- C6, as stated, fails for a listing that holds two configmaps of the same
name: the second one replaces the first, whose key `x` is then not in the
registry. -/
theorem listed_keys_survive_counterexample :
    readConfigChains (.ok sameNameClientset) = .returned sameNameRegistry [] ∧
      (∃ c ∈ sameNameConfigMaps, "x" ∈ GoMap.keys c.Data ∧
        hasKey sameNameRegistry (configmapKey c.Name) "x" = false) :=
  ⟨rfl, ⟨_, List.mem_cons_self _ _, by decide, by decide⟩⟩

/-! ## One volume, resolved against a freshly built registry -/

theorem lookup_storeAll {α : Type} (m kvs : GoMap α) (n : String) (e : α)
    (h : GoMap.lookup (storeAll m kvs) n = some e) :
    GoMap.lookup m n = some e ∨ (n, e) ∈ kvs := by
  induction kvs generalizing m with
  | nil => exact Or.inl h
  | cons kv kvs ih =>
    obtain ⟨k0, v0⟩ := kv
    rcases ih _ h with h1 | h1
    · rw [GoMap.lookup_store] at h1
      by_cases hk : k0 = n
      · subst hk
        simp only [if_true] at h1
        injection h1 with h1
        subst h1
        exact Or.inr (List.mem_cons_self _ _)
      · simp only [hk, if_false] at h1
        exact Or.inl h1
    · exact Or.inr (List.mem_cons_of_mem _ h1)

/-- Every entry of a freshly built registry is the record of a listed source. -/
theorem builtRegistry_entry (configmaps : List v1.ConfigMap) (secrets : List v1.Secret)
    (n : String) (e : ConfigChain)
    (h : GoMap.lookup (readSecrets (readConfigMaps [] configmaps) secrets) n = some e) :
    (∃ c ∈ configmaps, n = configmapKey c.Name ∧ e = configChainOfConfigMap c) ∨
      (∃ s ∈ secrets, n = secretKey s.Name ∧ e = configChainOfSecret s) := by
  rw [readSecrets_eq_storeAll, readConfigMaps_eq_storeAll] at h
  rcases lookup_storeAll _ _ n e h with h1 | h1
  · rcases lookup_storeAll _ _ n e h1 with h2 | h2
    · simp [GoMap.lookup] at h2
    · obtain ⟨c, hc, heq⟩ := List.mem_map.1 h2
      injection heq with h3 h4
      exact Or.inl ⟨c, hc, h3.symm, h4.symm⟩
  · obtain ⟨s, hs, heq⟩ := List.mem_map.1 h1
    injection heq with h3 h4
    exact Or.inr ⟨s, hs, h3.symm, h4.symm⟩

theorem builtRegistry_usedAsVolumn (configmaps : List v1.ConfigMap) (secrets : List v1.Secret)
    (n : String) (e : ConfigChain)
    (h : GoMap.lookup (readSecrets (readConfigMaps [] configmaps) secrets) n = some e) :
    e.UsedAsVolumn = [] := by
  rcases builtRegistry_entry configmaps secrets n e h with ⟨c, -, -, rfl⟩ | ⟨s, -, -, rfl⟩ <;> rfl

theorem builtRegistry_keyUsed (configmaps : List v1.ConfigMap) (secrets : List v1.Secret)
    (n : String) (e : ConfigChain)
    (h : GoMap.lookup (readSecrets (readConfigMaps [] configmaps) secrets) n = some e)
    (k : String) (keyUsed : KeyUsed) (hk : GoMap.lookup e.KeyUsed k = some keyUsed) :
    keyUsed = { AsEnv := [], AsVolumn := [] } := by
  rcases builtRegistry_entry configmaps secrets n e h with ⟨c, -, -, rfl⟩ | ⟨s, -, -, rfl⟩
  · simp only [configChainOfConfigMap, lookup_newKeyUsed, GoMap.lookup] at hk
    split at hk
    · injection hk with hk; exact hk.symm
    · simp at hk
  · simp only [configChainOfSecret, lookup_newKeyUsed, GoMap.lookup] at hk
    split at hk
    · injection hk with hk; exact hk.symm
    · simp at hk

theorem envRefsOfContainers_eq_nil (containers : List v1.Container)
    (henv : ∀ c ∈ containers, ∀ env ∈ c.Env, ∀ valueFrom, env.ValueFrom = some valueFrom →
      valueFrom.ConfigMapKeyRef = none ∧ valueFrom.SecretKeyRef = none) :
    envRefsOfContainers containers = [] := by
  apply List.eq_nil_iff_forall_not_mem.2
  intro r hr
  obtain ⟨c, hc, env, he, hin⟩ := (mem_envRefsOfContainers _ _).1 hr
  obtain ⟨valueFrom, hvf, hcase⟩ := (mem_envRefsOfEnv _ _).1 hin
  obtain ⟨h1, h2⟩ := henv c hc env he valueFrom hvf
  rcases hcase with ⟨s, hs, -⟩ | ⟨s, hs, -⟩
  · rw [h1] at hs; cases hs
  · rw [h2] at hs; cases hs

theorem lookup_appendUsedAsVolumn (w : World) (name : String) (usedBy : UsedBy) (n : String) :
    GoMap.lookup (appendUsedAsVolumn w name usedBy).configChains n =
      if name = n then
        some { entryOf w.configChains name with
               UsedAsVolumn := (entryOf w.configChains name).UsedAsVolumn ++ [usedBy] }
      else GoMap.lookup w.configChains n := by
  rw [appendUsedAsVolumn_eq]
  simp only [GoMap.lookup_store, lookup_getOrUnexpected]
  by_cases h : name = n <;> simp [h]

theorem lookup_appendKeyUsedAsVolumn_of_some (w : World) (name keyName : String)
    (usedBy : UsedBy) (keyUsed : KeyUsed)
    (h : GoMap.lookup (entryOf w.configChains name).KeyUsed keyName = some keyUsed)
    (n : String) :
    GoMap.lookup (appendKeyUsedAsVolumn w name keyName usedBy).configChains n =
      if name = n then
        some { entryOf w.configChains name with
               KeyUsed :=
                 GoMap.store (entryOf w.configChains name).KeyUsed keyName
                   { keyUsed with AsVolumn := keyUsed.AsVolumn ++ [usedBy] } }
      else GoMap.lookup w.configChains n := by
  rw [appendKeyUsedAsVolumn_of_some w name keyName usedBy keyUsed h]
  simp only [GoMap.lookup_store, lookup_getOrUnexpected]
  by_cases h : name = n <;> simp [h]

/-- C7: for a registry freshly built from listed sources and a workload whose pod
template is one volume naming a configmap or a secret with no item list (and
whose containers reference no configmap or secret key), `caculateConfigChain`
completes; afterwards the workload reference occurs exactly once in that
source's `UsedAsVolumn` (which is the one-element list of it), every source that
was in the registry has exactly the `KeyUsed` map it had, and a source created by
the call has an empty `KeyUsed`. -/
theorem whole_volume_mount_recorded_once (configmaps : List v1.ConfigMap)
    (secrets : List v1.Secret) (volume : v1.Volume) (containers : List v1.Container)
    (usedBy : UsedBy) (name key : String)
    (hvol : volume.VolumeSource = ⟨some ⟨name, []⟩, none⟩ ∧ key = configmapKey name ∨
      volume.VolumeSource = ⟨none, some ⟨name, []⟩⟩ ∧ key = secretKey name)
    (henv : ∀ c ∈ containers, ∀ env ∈ c.Env, ∀ valueFrom, env.ValueFrom = some valueFrom →
      valueFrom.ConfigMapKeyRef = none ∧ valueFrom.SecretKeyRef = none) :
    ∃ w1,
      caculateConfigChain
          { configChains := readSecrets (readConfigMaps [] configmaps) secrets, stderr := [] }
          { Volumes := [volume], Containers := containers } usedBy = .ok w1 ∧
        (∃ e, GoMap.lookup w1.configChains key = some e ∧ e.UsedAsVolumn = [usedBy] ∧
          e.UsedAsVolumn.count usedBy = 1) ∧
        (∀ n e0, GoMap.lookup (readSecrets (readConfigMaps [] configmaps) secrets) n = some e0 →
          ∃ e1, GoMap.lookup w1.configChains n = some e1 ∧ e1.KeyUsed = e0.KeyUsed) ∧
        (∀ n e1, GoMap.lookup w1.configChains n = some e1 →
          GoMap.lookup (readSecrets (readConfigMaps [] configmaps) secrets) n = none →
            e1.KeyUsed = []) := by
  have hrefs : volumeRefs [volume] = [VolumeRef.whole key] := by
    obtain ⟨vname, vs⟩ := volume
    rcases hvol with ⟨hv, rfl⟩ | ⟨hv, rfl⟩
    · simp only at hv; subst hv; rfl
    · simp only at hv; subst hv; rfl
  refine ⟨appendUsedAsVolumn
    { configChains := readSecrets (readConfigMaps [] configmaps) secrets, stderr := [] }
    key usedBy, ?_, ?_, ?_, ?_⟩
  · rw [caculateConfigChain_eq, hrefs]
    simp only [envRefs, envRefsOfContainers_eq_nil containers henv]
    rfl
  · have hl := lookup_appendUsedAsVolumn
      { configChains := readSecrets (readConfigMaps [] configmaps) secrets, stderr := [] }
      key usedBy key
    simp only [if_true] at hl
    refine ⟨_, hl, ?_⟩
    have hused : (entryOf (readSecrets (readConfigMaps [] configmaps) secrets) key).UsedAsVolumn
        = [] := by
      cases h : GoMap.lookup (readSecrets (readConfigMaps [] configmaps) secrets) key with
      | none => rw [entryOf_of_lookup_none h]; rfl
      | some e0 =>
        rw [lookup_eq_some_entryOf h]
        exact builtRegistry_usedAsVolumn configmaps secrets key e0 h
    simp [hused]
  · intro n e0 h0
    rw [lookup_appendUsedAsVolumn]
    by_cases hn : key = n
    · subst hn
      simp only [if_true]
      exact ⟨_, rfl, by rw [lookup_eq_some_entryOf h0]⟩
    · simp only [hn, if_false]
      exact ⟨e0, h0, rfl⟩
  · intro n e1 h1 h0
    rw [lookup_appendUsedAsVolumn] at h1
    by_cases hn : key = n
    · subst hn
      simp only [if_true] at h1
      injection h1 with h1
      subst h1
      simp only
      rw [entryOf_of_lookup_none h0]
      rfl
    · simp only [hn, if_false] at h1
      rw [h0] at h1
      cases h1

/-- C7, at a concrete input: the deployment `web` mounts the whole configmap
`app-config`; one of its containers has a plain environment entry. -/
theorem whole_volume_mount_recorded_once_witness :
    ∃ w1,
      caculateConfigChain
          { configChains := readSecrets (readConfigMaps [] [appConfig]) [appSecret],
            stderr := [] }
          wholeAppConfigPod "deployment/web" = .ok w1 ∧
        ∃ e, GoMap.lookup w1.configChains "configmap/app-config" = some e ∧
          e.UsedAsVolumn = ["deployment/web"] ∧ e.UsedAsVolumn.count "deployment/web" = 1 :=
  (whole_volume_mount_recorded_once [appConfig] [appSecret]
      { Name := "config"
        VolumeSource := { ConfigMap := some ⟨"app-config", []⟩, Secret := none } }
      [{ Name := "web", Env := [{ Name := "MODE", Value := "prod", ValueFrom := none }] }]
      "deployment/web" "app-config" "configmap/app-config" (Or.inl ⟨rfl, by decide⟩)
      (by
        intro c hc env he valueFrom hvf
        rw [List.mem_singleton.1 hc] at he
        rw [List.mem_singleton.1 he] at hvf
        cases hvf)).elim
    fun w1 h => ⟨w1, h.1, h.2.1⟩

/-- C8: for a registry freshly built from listed sources and a workload whose pod
template is one volume naming a source with a single item whose key is in that
source's `KeyUsed` (and whose containers reference no configmap or secret key),
`caculateConfigChain` completes; afterwards the workload reference occurs exactly
once in that key's `AsVolumn`, the key's `AsEnv` is what it was, every other key
of the source has the record it had, the source keeps its `UsedAsVolumn`, and
every other registry entry is untouched. -/
theorem volume_item_recorded_once (configmaps : List v1.ConfigMap)
    (secrets : List v1.Secret) (volume : v1.Volume) (containers : List v1.Container)
    (usedBy : UsedBy) (name key : String) (item : v1.KeyToPath)
    (hvol : volume.VolumeSource = ⟨some ⟨name, [item]⟩, none⟩ ∧ key = configmapKey name ∨
      volume.VolumeSource = ⟨none, some ⟨name, [item]⟩⟩ ∧ key = secretKey name)
    (hknown : hasKey (readSecrets (readConfigMaps [] configmaps) secrets) key item.Key = true)
    (henv : ∀ c ∈ containers, ∀ env ∈ c.Env, ∀ valueFrom, env.ValueFrom = some valueFrom →
      valueFrom.ConfigMapKeyRef = none ∧ valueFrom.SecretKeyRef = none) :
    ∃ w1 e0 e1 keyUsed0 keyUsed1,
      caculateConfigChain
          { configChains := readSecrets (readConfigMaps [] configmaps) secrets, stderr := [] }
          { Volumes := [volume], Containers := containers } usedBy = .ok w1 ∧
        GoMap.lookup (readSecrets (readConfigMaps [] configmaps) secrets) key = some e0 ∧
        GoMap.lookup w1.configChains key = some e1 ∧
        GoMap.lookup e0.KeyUsed item.Key = some keyUsed0 ∧
        GoMap.lookup e1.KeyUsed item.Key = some keyUsed1 ∧
        keyUsed1.AsVolumn = keyUsed0.AsVolumn ++ [usedBy] ∧
        keyUsed1.AsVolumn.count usedBy = 1 ∧
        keyUsed1.AsEnv = keyUsed0.AsEnv ∧
        (∀ k, k ≠ item.Key → GoMap.lookup e1.KeyUsed k = GoMap.lookup e0.KeyUsed k) ∧
        e1.UsedAsVolumn = e0.UsedAsVolumn ∧
        (∀ n, n ≠ key →
          GoMap.lookup w1.configChains n =
            GoMap.lookup (readSecrets (readConfigMaps [] configmaps) secrets) n) := by
  have hrefs : volumeRefs [volume] = [VolumeRef.item key item.Key] := by
    obtain ⟨vname, vs⟩ := volume
    rcases hvol with ⟨hv, rfl⟩ | ⟨hv, rfl⟩
    · simp only at hv; subst hv; rfl
    · simp only at hv; subst hv; rfl
  cases h0 : GoMap.lookup (readSecrets (readConfigMaps [] configmaps) secrets) key with
  | none => simp [hasKey, h0] at hknown
  | some e0 =>
    have he0 : entryOf (readSecrets (readConfigMaps [] configmaps) secrets) key = e0 :=
      lookup_eq_some_entryOf h0
    cases hk0 : GoMap.lookup e0.KeyUsed item.Key with
    | none => simp [hasKey, h0, hk0] at hknown
    | some keyUsed0 =>
      have hfresh := builtRegistry_keyUsed configmaps secrets key e0 h0 item.Key keyUsed0 hk0
      have hsome : GoMap.lookup
          (entryOf (World.mk (readSecrets (readConfigMaps [] configmaps) secrets) []).configChains
            key).KeyUsed item.Key = some keyUsed0 := by
        simp only [he0, hk0]
      have hl := lookup_appendKeyUsedAsVolumn_of_some
        { configChains := readSecrets (readConfigMaps [] configmaps) secrets, stderr := [] }
        key item.Key usedBy keyUsed0 hsome
      simp only [he0] at hl
      refine ⟨appendKeyUsedAsVolumn
          { configChains := readSecrets (readConfigMaps [] configmaps) secrets, stderr := [] }
          key item.Key usedBy,
        e0,
        { e0 with
          KeyUsed := GoMap.store e0.KeyUsed item.Key
            { keyUsed0 with AsVolumn := keyUsed0.AsVolumn ++ [usedBy] } },
        keyUsed0, { keyUsed0 with AsVolumn := keyUsed0.AsVolumn ++ [usedBy] },
        ?_, rfl, ?_, hk0, ?_, rfl, ?_, rfl, ?_, rfl, ?_⟩
      · rw [caculateConfigChain_eq, hrefs]
        simp only [envRefs, envRefsOfContainers_eq_nil containers henv]
        rfl
      · rw [hl]; simp
      · simp [GoMap.lookup_store]
      · subst hfresh; simp
      · intro k hk
        have : ¬ item.Key = k := fun e => hk e.symm
        simp [GoMap.lookup_store, this]
      · intro n hn
        have : ¬ key = n := fun e => hn e.symm
        rw [hl]; simp [this]

/-- C8, at a concrete input: the deployment `web` mounts key `A` of the
configmap `app-config`. -/
theorem volume_item_recorded_once_witness :
    hasKey (readSecrets (readConfigMaps [] [appConfig]) []) "configmap/app-config" "A" = true ∧
      ∃ w1 e0 e1 keyUsed0 keyUsed1,
        caculateConfigChain
            { configChains := readSecrets (readConfigMaps [] [appConfig]) [], stderr := [] }
            { Volumes :=
                [{ Name := "config"
                   VolumeSource := { ConfigMap := some ⟨"app-config", [⟨"A", "a.txt"⟩]⟩,
                                     Secret := none } }]
              Containers := [] }
            "deployment/web" = .ok w1 ∧
          GoMap.lookup (readSecrets (readConfigMaps [] [appConfig]) []) "configmap/app-config" =
            some e0 ∧
          GoMap.lookup w1.configChains "configmap/app-config" = some e1 ∧
          GoMap.lookup e0.KeyUsed "A" = some keyUsed0 ∧
          GoMap.lookup e1.KeyUsed "A" = some keyUsed1 ∧
          keyUsed1.AsVolumn = keyUsed0.AsVolumn ++ ["deployment/web"] :=
  ⟨by decide,
    (volume_item_recorded_once [appConfig] []
        { Name := "config"
          VolumeSource := { ConfigMap := some ⟨"app-config", [⟨"A", "a.txt"⟩]⟩,
                            Secret := none } }
        [] "deployment/web" "app-config" "configmap/app-config" ⟨"A", "a.txt"⟩
        (Or.inl ⟨rfl, by decide⟩) (by decide)
        (fun c hc => absurd hc (List.not_mem_nil c))).elim
      fun w1 h1 => h1.elim fun e0 h2 => h2.elim fun e1 h3 => h3.elim fun k0 h4 =>
        h4.elim fun k1 h5 => ⟨w1, e0, e1, k0, k1, h5.1, h5.2.1, h5.2.2.1, h5.2.2.2.1,
          h5.2.2.2.2.1, h5.2.2.2.2.2.1⟩⟩

/-! ## The name of a placeholder entry -/

/-- C9 fails on the code: for a cluster without sources and a deployment `web`
that mounts the unlisted configmap `foo`, `readConfigChains` returns a registry
whose entry under `"configmap/foo"` has the `Name` `"configmap/foo"`, not
`"foo"`. -/
theorem placeholder_name_is_composite_key :
    readConfigChains (.ok unlistedClientset) =
        .returned
          [("configmap/foo",
            { Name := "configmap/foo", Type_ := "unexpected/configmap", Namespace := "",
              UsedAsVolumn := ["deployment/web"], KeyUsed := [] })]
          [] ∧
      (getOrUnexpected [] (configmapKey "foo")).2.Name = "configmap/foo" ∧
      (getOrUnexpected [] (configmapKey "foo")).2.Name ≠ "foo" :=
  ⟨rfl, by decide, by decide⟩

/-! ## The name filter -/

theorem lookup_filterLoop (re : String → Bool) (m : GoMap ConfigChain) (names : List String)
    (k : String) :
    GoMap.lookup (filterLoop re m names) k =
      if k ∈ names ∧ re k = false then none else GoMap.lookup m k := by
  induction names generalizing m with
  | nil => simp [filterLoop]
  | cons name names ih =>
    rw [filterLoop, ih]
    by_cases h1 : k ∈ names ∧ re k = false
    · have h2 : k ∈ name :: names ∧ re k = false := ⟨List.mem_cons_of_mem _ h1.1, h1.2⟩
      rw [if_pos h1, if_pos h2]
    · rw [if_neg h1]
      cases hre : re name with
      | true =>
        have h2 : ¬ (k ∈ name :: names ∧ re k = false) := by
          rintro ⟨hm, hk⟩
          rcases List.mem_cons.1 hm with e | e
          · subst e; rw [hre] at hk; cases hk
          · exact h1 ⟨e, hk⟩
        rw [if_neg h2]
        simp
      | false =>
        simp only [Bool.not_false, if_true, GoMap.lookup_delete]
        by_cases hk : name = k
        · subst hk
          simp [hre]
        · have h2 : ¬ (k ∈ name :: names ∧ re k = false) := by
            rintro ⟨hm, hk2⟩
            rcases List.mem_cons.1 hm with e | e
            · exact hk e.symm
            · exact h1 ⟨e, hk2⟩
          rw [if_neg h2]
          simp [hk]

/-- C10: with the compiled pattern a predicate `re` on composite keys, the name
filter of `main` returns a registry that holds exactly the entries of the input
whose composite key `re` matches, each unchanged; for the patterns `""`, `"*"`
and `".*"` the registry is returned as it is (the pattern is not even
compiled). -/
theorem name_filter_keeps_exactly_the_matching_keys
    (compile : String → Except String (String → Bool)) (configName : String)
    (configChain : GoMap ConfigChain) :
    (∀ re, compile configName = .ok re →
        configName ≠ "" → configName ≠ "*" → configName ≠ ".*" →
        ∃ out, mainFilter compile configName configChain = .ok out ∧
          ∀ k, GoMap.lookup out k = if re k = true then GoMap.lookup configChain k else none) ∧
      (configName = "" ∨ configName = "*" ∨ configName = ".*" →
        mainFilter compile configName configChain = .ok configChain) := by
  constructor
  · intro re hre h1 h2 h3
    refine ⟨filterLoop re configChain (GoMap.keys configChain), ?_, ?_⟩
    · simp [mainFilter, h1, h2, h3, hre]
    · intro k
      rw [lookup_filterLoop]
      cases hk : re k with
      | true => simp
      | false =>
        by_cases hm : k ∈ GoMap.keys configChain
        · simp [hm]
        · simp [hm, (GoMap.lookup_eq_none_iff configChain k).2 hm]
  · intro h
    rcases h with h | h | h <;> simp [mainFilter, h]

/-! ## Ranging over a map -/

theorem GoMap.keys_delete_subset {α : Type} (m : GoMap α) (k k' : String)
    (h : k' ∈ GoMap.keys (GoMap.delete m k)) : k' ∈ GoMap.keys m := by
  simp only [GoMap.keys, GoMap.delete, List.mem_map, List.mem_filter] at h ⊢
  obtain ⟨e, ⟨he, -⟩, rfl⟩ := h
  exact ⟨e, he, rfl⟩

theorem GoMap.not_mem_keys_delete {α : Type} (m : GoMap α) (k : String) :
    k ∉ GoMap.keys (GoMap.delete m k) := by
  rw [← GoMap.lookup_eq_none_iff]
  exact GoMap.lookup_delete_self m k

theorem GoMap.nodup_keys_delete {α : Type} (m : GoMap α) (k : String)
    (h : (GoMap.keys m).Nodup) : (GoMap.keys (GoMap.delete m k)).Nodup := by
  induction m with
  | nil => simp [GoMap.delete, GoMap.keys]
  | cons e m ih =>
    obtain ⟨k0, v0⟩ := e
    simp only [GoMap.keys, List.map_cons, List.nodup_cons] at h
    have ih1 := ih h.2
    by_cases hk : k0 = k
    · subst hk
      simpa [GoMap.delete, List.filter_cons, GoMap.keys] using ih1
    · have hsplit : GoMap.delete ((k0, v0) :: m) k = (k0, v0) :: GoMap.delete m k := by
        simp [GoMap.delete, List.filter_cons, hk]
      rw [hsplit]
      simp only [GoMap.keys, List.map_cons, List.nodup_cons]
      exact ⟨fun hm => h.1 (GoMap.keys_delete_subset m k k0 hm), ih1⟩

theorem GoMap.delete_of_not_mem {α : Type} (m : GoMap α) (k : String)
    (h : k ∉ GoMap.keys m) : GoMap.delete m k = m := by
  simp only [GoMap.delete]
  apply List.filter_eq_self.2
  intro e he
  have : e.1 ≠ k := fun hk => h (List.mem_map.2 ⟨e, he, hk⟩)
  simpa using this

theorem GoMap.lookup_range {α : Type} (m : GoMap α) (k : String) :
    GoMap.lookup (GoMap.range m) k = GoMap.lookup m k := by
  induction m with
  | nil => rfl
  | cons e m ih =>
    obtain ⟨k0, v0⟩ := e
    by_cases hk : k0 = k
    · simp [GoMap.range, GoMap.lookup, hk]
    · simp [GoMap.range, GoMap.lookup, hk, GoMap.lookup_delete_of_ne _ hk, ih]

theorem GoMap.nodup_keys_range {α : Type} (m : GoMap α) :
    (GoMap.keys (GoMap.range m)).Nodup := by
  induction m with
  | nil => simp [GoMap.range, GoMap.keys]
  | cons e m ih =>
    obtain ⟨k0, v0⟩ := e
    simp only [GoMap.range, GoMap.keys, List.map_cons, List.nodup_cons]
    exact ⟨GoMap.not_mem_keys_delete _ _, GoMap.nodup_keys_delete _ _ ih⟩

theorem GoMap.range_of_nodup {α : Type} (m : GoMap α) (h : (GoMap.keys m).Nodup) :
    GoMap.range m = m := by
  induction m with
  | nil => rfl
  | cons e m ih =>
    obtain ⟨k0, v0⟩ := e
    simp only [GoMap.keys, List.map_cons, List.nodup_cons] at h
    rw [GoMap.range, ih h.2, GoMap.delete_of_not_mem m k0 h.1]

theorem GoMap.mem_of_lookup {α : Type} (m : GoMap α) (k : String) (v : α)
    (h : GoMap.lookup m k = some v) : (k, v) ∈ m := by
  induction m with
  | nil => simp [GoMap.lookup] at h
  | cons e m ih =>
    obtain ⟨k0, v0⟩ := e
    by_cases hk : k0 = k
    · simp only [GoMap.lookup, hk, if_true] at h
      injection h with h
      subst hk h
      exact List.mem_cons_self _ _
    · simp only [GoMap.lookup, hk, if_false] at h
      exact List.mem_cons_of_mem _ (ih h)

theorem GoMap.mem_range_iff {α : Type} (m : GoMap α) (k : String) (v : α) :
    (k, v) ∈ GoMap.range m ↔ GoMap.lookup m k = some v := by
  constructor
  · intro h
    rw [← GoMap.lookup_range]
    exact GoMap.lookup_of_mem _ (GoMap.nodup_keys_range m) k v h
  · intro h
    rw [← GoMap.lookup_range] at h
    exact GoMap.mem_of_lookup _ k v h

theorem GoMap.ne_nil_iff_exists_lookup {α : Type} (m : GoMap α) :
    m.length ≠ 0 ↔ ∃ k v, GoMap.lookup m k = some v := by
  cases m with
  | nil => simp [GoMap.lookup]
  | cons e m =>
    obtain ⟨k0, v0⟩ := e
    simp only [List.length_cons, ne_eq, Nat.add_one_ne_zero, not_false_eq_true, true_iff]
    exact ⟨k0, v0, by simp [GoMap.lookup]⟩

/-! ## What `formatConfigChains` produces -/

theorem formatKeyUsed_eq (keyUsed : KeyUsed) :
    formatKeyUsed keyUsed =
      (if keyUsed.AsEnv = [] then [] else [("asEnv", keyUsed.AsEnv)]) ++
        (if keyUsed.AsVolumn = [] then [] else [("asVolume", keyUsed.AsVolumn)]) := by
  obtain ⟨asEnv, asVolumn⟩ := keyUsed
  cases asEnv <;> cases asVolumn <;> simp [formatKeyUsed, GoMap.store]

theorem formatKeyUsed_length (keyUsed : KeyUsed) :
    (formatKeyUsed keyUsed).length ≠ 0 ↔ ¬ (keyUsed.AsEnv = [] ∧ keyUsed.AsVolumn = []) := by
  obtain ⟨asEnv, asVolumn⟩ := keyUsed
  cases asEnv <;> cases asVolumn <;> simp [formatKeyUsed_eq]

theorem lookup_formatKeyUsed_asEnv (keyUsed : KeyUsed) :
    GoMap.lookup (formatKeyUsed keyUsed) "asEnv" =
      if keyUsed.AsEnv = [] then none else some keyUsed.AsEnv := by
  obtain ⟨asEnv, asVolumn⟩ := keyUsed
  cases asEnv <;> cases asVolumn <;> simp [formatKeyUsed_eq, GoMap.lookup]

theorem lookup_formatKeyUsed_asVolume (keyUsed : KeyUsed) :
    GoMap.lookup (formatKeyUsed keyUsed) "asVolume" =
      if keyUsed.AsVolumn = [] then none else some keyUsed.AsVolumn := by
  obtain ⟨asEnv, asVolumn⟩ := keyUsed
  cases asEnv <;> cases asVolumn <;> simp [formatKeyUsed_eq, GoMap.lookup]

theorem lookup_formatKeyUsed_other (keyUsed : KeyUsed) (field : String)
    (h1 : field ≠ "asEnv") (h2 : field ≠ "asVolume") :
    GoMap.lookup (formatKeyUsed keyUsed) field = none := by
  have h3 : ¬ "asEnv" = field := fun e => h1 e.symm
  have h4 : ¬ "asVolume" = field := fun e => h2 e.symm
  obtain ⟨asEnv, asVolumn⟩ := keyUsed
  cases asEnv <;> cases asVolumn <;> simp [formatKeyUsed_eq, GoMap.lookup, h3, h4]

theorem lookup_formatKeyUseds (acc : GoMap (GoMap (List UsedBy))) (kvs : GoMap KeyUsed)
    (hnodup : (GoMap.keys kvs).Nodup) (key : String) :
    GoMap.lookup (formatKeyUseds acc kvs) key =
      match GoMap.lookup kvs key with
      | some keyUsed =>
        if keyUsed.AsEnv = [] ∧ keyUsed.AsVolumn = [] then GoMap.lookup acc key
        else some (formatKeyUsed keyUsed)
      | none => GoMap.lookup acc key := by
  induction kvs generalizing acc with
  | nil => rfl
  | cons e rest ih =>
    obtain ⟨k0, ku0⟩ := e
    simp only [GoMap.keys, List.map_cons, List.nodup_cons] at hnodup
    rw [formatKeyUseds, ih _ hnodup.2]
    by_cases hk : k0 = key
    · subst hk
      have hnone : GoMap.lookup rest k0 = none := (GoMap.lookup_eq_none_iff rest k0).2 hnodup.1
      simp only [hnone, GoMap.lookup, if_true]
      by_cases hu : ku0.AsEnv = [] ∧ ku0.AsVolumn = []
      · have hl : ¬ (formatKeyUsed ku0).length ≠ 0 := fun h => (formatKeyUsed_length ku0).1 h hu
        rw [if_neg hl, if_pos hu]
      · have hl : (formatKeyUsed ku0).length ≠ 0 := (formatKeyUsed_length ku0).2 hu
        rw [if_pos hl, if_neg hu, GoMap.lookup_store_self]
    · have hacc : GoMap.lookup
          (if (formatKeyUsed ku0).length ≠ 0 then GoMap.store acc k0 (formatKeyUsed ku0)
            else acc) key = GoMap.lookup acc key := by
        split
        · exact GoMap.lookup_store_of_ne _ _ hk
        · rfl
      simp only [GoMap.lookup, hk, if_false, hacc]

theorem lookup_formatLoop (withNamespace : Bool) (acc : GoMap (GoMap Value))
    (kvs : GoMap ConfigChain) (hnodup : (GoMap.keys kvs).Nodup) (name : String) :
    GoMap.lookup (formatLoop withNamespace acc kvs) name =
      match GoMap.lookup kvs name with
      | some configChain => some (formatConfigChain configChain withNamespace)
      | none => GoMap.lookup acc name := by
  induction kvs generalizing acc with
  | nil => rfl
  | cons e rest ih =>
    obtain ⟨k0, c0⟩ := e
    simp only [GoMap.keys, List.map_cons, List.nodup_cons] at hnodup
    rw [formatLoop, ih _ hnodup.2]
    by_cases hk : k0 = name
    · subst hk
      have hnone : GoMap.lookup rest k0 = none := (GoMap.lookup_eq_none_iff rest k0).2 hnodup.1
      simp only [hnone, GoMap.lookup, if_true, GoMap.lookup_store_self]
    · simp only [GoMap.lookup, hk, if_false, GoMap.lookup_store_of_ne _ _ hk]

theorem lookup_formatConfigChains (configChains : GoMap ConfigChain) (withNamespace : Bool)
    (name : String) :
    GoMap.lookup (formatConfigChains configChains withNamespace) name =
      (GoMap.lookup configChains name).map (fun c => formatConfigChain c withNamespace) := by
  unfold formatConfigChains
  rw [lookup_formatLoop _ _ _ (GoMap.nodup_keys_range _), GoMap.lookup_range]
  cases GoMap.lookup configChains name <;> rfl

/-- The per-key records of a source, as `formatConfigChains` collects them. -/
theorem lookup_formatKeyUseds_range (keyUsed : GoMap KeyUsed) (key : String) :
    GoMap.lookup (formatKeyUseds [] (GoMap.range keyUsed)) key =
      match GoMap.lookup keyUsed key with
      | some ku => if ku.AsEnv = [] ∧ ku.AsVolumn = [] then none else some (formatKeyUsed ku)
      | none => none := by
  rw [lookup_formatKeyUseds _ _ (GoMap.nodup_keys_range _), GoMap.lookup_range]
  rfl

theorem formatKeyUseds_length (keyUsed : GoMap KeyUsed) :
    (formatKeyUseds [] (GoMap.range keyUsed)).length = 0 ↔
      ∀ key ku, GoMap.lookup keyUsed key = some ku → ku.AsEnv = [] ∧ ku.AsVolumn = [] := by
  constructor
  · intro h key ku hk
    by_contra hu
    have hne : (formatKeyUseds [] (GoMap.range keyUsed)).length ≠ 0 := by
      rw [GoMap.ne_nil_iff_exists_lookup]
      refine ⟨key, formatKeyUsed ku, ?_⟩
      rw [lookup_formatKeyUseds_range, hk]
      simp only [hu, if_false]
    exact hne h
  · intro h
    by_contra hne
    obtain ⟨key, item, hl⟩ := (GoMap.ne_nil_iff_exists_lookup _).1 hne
    rw [lookup_formatKeyUseds_range] at hl
    cases hk : GoMap.lookup keyUsed key with
    | none => simp [hk] at hl
    | some ku =>
      simp only [hk, h key ku hk, and_self, if_true] at hl
      cases hl

theorem lookup_formatConfigChain_namespace (c : ConfigChain) (withNamespace : Bool) :
    GoMap.lookup (formatConfigChain c withNamespace) "namespace" =
      if withNamespace then some (Value.str c.Namespace) else none := by
  unfold formatConfigChain
  cases withNamespace <;>
    by_cases h1 : c.UsedAsVolumn.length = 0 <;>
    by_cases h2 : (formatKeyUseds [] (GoMap.range c.KeyUsed)).length = 0 <;>
    simp [h1, h2, GoMap.store, GoMap.lookup]

theorem lookup_formatConfigChain_usedAsVolumn (c : ConfigChain) (withNamespace : Bool) :
    GoMap.lookup (formatConfigChain c withNamespace) "usedAsVolumn" =
      if c.UsedAsVolumn = [] then none else some (Value.users c.UsedAsVolumn) := by
  unfold formatConfigChain
  have hl : c.UsedAsVolumn.length = 0 ↔ c.UsedAsVolumn = [] := List.length_eq_zero
  cases withNamespace <;>
    by_cases h1 : c.UsedAsVolumn = [] <;>
    by_cases h2 : (formatKeyUseds [] (GoMap.range c.KeyUsed)).length = 0 <;>
    simp [hl, h1, h2, GoMap.store, GoMap.lookup]

theorem lookup_formatConfigChain_keyUsed (c : ConfigChain) (withNamespace : Bool) :
    GoMap.lookup (formatConfigChain c withNamespace) "keyUsed" =
      if (formatKeyUseds [] (GoMap.range c.KeyUsed)).length = 0 then none
      else some (Value.keyUseds (formatKeyUseds [] (GoMap.range c.KeyUsed))) := by
  unfold formatConfigChain
  have hl : c.UsedAsVolumn.length = 0 ↔ c.UsedAsVolumn = [] := List.length_eq_zero
  cases withNamespace <;>
    by_cases h1 : c.UsedAsVolumn = [] <;>
    by_cases h2 : (formatKeyUseds [] (GoMap.range c.KeyUsed)).length = 0 <;>
    simp [hl, h1, h2, GoMap.store, GoMap.lookup]

theorem lookup_formatConfigChain_other (c : ConfigChain) (withNamespace : Bool)
    (field : String) (h1 : field ≠ "namespace") (h2 : field ≠ "usedAsVolumn")
    (h3 : field ≠ "keyUsed") :
    GoMap.lookup (formatConfigChain c withNamespace) field = none := by
  unfold formatConfigChain
  have g1 : ¬ "namespace" = field := fun e => h1 e.symm
  have g2 : ¬ "usedAsVolumn" = field := fun e => h2 e.symm
  have g3 : ¬ "keyUsed" = field := fun e => h3 e.symm
  have hl : c.UsedAsVolumn.length = 0 ↔ c.UsedAsVolumn = [] := List.length_eq_zero
  cases withNamespace <;>
    by_cases h4 : c.UsedAsVolumn = [] <;>
    by_cases h5 : (formatKeyUseds [] (GoMap.range c.KeyUsed)).length = 0 <;>
    simp [hl, h4, h5, GoMap.store, GoMap.lookup, g1, g2, g3]

/-- C11: `formatConfigChains` with `withNamespace = false` (the simplified form
`main` displays) has a record exactly for the keys of the registry; the record of
a source has no `"namespace"` field (nor any field besides the two usage
fields), has `"usedAsVolumn"` exactly when the
source's `UsedAsVolumn` is non-empty (and then that list), and has `"keyUsed"`
exactly when some key has a non-empty `AsEnv` or `AsVolumn`; `"keyUsed"` then
holds exactly the keys with a non-empty list, each with `"asEnv"` iff its `AsEnv`
is non-empty, `"asVolume"` iff its `AsVolumn` is non-empty, the lists unchanged,
and no other field. -/
theorem simplified_record_of_each_source (configChains : GoMap ConfigChain) :
    configChainForDisplay true configChains =
        Display.simplified (formatConfigChains configChains false) ∧
      (∀ name, GoMap.lookup configChains name = none →
        GoMap.lookup (formatConfigChains configChains false) name = none) ∧
      (∀ name c, GoMap.lookup configChains name = some c →
        ∃ record, GoMap.lookup (formatConfigChains configChains false) name = some record ∧
          GoMap.lookup record "namespace" = none ∧
          (∀ field, field ≠ "usedAsVolumn" → field ≠ "keyUsed" →
            GoMap.lookup record field = none) ∧
          GoMap.lookup record "usedAsVolumn" =
            (if c.UsedAsVolumn = [] then none else some (Value.users c.UsedAsVolumn)) ∧
          (GoMap.lookup record "keyUsed" = none ↔
            ∀ key ku, GoMap.lookup c.KeyUsed key = some ku → ku.AsEnv = [] ∧ ku.AsVolumn = []) ∧
          ∀ v, GoMap.lookup record "keyUsed" = some v →
            ∃ keyUseds, v = Value.keyUseds keyUseds ∧
              (∀ key, GoMap.lookup c.KeyUsed key = none → GoMap.lookup keyUseds key = none) ∧
              (∀ key ku, GoMap.lookup c.KeyUsed key = some ku →
                (ku.AsEnv = [] ∧ ku.AsVolumn = [] → GoMap.lookup keyUseds key = none) ∧
                (¬ (ku.AsEnv = [] ∧ ku.AsVolumn = []) →
                  ∃ item, GoMap.lookup keyUseds key = some item ∧
                    GoMap.lookup item "asEnv" =
                      (if ku.AsEnv = [] then none else some ku.AsEnv) ∧
                    GoMap.lookup item "asVolume" =
                      (if ku.AsVolumn = [] then none else some ku.AsVolumn) ∧
                    ∀ field, field ≠ "asEnv" → field ≠ "asVolume" →
                      GoMap.lookup item field = none))) := by
  refine ⟨rfl, ?_, ?_⟩
  · intro name h
    rw [lookup_formatConfigChains, h]
    rfl
  · intro name c h
    refine ⟨formatConfigChain c false, ?_, ?_, ?_, ?_, ?_, ?_⟩
    · rw [lookup_formatConfigChains, h]; rfl
    · rw [lookup_formatConfigChain_namespace]; rfl
    · intro field h1 h2
      by_cases hns : field = "namespace"
      · subst hns
        rw [lookup_formatConfigChain_namespace]; rfl
      · exact lookup_formatConfigChain_other c false field hns h1 h2
    · exact lookup_formatConfigChain_usedAsVolumn c false
    · rw [lookup_formatConfigChain_keyUsed, ← formatKeyUseds_length]
      by_cases hl : (formatKeyUseds [] (GoMap.range c.KeyUsed)).length = 0 <;> simp [hl]
    · intro v hv
      rw [lookup_formatConfigChain_keyUsed] at hv
      by_cases hl : (formatKeyUseds [] (GoMap.range c.KeyUsed)).length = 0
      · simp [hl] at hv
      · simp only [hl, if_false] at hv
        injection hv with hv
        refine ⟨_, hv.symm, ?_, ?_⟩
        · intro key hk
          rw [lookup_formatKeyUseds_range, hk]
        · intro key ku hk
          constructor
          · intro hu
            rw [lookup_formatKeyUseds_range, hk]
            simp only [hu, and_self, if_true]
          · intro hu
            refine ⟨formatKeyUsed ku, ?_, lookup_formatKeyUsed_asEnv ku,
              lookup_formatKeyUsed_asVolume ku, lookup_formatKeyUsed_other ku⟩
            rw [lookup_formatKeyUseds_range, hk]
            simp only [hu, if_false]

/-- C12 (amended): the record `formatConfigChains` produces for a source holds
no field other than `"namespace"` (only with `withNamespace`), `"usedAsVolumn"`
and `"keyUsed"`; in simplified mode (`withNamespace = false`) it has no
`"namespace"`, and the source's `Name` and `Type` are not in it under any
spelling. -/
theorem simplified_record_fields (configChains : GoMap ConfigChain) (name : String)
    (c : ConfigChain) (h : GoMap.lookup configChains name = some c) :
    ∃ record, GoMap.lookup (formatConfigChains configChains false) name = some record ∧
      (∀ field v, GoMap.lookup record field = some v →
        field = "usedAsVolumn" ∨ field = "keyUsed") ∧
      GoMap.lookup record "namespace" = none ∧
      GoMap.lookup record "Name" = none ∧ GoMap.lookup record "Type" = none ∧
      GoMap.lookup record "name" = none ∧ GoMap.lookup record "type" = none := by
  refine ⟨formatConfigChain c false, ?_, ?_, ?_, ?_, ?_, ?_, ?_⟩
  · rw [lookup_formatConfigChains, h]; rfl
  · intro field v hv
    by_contra hne
    simp only [not_or] at hne
    by_cases hns : field = "namespace"
    · subst hns
      rw [lookup_formatConfigChain_namespace] at hv
      cases hv
    · rw [lookup_formatConfigChain_other c false field hns hne.1 hne.2] at hv
      cases hv
  · rw [lookup_formatConfigChain_namespace]; rfl
  · exact lookup_formatConfigChain_other c false _ (by decide) (by decide) (by decide)
  · exact lookup_formatConfigChain_other c false _ (by decide) (by decide) (by decide)
  · exact lookup_formatConfigChain_other c false _ (by decide) (by decide) (by decide)
  · exact lookup_formatConfigChain_other c false _ (by decide) (by decide) (by decide)

/-- C12 (amended), at a concrete input: the simplified record of `app-config`. -/
theorem simplified_record_fields_witness :
    GoMap.lookup sampleRegistry "configmap/app-config" = some sampleResolvedConfigChain ∧
      ∃ record,
        GoMap.lookup (formatConfigChains sampleRegistry false) "configmap/app-config" =
          some record ∧
        GoMap.lookup record "Name" = none ∧ GoMap.lookup record "Type" = none :=
  ⟨by decide,
    (simplified_record_fields sampleRegistry "configmap/app-config" sampleResolvedConfigChain
      (by decide)).elim
      fun record h => ⟨record, h.1, h.2.2.2.1, h.2.2.2.2.1⟩⟩

/-- C12, as stated, fails: the simplified record of the configmap `app-config`
(whose entry has `Name` `"app-config"` and `Type` `"configmap"`) has the single
field `"keyUsed"`; neither the name nor the type is in it. -/
theorem simplified_record_keeps_name_counterexample :
    (∃ c, GoMap.lookup sampleRegistry "configmap/app-config" = some c ∧
        c.Name = "app-config" ∧ c.Type_ = "configmap") ∧
      ∃ record,
        GoMap.lookup (formatConfigChains sampleRegistry false) "configmap/app-config" =
          some record ∧
        GoMap.keys record = ["keyUsed"] ∧
        GoMap.lookup record "Name" = none ∧ GoMap.lookup record "Type" = none :=
  ⟨⟨_, rfl, rfl, rfl⟩,
    ⟨[("keyUsed",
        Value.keyUseds
          [("A", [("asVolume", ["deployment/web"])]), ("B", [("asEnv", ["deployment/api"])])])],
      by decide, by decide, by decide, by decide⟩⟩

/-! ## Simplifying twice -/

theorem GoMap.nodup_keys_store {α : Type} (m : GoMap α) (k : String) (v : α)
    (h : (GoMap.keys m).Nodup) : (GoMap.keys (GoMap.store m k v)).Nodup := by
  cases hl : GoMap.lookup m k with
  | none =>
    rw [GoMap.store_of_lookup_none m k v hl, GoMap.keys_append]
    have hk : k ∉ GoMap.keys m := (GoMap.lookup_eq_none_iff m k).1 hl
    rw [List.nodup_append]
    refine ⟨h, by simp [GoMap.keys], ?_⟩
    intro a ha hb
    simp only [GoMap.keys, List.map_cons, List.map_nil, List.mem_singleton] at hb
    subst hb
    exact hk ha
  | some v0 => rw [GoMap.keys_store_of_lookup_some m k v v0 hl]; exact h

theorem GoMap.keys_map_values {α β : Type} (m : GoMap α) (g : String × α → β) :
    GoMap.keys (m.map fun e => (e.1, g e)) = GoMap.keys m := by
  simp [GoMap.keys, List.map_map, Function.comp_def]

theorem GoMap.nodup_keys_filter {α : Type} (m : GoMap α) (p : String × α → Bool)
    (h : (GoMap.keys m).Nodup) : (GoMap.keys (m.filter p)).Nodup :=
  List.Nodup.sublist (List.Sublist.map _ (List.filter_sublist m)) h

theorem filterMap_eq_self_of {α : Type} (f : α → Option α) (l : List α)
    (h : ∀ x ∈ l, f x = some x) : l.filterMap f = l := by
  induction l with
  | nil => rfl
  | cons x xs ih =>
    rw [List.filterMap_cons, h x (List.mem_cons_self _ _),
      ih fun y hy => h y (List.mem_cons_of_mem _ hy)]

theorem map_eq_self_of {α : Type} (f : α → α) (l : List α) (h : ∀ x ∈ l, f x = x) :
    l.map f = l := by
  induction l with
  | nil => rfl
  | cons x xs ih =>
    rw [List.map_cons, h x (List.mem_cons_self _ _),
      ih fun y hy => h y (List.mem_cons_of_mem _ hy)]

theorem formatKeyUseds_filter (acc : GoMap (GoMap (List UsedBy))) (kvs : GoMap KeyUsed) :
    formatKeyUseds acc (kvs.filter fun kv => hasUsers kv.2) = formatKeyUseds acc kvs := by
  induction kvs generalizing acc with
  | nil => rfl
  | cons e rest ih =>
    obtain ⟨k0, ku0⟩ := e
    by_cases hu : ku0.AsEnv = [] ∧ ku0.AsVolumn = []
    · have hl : ¬ (formatKeyUsed ku0).length ≠ 0 := fun h => (formatKeyUsed_length ku0).1 h hu
      have hf : hasUsers ku0 = false := by simp [hasUsers, hu.1, hu.2]
      rw [List.filter_cons, formatKeyUseds, if_neg hl]
      simp only [hf]
      exact ih acc
    · have hf : hasUsers ku0 = true := by
        simp only [hasUsers, Bool.not_eq_true', Bool.and_eq_false_imp, decide_eq_true_eq,
          decide_eq_false_iff_not]
        exact fun h1 h2 => hu ⟨h1, h2⟩
      rw [List.filter_cons]
      simp only [hf, if_true, formatKeyUseds]
      exact ih _

theorem formatConfigChain_removeUnused (c : ConfigChain) (withNamespace : Bool) :
    formatConfigChain
        { c with KeyUsed := (GoMap.range c.KeyUsed).filter fun kv => hasUsers kv.2 }
        withNamespace =
      formatConfigChain c withNamespace := by
  have hr : GoMap.range ((GoMap.range c.KeyUsed).filter fun kv => hasUsers kv.2) =
      (GoMap.range c.KeyUsed).filter fun kv => hasUsers kv.2 :=
    GoMap.range_of_nodup _ (GoMap.nodup_keys_filter _ _ (GoMap.nodup_keys_range _))
  simp only [formatConfigChain, hr, formatKeyUseds_filter]

theorem formatLoop_map_values (withNamespace : Bool) (g : ConfigChain → ConfigChain)
    (hg : ∀ c, formatConfigChain (g c) withNamespace = formatConfigChain c withNamespace)
    (acc : GoMap (GoMap Value)) (kvs : GoMap ConfigChain) :
    formatLoop withNamespace acc (kvs.map fun e => (e.1, g e.2)) =
      formatLoop withNamespace acc kvs := by
  induction kvs generalizing acc with
  | nil => rfl
  | cons e rest ih =>
    obtain ⟨k0, c0⟩ := e
    simp only [List.map_cons, formatLoop, hg, ih]

theorem nodup_keys_formatKeyUsed (keyUsed : KeyUsed) :
    (GoMap.keys (formatKeyUsed keyUsed)).Nodup := by
  obtain ⟨asEnv, asVolumn⟩ := keyUsed
  cases asEnv <;> cases asVolumn <;> simp [formatKeyUsed_eq, GoMap.keys]

theorem nodup_keys_formatKeyUseds (acc : GoMap (GoMap (List UsedBy))) (kvs : GoMap KeyUsed)
    (h : (GoMap.keys acc).Nodup) : (GoMap.keys (formatKeyUseds acc kvs)).Nodup := by
  induction kvs generalizing acc with
  | nil => exact h
  | cons e rest ih =>
    obtain ⟨k0, ku0⟩ := e
    rw [formatKeyUseds]
    apply ih
    split
    · exact GoMap.nodup_keys_store _ _ _ h
    · exact h

theorem nodup_keys_formatConfigChain (c : ConfigChain) (withNamespace : Bool) :
    (GoMap.keys (formatConfigChain c withNamespace)).Nodup := by
  unfold formatConfigChain
  have h0 : (GoMap.keys ([] : GoMap Value)).Nodup := by simp [GoMap.keys]
  simp only []
  repeat' split
  all_goals first
    | exact h0
    | exact GoMap.nodup_keys_store _ _ _ h0
    | exact GoMap.nodup_keys_store _ _ _ (GoMap.nodup_keys_store _ _ _ h0)
    | exact GoMap.nodup_keys_store _ _ _
        (GoMap.nodup_keys_store _ _ _ (GoMap.nodup_keys_store _ _ _ h0))

theorem nodup_keys_formatLoop (withNamespace : Bool) (acc : GoMap (GoMap Value))
    (kvs : GoMap ConfigChain) (h : (GoMap.keys acc).Nodup) :
    (GoMap.keys (formatLoop withNamespace acc kvs)).Nodup := by
  induction kvs generalizing acc with
  | nil => exact h
  | cons e rest ih =>
    obtain ⟨k0, c0⟩ := e
    rw [formatLoop]
    exact ih _ (GoMap.nodup_keys_store _ _ _ h)

theorem simplifyItem_formatKeyUsed (keyUsed : KeyUsed) :
    simplifyItem (formatKeyUsed keyUsed) = formatKeyUsed keyUsed := by
  unfold simplifyItem
  rw [GoMap.range_of_nodup _ (nodup_keys_formatKeyUsed keyUsed)]
  obtain ⟨asEnv, asVolumn⟩ := keyUsed
  cases asEnv <;> cases asVolumn <;> simp [formatKeyUsed_eq]

theorem simplifyKeyUseds_formatKeyUseds (keyUsed : GoMap KeyUsed) :
    simplifyKeyUseds (formatKeyUseds [] (GoMap.range keyUsed)) =
      formatKeyUseds [] (GoMap.range keyUsed) := by
  have hnodup : (GoMap.keys (formatKeyUseds [] (GoMap.range keyUsed))).Nodup :=
    nodup_keys_formatKeyUseds _ _ (by simp [GoMap.keys])
  unfold simplifyKeyUseds
  rw [GoMap.range_of_nodup _ hnodup]
  apply filterMap_eq_self_of
  rintro ⟨key, item⟩ hmem
  have hl := GoMap.lookup_of_mem _ hnodup key item hmem
  rw [lookup_formatKeyUseds_range] at hl
  cases hk : GoMap.lookup keyUsed key with
  | none => simp [hk] at hl
  | some ku =>
    simp only [hk] at hl
    by_cases hu : ku.AsEnv = [] ∧ ku.AsVolumn = []
    · simp [hu] at hl
    · simp only [hu, if_false] at hl
      injection hl with hl
      subst hl
      have hlen : ¬ (formatKeyUsed ku).length = 0 := (formatKeyUsed_length ku).2 hu
      simp only [simplifyItem_formatKeyUsed, hlen, if_false]

theorem simplifyRecord_formatConfigChain (c : ConfigChain) :
    (GoMap.range (formatConfigChain c false)).filterMap simplifyField =
      formatConfigChain c false := by
  have hnodup := nodup_keys_formatConfigChain c false
  rw [GoMap.range_of_nodup _ hnodup]
  apply filterMap_eq_self_of
  rintro ⟨field, v⟩ hmem
  have hl := GoMap.lookup_of_mem _ hnodup field v hmem
  by_cases h1 : field = "usedAsVolumn"
  · subst h1
    rw [lookup_formatConfigChain_usedAsVolumn] at hl
    by_cases hu : c.UsedAsVolumn = []
    · simp [hu] at hl
    · simp only [hu, if_false] at hl
      injection hl with hl
      subst hl
      simp [simplifyField, hu]
  · by_cases h2 : field = "keyUsed"
    · subst h2
      rw [lookup_formatConfigChain_keyUsed] at hl
      by_cases hlen : (formatKeyUseds [] (GoMap.range c.KeyUsed)).length = 0
      · simp [hlen] at hl
      · simp only [hlen, if_false] at hl
        injection hl with hl
        subst hl
        simp only [simplifyField, simplifyKeyUseds_formatKeyUseds, hlen, if_false]
    · by_cases h3 : field = "namespace"
      · subst h3
        rw [lookup_formatConfigChain_namespace] at hl
        cases hl
      · rw [lookup_formatConfigChain_other c false field h3 h1 h2] at hl
        cases hl

/-- C13: simplification is idempotent.  `formatConfigChains` gives the same
result on the registry from which every key with no users has been removed as on
the registry itself; and simplifying the simplified form again (dropping the
namespace field, empty lists, empty per-key records and an empty `keyUsed`
section) gives the simplified form back. -/
theorem simplification_is_idempotent (configChains : GoMap ConfigChain) :
    (∀ withNamespace,
        formatConfigChains (removeUnusedKeys configChains) withNamespace =
          formatConfigChains configChains withNamespace) ∧
      simplifyAgain (formatConfigChains configChains false) =
        formatConfigChains configChains false := by
  constructor
  · intro withNamespace
    have hr : GoMap.range (removeUnusedKeys configChains) = removeUnusedKeys configChains := by
      apply GoMap.range_of_nodup
      unfold removeUnusedKeys
      rw [GoMap.keys_map_values (GoMap.range configChains) fun e =>
        ({ e.2 with KeyUsed := (GoMap.range e.2.KeyUsed).filter fun kv => hasUsers kv.2 } :
          ConfigChain)]
      exact GoMap.nodup_keys_range _
    unfold formatConfigChains
    rw [hr]
    exact formatLoop_map_values withNamespace
      (fun c => { c with KeyUsed := (GoMap.range c.KeyUsed).filter fun kv => hasUsers kv.2 })
      (fun c => formatConfigChain_removeUnused c withNamespace) [] _
  · have hnodup : (GoMap.keys (formatConfigChains configChains false)).Nodup :=
      nodup_keys_formatLoop _ _ _ (by simp [GoMap.keys])
    unfold simplifyAgain
    rw [GoMap.range_of_nodup _ hnodup]
    apply map_eq_self_of
    rintro ⟨name, record⟩ hmem
    have hl := GoMap.lookup_of_mem _ hnodup name record hmem
    rw [lookup_formatConfigChains] at hl
    cases hc : GoMap.lookup configChains name with
    | none => simp [hc] at hl
    | some c =>
      simp only [hc, Option.map_some'] at hl
      injection hl with hl
      subst hl
      simp only [simplifyRecord_formatConfigChain]

/-- C14: the end-to-end example.  For the configmap `app-config` with data keys
`A` and `B`, the deployment `web` mounting key `A` as a volume item and the
deployment `api` taking a variable from key `B`, `readConfigChains` returns (with
nothing on stderr) the registry whose only entry is `"configmap/app-config"`,
with `KeyUsed[A].AsVolumn = ["deployment/web"]`, `KeyUsed[B].AsEnv =
["deployment/api"]`, empty `KeyUsed[A].AsEnv`, `KeyUsed[B].AsVolumn` and
`UsedAsVolumn`; its simplified form has `keyUsed.A.asVolume`, `keyUsed.B.asEnv`
and no `usedAsVolumn` field. -/
theorem end_to_end_example :
    sampleClientset.ConfigMaps.list =
        some [{ Name := "app-config", Namespace := "default",
                Data := [("A", "1"), ("B", "2")] }] ∧
      sampleClientset.Deployments.list = some [webDeployment, apiDeployment] ∧
      ∃ reg e,
        readConfigChains (.ok sampleClientset) = .returned reg [] ∧
          GoMap.keys reg = ["configmap/app-config"] ∧
          GoMap.lookup reg "configmap/app-config" = some e ∧
          e.UsedAsVolumn = [] ∧
          GoMap.lookup e.KeyUsed "A" = some { AsEnv := [], AsVolumn := ["deployment/web"] } ∧
          GoMap.lookup e.KeyUsed "B" = some { AsEnv := ["deployment/api"], AsVolumn := [] } ∧
          configChainForDisplay true reg =
            Display.simplified
              [("configmap/app-config",
                [("keyUsed",
                  Value.keyUseds
                    [("A", [("asVolume", ["deployment/web"])]),
                     ("B", [("asEnv", ["deployment/api"])])])])] ∧
          ∃ record,
            GoMap.lookup (formatConfigChains reg false) "configmap/app-config" = some record ∧
              GoMap.lookup record "usedAsVolumn" = none :=
  ⟨rfl, rfl, sampleRegistry,
    { Name := "app-config", Type_ := "configmap", Namespace := "default",
      UsedAsVolumn := [],
      KeyUsed := [("A", ⟨[], ["deployment/web"]⟩), ("B", ⟨["deployment/api"], []⟩)] },
    rfl, by decide, by decide, rfl, by decide, by decide, by decide,
    ⟨[("keyUsed",
        Value.keyUseds
          [("A", [("asVolume", ["deployment/web"])]), ("B", [("asEnv", ["deployment/api"])])])],
      by decide, by decide⟩⟩

/-- C15 fails on the code: when the configmap listing (or the secret listing)
returns an error, `readConfigChains` still returns a registry and no error (or,
if the returned list is nil, panics on the nil pointer), whereas a failing
deployment listing is reported as `"Can not list deployments: ..."`. -/
theorem source_listing_error_is_ignored :
    configMapsFailClientset.ConfigMaps.err = some "connection refused" ∧
      readConfigChains (.ok configMapsFailClientset) = .returned [] [] ∧
      secretsFailClientset.Secrets.err = some "connection refused" ∧
      readConfigChains (.ok secretsFailClientset) = .returned [] [] ∧
      readConfigChains (.ok configMapsNilClientset) = .panicked nilDereference ∧
      readConfigChains (.ok deploymentsFailClientset) =
        .failed "Can not list deployments: connection refused" :=
  ⟨rfl, rfl, rfl, rfl, rfl, by decide⟩

/-! ## The frame of a resolution step -/

theorem lookup_appendKeyUsedAsVolumn_of_ne (w : World) (name keyName : String)
    (usedBy : UsedBy) (n : String) (hn : name ≠ n) :
    GoMap.lookup (appendKeyUsedAsVolumn w name keyName usedBy).configChains n =
      GoMap.lookup w.configChains n := by
  cases h : GoMap.lookup (entryOf w.configChains name).KeyUsed keyName with
  | none =>
    rw [appendKeyUsedAsVolumn_of_none w name keyName usedBy h]
    simp [lookup_getOrUnexpected, hn]
  | some v0 =>
    rw [lookup_appendKeyUsedAsVolumn_of_some w name keyName usedBy v0 h]
    simp [hn]

theorem lookup_appendKeyUsedAsEnv_of_ne (w w1 : World) (name keyName : String)
    (usedBy : UsedBy) (hok : appendKeyUsedAsEnv w name keyName usedBy = .ok w1)
    (n : String) (hn : name ≠ n) :
    GoMap.lookup w1.configChains n = GoMap.lookup w.configChains n := by
  cases h : GoMap.lookup (entryOf w.configChains name).KeyUsed keyName with
  | none => simp [appendKeyUsedAsEnv_of_none w name keyName usedBy h] at hok
  | some v0 =>
    rw [appendKeyUsedAsEnv_of_some w name keyName usedBy v0 h] at hok
    injection hok with hok
    subst hok
    simp [GoMap.lookup_store, lookup_getOrUnexpected, hn]

theorem lookup_recordVolumeRef_of_ne (usedBy : UsedBy) (w : World) (r : VolumeRef)
    (n : String) (hn : r.name ≠ n) :
    GoMap.lookup (recordVolumeRef usedBy w r).configChains n = GoMap.lookup w.configChains n := by
  cases r with
  | whole name =>
    have : ¬ name = n := hn
    simp [recordVolumeRef, lookup_appendUsedAsVolumn, this]
  | item name key => exact lookup_appendKeyUsedAsVolumn_of_ne w name key usedBy n hn

theorem lookup_recordVolumeRefs_of_not_mem (usedBy : UsedBy) (w : World)
    (rs : List VolumeRef) (n : String) (hn : n ∉ rs.map VolumeRef.name) :
    GoMap.lookup (recordVolumeRefs usedBy w rs).configChains n =
      GoMap.lookup w.configChains n := by
  induction rs generalizing w with
  | nil => rfl
  | cons r rs ih =>
    simp only [List.map_cons, List.mem_cons, not_or] at hn
    rw [recordVolumeRefs, ih _ hn.2, lookup_recordVolumeRef_of_ne usedBy w r n
      fun e => hn.1 e.symm]

theorem lookup_recordEnvRefs_of_not_mem (usedBy : UsedBy) (w w1 : World)
    (rs : List (String × String)) (hok : recordEnvRefs usedBy w rs = .ok w1) (n : String)
    (hn : n ∉ rs.map Prod.fst) :
    GoMap.lookup w1.configChains n = GoMap.lookup w.configChains n := by
  induction rs generalizing w with
  | nil =>
    simp only [recordEnvRefs] at hok
    injection hok with hok
    rw [hok]
  | cons r rs ih =>
    simp only [List.map_cons, List.mem_cons, not_or] at hn
    simp only [recordEnvRefs] at hok
    cases h : appendKeyUsedAsEnv w r.1 r.2 usedBy with
    | error e => simp [h] at hok
    | ok w2 =>
      simp only [h] at hok
      rw [ih w2 hok hn.2, lookup_appendKeyUsedAsEnv_of_ne w w2 r.1 r.2 usedBy h n
        fun e => hn.1 e.symm]

theorem mem_names_volumeRefsOfSource (name key : String) (items : List v1.KeyToPath) :
    key ∈ (volumeRefsOfSource name items).map VolumeRef.name ↔ name = key := by
  unfold volumeRefsOfSource
  by_cases h : items.length = 0
  · simp [h, VolumeRef.name, eq_comm]
  · simp only [h, if_false, List.map_map, List.mem_map, Function.comp_apply, VolumeRef.name]
    constructor
    · rintro ⟨item, -, rfl⟩; rfl
    · intro e
      cases items with
      | nil => simp at h
      | cons item items => exact ⟨item, List.mem_cons_self _ _, e⟩

theorem exists_name_volumeRefsOfSource (name key : String) (items : List v1.KeyToPath) :
    (∃ a ∈ volumeRefsOfSource name items, a.name = key) ↔ name = key := by
  rw [← mem_names_volumeRefsOfSource name key items, List.mem_map]

theorem mem_names_volumeRefs (volumes : List v1.Volume) (key : String) :
    key ∈ (volumeRefs volumes).map VolumeRef.name ↔ ∃ volume ∈ volumes, volumeNames volume key := by
  induction volumes with
  | nil => simp [volumeRefs]
  | cons v vs ih =>
    simp only [volumeRefs, List.map_append, List.mem_append, ih, List.mem_cons,
      exists_eq_or_imp]
    apply or_congr_left
    obtain ⟨vname, cm, sec⟩ := v
    cases cm <;> cases sec <;>
      simp [volumeRefsOfVolume, volumeNames, exists_name_volumeRefsOfSource]

theorem mem_names_envRefs (containers : List v1.Container) (key : String) :
    key ∈ (envRefsOfContainers containers).map Prod.fst ↔
      ∃ c ∈ containers, ∃ env ∈ c.Env, envNames env key := by
  constructor
  · intro h
    obtain ⟨r, hr, rfl⟩ := List.mem_map.1 h
    obtain ⟨c, hc, env, he, hin⟩ := (mem_envRefsOfContainers _ _).1 hr
    obtain ⟨valueFrom, hvf, hcase⟩ := (mem_envRefsOfEnv _ _).1 hin
    refine ⟨c, hc, env, he, valueFrom, hvf, ?_⟩
    rcases hcase with ⟨s, hs, rfl⟩ | ⟨s, hs, rfl⟩
    · exact Or.inl ⟨s, hs, rfl⟩
    · exact Or.inr ⟨s, hs, rfl⟩
  · rintro ⟨c, hc, env, he, valueFrom, hvf, hcase⟩
    rcases hcase with ⟨s, hs, rfl⟩ | ⟨s, hs, rfl⟩
    · exact List.mem_map.2 ⟨(configmapKey s.Name, s.Key),
        (mem_envRefsOfContainers _ _).2
          ⟨c, hc, env, he, (mem_envRefsOfEnv _ _).2 ⟨valueFrom, hvf, Or.inl ⟨s, hs, rfl⟩⟩⟩, rfl⟩
    · exact List.mem_map.2 ⟨(secretKey s.Name, s.Key),
        (mem_envRefsOfContainers _ _).2
          ⟨c, hc, env, he, (mem_envRefsOfEnv _ _).2 ⟨valueFrom, hvf, Or.inr ⟨s, hs, rfl⟩⟩⟩, rfl⟩

theorem referencesKey_iff (podSpec : v1.PodSpec) (key : String) :
    referencesKey podSpec key ↔
      key ∈ (volumeRefs podSpec.Volumes).map VolumeRef.name ∨
        key ∈ (envRefs podSpec).map Prod.fst := by
  unfold referencesKey envRefs
  rw [mem_names_volumeRefs, mem_names_envRefs]

theorem lookup_caculateConfigChain_of_not_referenced (w w1 : World) (podSpec : v1.PodSpec)
    (usedBy : UsedBy) (hok : caculateConfigChain w podSpec usedBy = .ok w1) (key : String)
    (hno : ¬ referencesKey podSpec key) :
    GoMap.lookup w1.configChains key = GoMap.lookup w.configChains key := by
  rw [caculateConfigChain_eq] at hok
  rw [referencesKey_iff, not_or] at hno
  rw [lookup_recordEnvRefs_of_not_mem usedBy _ w1 _ hok key hno.2,
    lookup_recordVolumeRefs_of_not_mem usedBy w _ key hno.1]

theorem keys_after_caculateConfigChain (w w1 : World) (podSpec : v1.PodSpec)
    (usedBy : UsedBy) (hok : caculateConfigChain w podSpec usedBy = .ok w1) (key : String) :
    GoMap.lookup w1.configChains key ≠ none ↔
      (GoMap.lookup w.configChains key ≠ none ∨ referencesKey podSpec key) := by
  rw [caculateConfigChain_eq] at hok
  rw [referencesKey_iff, lookup_ne_none_iff_countKey, lookup_ne_none_iff_countKey,
    countKey_recordEnvRefs usedBy _ w1 _ hok, countKey_recordVolumeRefs]
  by_cases h0 : GoMap.countKey w.configChains key = 0
  · by_cases h1 : key ∈ (volumeRefs podSpec.Volumes).map VolumeRef.name <;>
      by_cases h2 : key ∈ (envRefs podSpec).map Prod.fst <;>
      simp [h0, h1, h2, bump]
  · by_cases h1 : key ∈ (volumeRefs podSpec.Volumes).map VolumeRef.name <;>
      by_cases h2 : key ∈ (envRefs podSpec).map Prod.fst <;>
      simp [h0, h1, h2, bump]

/-- C16: the frame of `caculateConfigChain`.  When the call completes, every
registry entry whose composite key the workload does not reference (through a
configmap or secret volume, or an environment key reference) is exactly the entry
it was, and the keys of the registry afterwards are the keys it had plus exactly
the composite keys the workload references. -/
theorem resolution_frame (w w1 : World) (podSpec : v1.PodSpec) (usedBy : UsedBy)
    (hok : caculateConfigChain w podSpec usedBy = .ok w1) :
    (∀ key, ¬ referencesKey podSpec key →
        GoMap.lookup w1.configChains key = GoMap.lookup w.configChains key) ∧
      (∀ key, GoMap.lookup w1.configChains key ≠ none ↔
        (GoMap.lookup w.configChains key ≠ none ∨ referencesKey podSpec key)) :=
  ⟨lookup_caculateConfigChain_of_not_referenced w w1 podSpec usedBy hok,
    keys_after_caculateConfigChain w w1 podSpec usedBy hok⟩

/-- C16, at a concrete input: resolving the deployment `web` (a volume item of
`app-config`) against a registry that also holds the secret `app-config`. -/
theorem resolution_frame_witness :
    ∃ w1,
      caculateConfigChain
          { configChains := readSecrets (readConfigMaps [] [appConfig]) [appSecret],
            stderr := [] }
          webDeployment.PodSpec "deployment/web" = .ok w1 ∧
        GoMap.lookup w1.configChains "secret/app-config" =
          GoMap.lookup (readSecrets (readConfigMaps [] [appConfig]) [appSecret])
            "secret/app-config" :=
  ⟨_, rfl,
    (resolution_frame
        { configChains := readSecrets (readConfigMaps [] [appConfig]) [appSecret],
          stderr := [] }
        _ webDeployment.PodSpec "deployment/web" rfl).1 "secret/app-config" (by
      rintro (⟨volume, hv, hn⟩ | ⟨c, hc, env, he, -⟩)
      · rw [List.mem_singleton.1 hv] at hn
        rcases hn with ⟨s, hs, hk⟩ | ⟨s, hs, -⟩
        · exact configmapKey_ne_secretKey _ "app-config" hk
        · cases hs
      · rw [List.mem_singleton.1 hc] at he
        cases he)⟩

/-! ## Counting what a resolution step appends -/

theorem wholeMountsOfVolume_eq (key : String) (volume : v1.Volume) :
    wholeMountsOfVolume key volume = if mountsWhole key volume then 1 else 0 := by
  obtain ⟨vname, cm, sec⟩ := volume
  cases cm with
  | none =>
    cases sec with
    | none => rfl
    | some s =>
      by_cases h : secretKey s.SecretName = key ∧ s.Items.length = 0
      · simp [wholeMountsOfVolume, mountsWhole, h]
      · simp only [wholeMountsOfVolume, mountsWhole, h, if_false]
        rw [not_and] at h
        by_cases h1 : secretKey s.SecretName = key
        · simp [h1, h h1]
        · simp [h1]
  | some c =>
    cases sec with
    | none =>
      by_cases h : configmapKey c.Name = key ∧ c.Items.length = 0
      · simp [wholeMountsOfVolume, mountsWhole, h]
      · simp only [wholeMountsOfVolume, mountsWhole, h, if_false]
        rw [not_and] at h
        by_cases h1 : configmapKey c.Name = key
        · simp [h1, h h1]
        · simp [h1]
    | some s =>
      by_cases h1 : configmapKey c.Name = key
      · have h2 : ¬ secretKey s.SecretName = key := fun e =>
          configmapKey_ne_secretKey _ _ (h1.trans e.symm)
        by_cases h3 : c.Items.length = 0 <;> simp [wholeMountsOfVolume, mountsWhole, h1, h2, h3]
      · by_cases h2 : secretKey s.SecretName = key
        · by_cases h3 : s.Items.length = 0 <;>
            simp [wholeMountsOfVolume, mountsWhole, h1, h2, h3]
        · simp [wholeMountsOfVolume, mountsWhole, h1, h2]

theorem wholeMounts_eq_countP (key : String) (volumes : List v1.Volume) :
    wholeMounts key volumes = volumes.countP (mountsWhole key) := by
  induction volumes with
  | nil => rfl
  | cons v vs ih =>
    rw [wholeMounts, ih, wholeMountsOfVolume_eq, List.countP_cons]
    omega

theorem count_item_volumeRefsOfSource (name key keyName : String)
    (items : List v1.KeyToPath) :
    (volumeRefsOfSource name items).count (VolumeRef.item key keyName) =
      if name = key then items.countP (fun item => decide (item.Key = keyName)) else 0 := by
  unfold volumeRefsOfSource
  by_cases h : items.length = 0
  · have : items = [] := List.length_eq_zero.1 h
    subst this
    simp [List.count_cons]
  · simp only [h, if_false]
    by_cases hn : name = key
    · subst hn
      simp only [if_true]
      exact count_item_map name keyName items
    · simp only [hn, if_false]
      apply List.count_eq_zero.2
      intro hm
      obtain ⟨item, -, he⟩ := List.mem_map.1 hm
      injection he with h1 h2
      exact hn h1

theorem count_item_volumeRefs (key keyName : String) (volumes : List v1.Volume) :
    (volumeRefs volumes).count (VolumeRef.item key keyName) = itemUses key keyName volumes := by
  induction volumes with
  | nil => rfl
  | cons v vs ih =>
    obtain ⟨vname, cm, sec⟩ := v
    simp only [volumeRefs, itemUses, List.count_append, ih, volumeRefsOfVolume,
      itemUsesOfVolume]
    cases cm <;> cases sec <;> simp [count_item_volumeRefsOfSource]

theorem count_envRefsOfEnv (key keyName : String) (env : v1.EnvVar) :
    (envRefsOfEnv env).count (key, keyName) = if envUsesKey key keyName env then 1 else 0 := by
  obtain ⟨envName, envValue, valueFrom⟩ := env
  cases valueFrom with
  | none => rfl
  | some valueFrom =>
    obtain ⟨cm, sec⟩ := valueFrom
    cases cm with
    | none =>
      cases sec with
      | none => rfl
      | some s =>
        by_cases h1 : secretKey s.Name = key <;> by_cases h2 : s.Key = keyName <;>
          simp [envRefsOfEnv, envUsesKey, List.count_cons, h1, h2]
    | some c =>
      cases sec with
      | none =>
        by_cases h1 : configmapKey c.Name = key <;> by_cases h2 : c.Key = keyName <;>
          simp [envRefsOfEnv, envUsesKey, List.count_cons, h1, h2]
      | some s =>
        by_cases h1 : configmapKey c.Name = key
        · have h3 : ¬ secretKey s.Name = key := fun e =>
            configmapKey_ne_secretKey _ _ (h1.trans e.symm)
          by_cases h2 : c.Key = keyName <;>
            simp [envRefsOfEnv, envUsesKey, List.count_cons, h1, h2, h3]
        · by_cases h3 : secretKey s.Name = key <;> by_cases h4 : s.Key = keyName <;>
            simp [envRefsOfEnv, envUsesKey, List.count_cons, h1, h3, h4]

theorem count_envRefsOfEnvs (key keyName : String) (envs : List v1.EnvVar) :
    (envRefsOfEnvs envs).count (key, keyName) = envs.countP (envUsesKey key keyName) := by
  induction envs with
  | nil => rfl
  | cons env envs ih =>
    rw [envRefsOfEnvs, List.count_append, ih, count_envRefsOfEnv, List.countP_cons]
    omega

theorem count_envRefsOfContainers (key keyName : String) (containers : List v1.Container) :
    (envRefsOfContainers containers).count (key, keyName) = envUses key keyName containers := by
  induction containers with
  | nil => rfl
  | cons c cs ih =>
    rw [envRefsOfContainers, List.count_append, ih, count_envRefsOfEnvs, envUses]

/-- What a completed `caculateConfigChain` has done to the record of `name`
(the stored record, or the placeholder `getOrUnexpected` creates). -/
theorem recorded_caculateConfigChain (w w1 : World) (podSpec : v1.PodSpec) (usedBy : UsedBy)
    (hok : caculateConfigChain w podSpec usedBy = .ok w1) (name : String) :
    (entryOf w1.configChains name).Name = (entryOf w.configChains name).Name ∧
      (entryOf w1.configChains name).Type_ = (entryOf w.configChains name).Type_ ∧
      (entryOf w1.configChains name).Namespace = (entryOf w.configChains name).Namespace ∧
      (entryOf w1.configChains name).UsedAsVolumn =
        (entryOf w.configChains name).UsedAsVolumn ++
          List.replicate (podSpec.Volumes.countP (mountsWhole name)) usedBy ∧
      ∀ k, GoMap.lookup (entryOf w1.configChains name).KeyUsed k =
        (GoMap.lookup (entryOf w.configChains name).KeyUsed k).map fun keyUsed =>
          { AsEnv := keyUsed.AsEnv ++
              List.replicate (envUses name k podSpec.Containers) usedBy
            AsVolumn := keyUsed.AsVolumn ++
              List.replicate (itemUses name k podSpec.Volumes) usedBy } := by
  rw [caculateConfigChain_eq] at hok
  obtain ⟨a1, b1, c1, d1, k1⟩ :=
    recordedVolumes_recordVolumeRefs usedBy w (volumeRefs podSpec.Volumes) name
  obtain ⟨a2, b2, c2, d2, k2⟩ := recordedEnvs_recordEnvRefs usedBy _ w1 (envRefs podSpec) hok name
  refine ⟨a2.trans a1, b2.trans b1, c2.trans c1, ?_, ?_⟩
  · rw [d2, d1, count_whole_volumeRefs, wholeMounts_eq_countP]
  · intro k
    rw [k2, k1, count_item_volumeRefs, envRefs, count_envRefsOfContainers]
    cases GoMap.lookup (entryOf w.configChains name).KeyUsed k <;> rfl

/-- C18: references are counted, not deduplicated.  After a completed
`caculateConfigChain`, a source that was in the registry is still there; its
`UsedAsVolumn` has gained as many copies of the workload reference as the pod
template has volumes naming the source with an empty item list; every key it
knew has gained in `AsEnv` as many copies as there are environment entries
(across all containers) referencing the source and the key, and in `AsVolumn` as
many as there are volume items (across all volumes) referencing them.  A source
created by the call has the copies of its whole mounts and no keys. -/
theorem references_are_counted (w w1 : World) (podSpec : v1.PodSpec) (usedBy : UsedBy)
    (hok : caculateConfigChain w podSpec usedBy = .ok w1) :
    (∀ key e0, GoMap.lookup w.configChains key = some e0 →
        ∃ e1, GoMap.lookup w1.configChains key = some e1 ∧
          e1.UsedAsVolumn =
            e0.UsedAsVolumn ++
              List.replicate (podSpec.Volumes.countP (mountsWhole key)) usedBy ∧
          ∀ k keyUsed, GoMap.lookup e0.KeyUsed k = some keyUsed →
            GoMap.lookup e1.KeyUsed k =
              some { AsEnv := keyUsed.AsEnv ++
                       List.replicate (envUses key k podSpec.Containers) usedBy
                     AsVolumn := keyUsed.AsVolumn ++
                       List.replicate (itemUses key k podSpec.Volumes) usedBy }) ∧
      (∀ key e1, GoMap.lookup w.configChains key = none →
        GoMap.lookup w1.configChains key = some e1 →
          e1.UsedAsVolumn =
              List.replicate (podSpec.Volumes.countP (mountsWhole key)) usedBy ∧
            e1.KeyUsed = []) := by
  constructor
  · intro key e0 h0
    obtain ⟨-, -, -, hu, hk⟩ := recorded_caculateConfigChain w w1 podSpec usedBy hok key
    rw [lookup_eq_some_entryOf h0] at hu hk
    have hpres : GoMap.lookup w1.configChains key ≠ none :=
      (keys_after_caculateConfigChain w w1 podSpec usedBy hok key).2 (Or.inl (by simp [h0]))
    cases h1 : GoMap.lookup w1.configChains key with
    | none => exact absurd h1 hpres
    | some e1 =>
      rw [lookup_eq_some_entryOf h1] at hu hk
      refine ⟨e1, rfl, hu, ?_⟩
      intro k keyUsed hku
      rw [hk, hku]
      rfl
  · intro key e1 h0 h1
    obtain ⟨-, -, -, hu, hk⟩ := recorded_caculateConfigChain w w1 podSpec usedBy hok key
    rw [lookup_eq_some_entryOf h1, entryOf_of_lookup_none h0] at hu hk
    refine ⟨by simpa [unexpectedConfigChain] using hu, ?_⟩
    apply GoMap.eq_nil_of_lookup_none
    intro k
    rw [hk]
    simp [unexpectedConfigChain, GoMap.lookup]

/-- C18, at a concrete input: the deployment `api` references key `B` of
`app-config` in one environment entry. -/
theorem references_are_counted_witness :
    caculateConfigChain sampleWorld apiDeployment.PodSpec "deployment/api" =
        .ok sampleAfterApi ∧
      envUses "configmap/app-config" "B" apiDeployment.PodSpec.Containers = 1 ∧
      ∃ e1, GoMap.lookup sampleAfterApi.configChains "configmap/app-config" = some e1 ∧
        GoMap.lookup e1.KeyUsed "B" =
          some { AsEnv := [] ++
                   List.replicate
                     (envUses "configmap/app-config" "B" apiDeployment.PodSpec.Containers)
                     "deployment/api"
                 AsVolumn := [] ++
                   List.replicate
                     (itemUses "configmap/app-config" "B" apiDeployment.PodSpec.Volumes)
                     "deployment/api" } :=
  ⟨rfl, by decide,
    ((references_are_counted sampleWorld sampleAfterApi apiDeployment.PodSpec "deployment/api"
        rfl).1 "configmap/app-config" sampleConfigChain (by decide)).elim
      fun e1 h => ⟨e1, h.1, h.2.2 "B" ⟨[], []⟩ (by decide)⟩⟩

/-! ## Append-only lists, in processing order -/

theorem resolveWorkloads_eq_resolvePairs (newUsedBy : v1.Workload → UsedBy) (w : World)
    (workloads : List v1.Workload) :
    resolveWorkloads newUsedBy w workloads =
      resolvePairs w (workloads.map fun x => (newUsedBy x, x.PodSpec)) := by
  induction workloads generalizing w with
  | nil => rfl
  | cons x xs ih =>
    simp only [resolveWorkloads, List.map_cons, resolvePairs]
    cases caculateConfigChain w x.PodSpec (newUsedBy x) with
    | error e => rfl
    | ok w1 => exact ih w1

theorem resolvePairs_append (w w1 w2 : World) (ps qs : List (UsedBy × v1.PodSpec))
    (h1 : resolvePairs w ps = .ok w1) (h2 : resolvePairs w1 qs = .ok w2) :
    resolvePairs w (ps ++ qs) = .ok w2 := by
  induction ps generalizing w with
  | nil =>
    simp only [resolvePairs] at h1
    injection h1 with h1
    subst h1
    exact h2
  | cons p ps ih =>
    simp only [resolvePairs, List.cons_append] at h1 ⊢
    cases h : caculateConfigChain w p.2 p.1 with
    | error e => simp [h] at h1
    | ok w3 =>
      simp only [h] at h1 ⊢
      exact ih w3 h1

/-- What a completed run over (reference, pod template) pairs has done to the
record of `name`. -/
theorem recorded_resolvePairs (w w1 : World) (ps : List (UsedBy × v1.PodSpec))
    (hok : resolvePairs w ps = .ok w1) (name : String) :
    (entryOf w1.configChains name).Type_ = (entryOf w.configChains name).Type_ ∧
      (entryOf w1.configChains name).UsedAsVolumn =
        (entryOf w.configChains name).UsedAsVolumn ++
          usersInOrder (fun pod => pod.Volumes.countP (mountsWhole name)) ps ∧
      ∀ k, GoMap.lookup (entryOf w1.configChains name).KeyUsed k =
        (GoMap.lookup (entryOf w.configChains name).KeyUsed k).map fun keyUsed =>
          { AsEnv := keyUsed.AsEnv ++
              usersInOrder (fun pod => envUses name k pod.Containers) ps
            AsVolumn := keyUsed.AsVolumn ++
              usersInOrder (fun pod => itemUses name k pod.Volumes) ps } := by
  induction ps generalizing w with
  | nil =>
    simp only [resolvePairs] at hok
    injection hok with hok
    subst hok
    refine ⟨rfl, by simp [usersInOrder], ?_⟩
    intro k
    cases GoMap.lookup (entryOf w.configChains name).KeyUsed k <;> simp [usersInOrder]
  | cons p ps ih =>
    simp only [resolvePairs] at hok
    cases h : caculateConfigChain w p.2 p.1 with
    | error e => simp [h] at hok
    | ok w2 =>
      simp only [h] at hok
      obtain ⟨-, b1, -, d1, k1⟩ := recorded_caculateConfigChain w w2 p.2 p.1 h name
      obtain ⟨b2, d2, k2⟩ := ih w2 hok
      refine ⟨b2.trans b1, ?_, ?_⟩
      · rw [d2, d1, usersInOrder, List.append_assoc]
      · intro k
        rw [k2, k1]
        cases GoMap.lookup (entryOf w.configChains name).KeyUsed k with
        | none => rfl
        | some keyUsed => simp [usersInOrder, List.append_assoc]

/-- A returning `readConfigChains` has resolved the workloads in processing
order, starting from the registry built from the sources. -/
theorem readConfigChains_returned_pairs (clientset : Clientset) (reg : GoMap ConfigChain)
    (stderr : List String) (h : readConfigChains (.ok clientset) = .returned reg stderr) :
    ∃ configmaps secrets deployments daemonsets statefulsets rcs w4,
      clientset.ConfigMaps.list = some configmaps ∧ clientset.Secrets.list = some secrets ∧
      clientset.Deployments.list = some deployments ∧
      clientset.DaemonSets.list = some daemonsets ∧
      clientset.StatefulSets.list = some statefulsets ∧
      clientset.ReplicationControllers.list = some rcs ∧
      resolvePairs
        { configChains := readSecrets (readConfigMaps [] configmaps) secrets, stderr := [] }
        (workloadsInOrder deployments daemonsets statefulsets rcs) = .ok w4 ∧
      reg = w4.configChains := by
  obtain ⟨cms, secs, ds, dss, sss, rcs, w1, w2, w3, w4, h1, h2, h3, h4, h5, h6, r1, r2, r3,
    r4, hreg, -⟩ := readConfigChains_returned clientset reg stderr h
  rw [resolveWorkloads_eq_resolvePairs] at r1 r2 r3 r4
  exact ⟨cms, secs, ds, dss, sss, rcs, w4, h1, h2, h3, h4, h5, h6,
    resolvePairs_append _ _ _ _ _
      (resolvePairs_append _ _ _ _ _ (resolvePairs_append _ _ _ _ _ r1 r2) r3) r4, hreg⟩

theorem builtRegistry_entryOf (configmaps : List v1.ConfigMap) (secrets : List v1.Secret)
    (name : String) :
    (entryOf (readSecrets (readConfigMaps [] configmaps) secrets) name).UsedAsVolumn = [] ∧
      ∀ k keyUsed,
        GoMap.lookup (entryOf (readSecrets (readConfigMaps [] configmaps) secrets) name).KeyUsed
            k = some keyUsed →
          keyUsed = { AsEnv := [], AsVolumn := [] } := by
  cases h : GoMap.lookup (readSecrets (readConfigMaps [] configmaps) secrets) name with
  | none =>
    rw [entryOf_of_lookup_none h]
    exact ⟨rfl, fun k keyUsed hk => by simp [unexpectedConfigChain, GoMap.lookup] at hk⟩
  | some e0 =>
    rw [lookup_eq_some_entryOf h]
    exact ⟨builtRegistry_usedAsVolumn configmaps secrets name e0 h,
      fun k keyUsed hk => builtRegistry_keyUsed configmaps secrets name e0 h k keyUsed hk⟩

/-- C17: resolution is append-only.  A completed `caculateConfigChain` leaves
every `UsedAsVolumn`, `AsEnv` and `AsVolumn` list as the list before followed by
copies of the workload reference and nothing else (a source it creates holds
copies of the reference only and has no keys); so in the registry
`readConfigChains` returns, every such list is, workload after workload in
processing order (deployments, daemonsets, statefulsets, rcs), the copies of
that workload's reference. -/
theorem resolution_is_append_only (clientset : Clientset)
    (deployments daemonsets statefulsets rcs : List v1.Workload)
    (reg : GoMap ConfigChain) (stderr : List String)
    (hd : clientset.Deployments.list = some deployments)
    (hds : clientset.DaemonSets.list = some daemonsets)
    (hss : clientset.StatefulSets.list = some statefulsets)
    (hrc : clientset.ReplicationControllers.list = some rcs)
    (hret : readConfigChains (.ok clientset) = .returned reg stderr) :
    (∀ (w w1 : World) (podSpec : v1.PodSpec) (usedBy : UsedBy),
        caculateConfigChain w podSpec usedBy = .ok w1 →
          (∀ name e0, GoMap.lookup w.configChains name = some e0 →
            ∃ e1, GoMap.lookup w1.configChains name = some e1 ∧
              (∃ n, e1.UsedAsVolumn = e0.UsedAsVolumn ++ List.replicate n usedBy) ∧
              ∀ k keyUsed, GoMap.lookup e0.KeyUsed k = some keyUsed →
                ∃ keyUsed1 a b, GoMap.lookup e1.KeyUsed k = some keyUsed1 ∧
                  keyUsed1.AsEnv = keyUsed.AsEnv ++ List.replicate a usedBy ∧
                  keyUsed1.AsVolumn = keyUsed.AsVolumn ++ List.replicate b usedBy) ∧
          (∀ name e1, GoMap.lookup w.configChains name = none →
            GoMap.lookup w1.configChains name = some e1 →
              (∃ n, e1.UsedAsVolumn = List.replicate n usedBy) ∧ e1.KeyUsed = [])) ∧
      (∀ name e, GoMap.lookup reg name = some e →
        e.UsedAsVolumn =
            usersInOrder (fun pod => pod.Volumes.countP (mountsWhole name))
              (workloadsInOrder deployments daemonsets statefulsets rcs) ∧
          ∀ k keyUsed, GoMap.lookup e.KeyUsed k = some keyUsed →
            keyUsed.AsEnv =
                usersInOrder (fun pod => envUses name k pod.Containers)
                  (workloadsInOrder deployments daemonsets statefulsets rcs) ∧
              keyUsed.AsVolumn =
                usersInOrder (fun pod => itemUses name k pod.Volumes)
                  (workloadsInOrder deployments daemonsets statefulsets rcs)) := by
  constructor
  · intro w w1 podSpec usedBy hok
    constructor
    · intro name e0 h0
      obtain ⟨-, -, -, hu, hk⟩ := recorded_caculateConfigChain w w1 podSpec usedBy hok name
      rw [lookup_eq_some_entryOf h0] at hu hk
      have hpres : GoMap.lookup w1.configChains name ≠ none :=
        (keys_after_caculateConfigChain w w1 podSpec usedBy hok name).2 (Or.inl (by simp [h0]))
      cases h1 : GoMap.lookup w1.configChains name with
      | none => exact absurd h1 hpres
      | some e1 =>
        rw [lookup_eq_some_entryOf h1] at hu hk
        refine ⟨e1, rfl, ⟨_, hu⟩, ?_⟩
        intro k keyUsed hku
        refine ⟨_, _, _, by rw [hk, hku]; rfl, rfl, rfl⟩
    · intro name e1 h0 h1
      obtain ⟨-, -, -, hu, hk⟩ := recorded_caculateConfigChain w w1 podSpec usedBy hok name
      rw [lookup_eq_some_entryOf h1, entryOf_of_lookup_none h0] at hu hk
      refine ⟨⟨_, by simpa [unexpectedConfigChain] using hu⟩, ?_⟩
      apply GoMap.eq_nil_of_lookup_none
      intro k
      rw [hk]
      simp [unexpectedConfigChain, GoMap.lookup]
  · intro name e he
    obtain ⟨cms, secs, ds, dss, sss, rs, w4, -, -, h3, h4, h5, h6, hres, hreg⟩ :=
      readConfigChains_returned_pairs clientset reg stderr hret
    rw [hd] at h3
    rw [hds] at h4
    rw [hss] at h5
    rw [hrc] at h6
    injection h3 with h3
    injection h4 with h4
    injection h5 with h5
    injection h6 with h6
    subst h3 h4 h5 h6 hreg
    obtain ⟨-, hu, hk⟩ := recorded_resolvePairs _ w4 _ hres name
    obtain ⟨i1, i2⟩ := builtRegistry_entryOf cms secs name
    rw [lookup_eq_some_entryOf he] at hu hk
    simp only [i1, List.nil_append] at hu
    refine ⟨hu, ?_⟩
    intro k keyUsed hku
    rw [hk] at hku
    cases h0 : GoMap.lookup
        (entryOf (readSecrets (readConfigMaps [] cms) secs) name).KeyUsed k with
    | none => simp [h0] at hku
    | some keyUsed0 =>
      have hz := i2 k keyUsed0 h0
      subst hz
      simp only [h0, Option.map_some', List.nil_append] at hku
      injection hku with hku
      subst hku
      exact ⟨rfl, rfl⟩

/-- C17, at a concrete input: `web` and `api` resolved in this order against
`app-config`. -/
theorem resolution_is_append_only_witness :
    readConfigChains (.ok sampleClientset) = .returned sampleRegistry [] ∧
      ∀ name e, GoMap.lookup sampleRegistry name = some e →
        e.UsedAsVolumn =
          usersInOrder (fun pod => pod.Volumes.countP (mountsWhole name))
            (workloadsInOrder [webDeployment, apiDeployment] [] [] []) :=
  ⟨rfl, fun name e he =>
    ((resolution_is_append_only sampleClientset [webDeployment, apiDeployment] [] [] []
        sampleRegistry [] rfl rfl rfl rfl rfl).2 name e he).1⟩

/-! ## Keys and types of a reachable registry -/

theorem referencesKey_kind (podSpec : v1.PodSpec) (key : String)
    (h : referencesKey podSpec key) :
    (∃ n, key = configmapKey n) ∨ (∃ n, key = secretKey n) := by
  rcases h with ⟨volume, -, hv⟩ | ⟨c, -, env, -, valueFrom, -, he⟩
  · rcases hv with ⟨s, -, rfl⟩ | ⟨s, -, rfl⟩
    · exact Or.inl ⟨_, rfl⟩
    · exact Or.inr ⟨_, rfl⟩
  · rcases he with ⟨s, -, rfl⟩ | ⟨s, -, rfl⟩
    · exact Or.inl ⟨_, rfl⟩
    · exact Or.inr ⟨_, rfl⟩

theorem typeAgrees_of_type_eq {key : String} {e e1 : ConfigChain} (h : e1.Type_ = e.Type_)
    (ha : TypeAgrees key e) : TypeAgrees key e1 := by
  unfold TypeAgrees at ha ⊢
  rw [h]
  exact ha

theorem typeAgrees_unexpected (key : String)
    (h : (∃ n, key = configmapKey n) ∨ (∃ n, key = secretKey n)) :
    TypeAgrees key (unexpectedConfigChain key) := by
  rcases h with ⟨n, rfl⟩ | ⟨n, rfl⟩
  · exact Or.inl ⟨n, rfl, Or.inr (by rw [unexpectedConfigChain_configmapKey])⟩
  · exact Or.inr ⟨n, rfl, Or.inr (by rw [unexpectedConfigChain_secretKey])⟩

theorem typeAgrees_caculateConfigChain (w w1 : World) (podSpec : v1.PodSpec) (usedBy : UsedBy)
    (hok : caculateConfigChain w podSpec usedBy = .ok w1)
    (hinv : ∀ key e, GoMap.lookup w.configChains key = some e → TypeAgrees key e) :
    ∀ key e, GoMap.lookup w1.configChains key = some e → TypeAgrees key e := by
  intro key e he
  obtain ⟨-, ht, -⟩ := recorded_caculateConfigChain w w1 podSpec usedBy hok key
  rw [lookup_eq_some_entryOf he] at ht
  apply typeAgrees_of_type_eq ht
  cases h0 : GoMap.lookup w.configChains key with
  | some e0 =>
    rw [lookup_eq_some_entryOf h0]
    exact hinv key e0 h0
  | none =>
    rw [entryOf_of_lookup_none h0]
    apply typeAgrees_unexpected
    apply referencesKey_kind podSpec
    rcases (keys_after_caculateConfigChain w w1 podSpec usedBy hok key).1 (by simp [he])
      with h | h
    · exact absurd h0 h
    · exact h

theorem typeAgrees_resolvePairs (w w1 : World) (ps : List (UsedBy × v1.PodSpec))
    (hok : resolvePairs w ps = .ok w1)
    (hinv : ∀ key e, GoMap.lookup w.configChains key = some e → TypeAgrees key e) :
    ∀ key e, GoMap.lookup w1.configChains key = some e → TypeAgrees key e := by
  induction ps generalizing w with
  | nil =>
    simp only [resolvePairs] at hok
    injection hok with hok
    subst hok
    exact hinv
  | cons p ps ih =>
    simp only [resolvePairs] at hok
    cases h : caculateConfigChain w p.2 p.1 with
    | error e => simp [h] at hok
    | ok w2 =>
      simp only [h] at hok
      exact ih w2 hok (typeAgrees_caculateConfigChain w w2 p.2 p.1 h hinv)

theorem typeAgrees_builtRegistry (configmaps : List v1.ConfigMap) (secrets : List v1.Secret) :
    ∀ key e, GoMap.lookup (readSecrets (readConfigMaps [] configmaps) secrets) key = some e →
      TypeAgrees key e := by
  intro key e h
  rcases builtRegistry_entry configmaps secrets key e h with ⟨c, -, rfl, rfl⟩ | ⟨s, -, rfl, rfl⟩
  · exact Or.inl ⟨c.Name, rfl, Or.inl rfl⟩
  · exact Or.inr ⟨s.Name, rfl, Or.inl rfl⟩

/-- C19: in the registry `readConfigChains` returns (built from the listed
sources, then any sequence of workloads resolved), every composite key starts
with `"configmap/"` or `"secret/"`, every entry's `Type` is one of
`"configmap"`, `"secret"`, `"unexpected/configmap"`, `"unexpected/secret"`, and
the `Type` agrees with the kind the key starts with; the placeholder of a
referenced source gets the kind of its key whatever its name is, also when the
name holds a `/`. -/
theorem keys_and_types_agree (clientset : Clientset) (reg : GoMap ConfigChain)
    (stderr : List String) (hret : readConfigChains (.ok clientset) = .returned reg stderr) :
    (∀ key e, GoMap.lookup reg key = some e →
        (∃ n, key = "configmap/" ++ n ∧
            (e.Type_ = "configmap" ∨ e.Type_ = "unexpected/configmap")) ∨
          (∃ n, key = "secret/" ++ n ∧
            (e.Type_ = "secret" ∨ e.Type_ = "unexpected/secret"))) ∧
      (∀ name, (getOrUnexpected [] (configmapKey name)).2.Type_ = "unexpected/configmap" ∧
        (getOrUnexpected [] (secretKey name)).2.Type_ = "unexpected/secret") := by
  constructor
  · obtain ⟨cms, secs, ds, dss, sss, rs, w4, -, -, -, -, -, -, hres, hreg⟩ :=
      readConfigChains_returned_pairs clientset reg stderr hret
    subst hreg
    exact typeAgrees_resolvePairs _ w4 _ hres (typeAgrees_builtRegistry cms secs)
  · intro name
    constructor
    · show (unexpectedConfigChain (configmapKey name)).Type_ = _
      rw [unexpectedConfigChain_configmapKey]
    · show (unexpectedConfigChain (secretKey name)).Type_ = _
      rw [unexpectedConfigChain_secretKey]

/-- C19, at a concrete input: the deployment `web` mounts the unlisted configmap
`team/app`, whose name holds a `/`. -/
theorem keys_and_types_agree_witness :
    readConfigChains (.ok slashClientset) = .returned slashRegistry [] ∧
      ∀ key e, GoMap.lookup slashRegistry key = some e →
        (∃ n, key = "configmap/" ++ n ∧
            (e.Type_ = "configmap" ∨ e.Type_ = "unexpected/configmap")) ∨
          (∃ n, key = "secret/" ++ n ∧
            (e.Type_ = "secret" ∨ e.Type_ = "unexpected/secret")) :=
  ⟨rfl, (keys_and_types_agree slashClientset slashRegistry [] rfl).1⟩

/-! ## Diagnostics, and the registry as the only input of a step -/

theorem stderr_appendUsedAsVolumn (w : World) (name : String) (usedBy : UsedBy) :
    (appendUsedAsVolumn w name usedBy).stderr = w.stderr := by
  rw [appendUsedAsVolumn_eq]

theorem stderr_appendKeyUsedAsVolumn (w : World) (name keyName : String) (usedBy : UsedBy) :
    (appendKeyUsedAsVolumn w name keyName usedBy).stderr =
      w.stderr ++
        (if hasKey w.configChains name keyName then []
         else [keyName ++ " is not in " ++ name]) := by
  rw [hasKey_eq]
  cases h : GoMap.lookup (entryOf w.configChains name).KeyUsed keyName with
  | none => rw [appendKeyUsedAsVolumn_of_none w name keyName usedBy h]; simp
  | some v0 => rw [appendKeyUsedAsVolumn_of_some w name keyName usedBy v0 h]; simp

theorem stderr_appendKeyUsedAsEnv (w w1 : World) (name keyName : String) (usedBy : UsedBy)
    (hok : appendKeyUsedAsEnv w name keyName usedBy = .ok w1) : w1.stderr = w.stderr := by
  cases h : GoMap.lookup (entryOf w.configChains name).KeyUsed keyName with
  | none => simp [appendKeyUsedAsEnv_of_none w name keyName usedBy h] at hok
  | some v0 =>
    rw [appendKeyUsedAsEnv_of_some w name keyName usedBy v0 h] at hok
    injection hok with hok
    subst hok
    rfl

theorem stderr_recordEnvRefs (usedBy : UsedBy) (w w1 : World) (rs : List (String × String))
    (hok : recordEnvRefs usedBy w rs = .ok w1) : w1.stderr = w.stderr := by
  induction rs generalizing w with
  | nil =>
    simp only [recordEnvRefs] at hok
    injection hok with hok
    rw [hok]
  | cons r rs ih =>
    simp only [recordEnvRefs] at hok
    cases h : appendKeyUsedAsEnv w r.1 r.2 usedBy with
    | error e => simp [h] at hok
    | ok w2 =>
      simp only [h] at hok
      rw [ih w2 hok, stderr_appendKeyUsedAsEnv w w2 r.1 r.2 usedBy h]

theorem stderr_recordVolumeRef_subset (usedBy : UsedBy) (w : World) (r : VolumeRef)
    (line : String) (h : line ∈ w.stderr) : line ∈ (recordVolumeRef usedBy w r).stderr := by
  cases r with
  | whole name => rw [recordVolumeRef, stderr_appendUsedAsVolumn]; exact h
  | item name key =>
    rw [recordVolumeRef, stderr_appendKeyUsedAsVolumn]
    exact List.mem_append_left _ h

theorem stderr_recordVolumeRefs_subset (usedBy : UsedBy) (w : World) (rs : List VolumeRef)
    (line : String) (h : line ∈ w.stderr) : line ∈ (recordVolumeRefs usedBy w rs).stderr := by
  induction rs generalizing w with
  | nil => exact h
  | cons r rs ih => exact ih _ (stderr_recordVolumeRef_subset usedBy w r line h)

/-- Every item reference to a key the source does not have leaves its line on
stderr. -/
theorem mem_stderr_recordVolumeRefs (usedBy : UsedBy) (w : World) (rs : List VolumeRef)
    (name keyName : String) (hmem : VolumeRef.item name keyName ∈ rs)
    (hk : hasKey w.configChains name keyName = false) :
    (keyName ++ " is not in " ++ name) ∈ (recordVolumeRefs usedBy w rs).stderr := by
  induction rs generalizing w with
  | nil => cases hmem
  | cons r rs ih =>
    rw [recordVolumeRefs]
    rcases List.mem_cons.1 hmem with e | e
    · apply stderr_recordVolumeRefs_subset
      rw [← e, recordVolumeRef, stderr_appendKeyUsedAsVolumn, hk]
      simp
    · exact ih _ e (by rw [hasKey_recordVolumeRef]; exact hk)

theorem configChains_appendUsedAsVolumn (w w0 : World) (name : String) (usedBy : UsedBy)
    (h : w.configChains = w0.configChains) :
    (appendUsedAsVolumn w name usedBy).configChains =
      (appendUsedAsVolumn w0 name usedBy).configChains := by
  rw [appendUsedAsVolumn_eq, appendUsedAsVolumn_eq, h]

theorem configChains_appendKeyUsedAsVolumn (w w0 : World) (name keyName : String)
    (usedBy : UsedBy) (h : w.configChains = w0.configChains) :
    (appendKeyUsedAsVolumn w name keyName usedBy).configChains =
      (appendKeyUsedAsVolumn w0 name keyName usedBy).configChains := by
  cases hk : GoMap.lookup (entryOf w.configChains name).KeyUsed keyName with
  | none =>
    rw [appendKeyUsedAsVolumn_of_none w name keyName usedBy hk,
      appendKeyUsedAsVolumn_of_none w0 name keyName usedBy (by rw [← h]; exact hk), h]
  | some v0 =>
    rw [appendKeyUsedAsVolumn_of_some w name keyName usedBy v0 hk,
      appendKeyUsedAsVolumn_of_some w0 name keyName usedBy v0 (by rw [← h]; exact hk), h]

theorem configChains_recordVolumeRefs (usedBy : UsedBy) (w w0 : World) (rs : List VolumeRef)
    (h : w.configChains = w0.configChains) :
    (recordVolumeRefs usedBy w rs).configChains =
      (recordVolumeRefs usedBy w0 rs).configChains := by
  induction rs generalizing w w0 with
  | nil => exact h
  | cons r rs ih =>
    rw [recordVolumeRefs, recordVolumeRefs]
    apply ih
    cases r with
    | whole name => exact configChains_appendUsedAsVolumn w w0 name usedBy h
    | item name key => exact configChains_appendKeyUsedAsVolumn w w0 name key usedBy h

theorem configChains_appendKeyUsedAsEnv (w w0 : World) (name keyName : String)
    (usedBy : UsedBy) (h : w.configChains = w0.configChains) :
    (appendKeyUsedAsEnv w name keyName usedBy).map (fun x => x.configChains) =
      (appendKeyUsedAsEnv w0 name keyName usedBy).map (fun x => x.configChains) := by
  cases hk : GoMap.lookup (entryOf w.configChains name).KeyUsed keyName with
  | none =>
    rw [appendKeyUsedAsEnv_of_none w name keyName usedBy hk,
      appendKeyUsedAsEnv_of_none w0 name keyName usedBy (by rw [← h]; exact hk)]
  | some v0 =>
    rw [appendKeyUsedAsEnv_of_some w name keyName usedBy v0 hk,
      appendKeyUsedAsEnv_of_some w0 name keyName usedBy v0 (by rw [← h]; exact hk), h]
    rfl

theorem configChains_recordEnvRefs (usedBy : UsedBy) (w w0 : World)
    (rs : List (String × String)) (h : w.configChains = w0.configChains) :
    (recordEnvRefs usedBy w rs).map (fun x => x.configChains) =
      (recordEnvRefs usedBy w0 rs).map (fun x => x.configChains) := by
  induction rs generalizing w w0 with
  | nil => simp only [recordEnvRefs, Except.map, h]
  | cons r rs ih =>
    have hstep := configChains_appendKeyUsedAsEnv w w0 r.1 r.2 usedBy h
    simp only [recordEnvRefs]
    cases h1 : appendKeyUsedAsEnv w r.1 r.2 usedBy with
    | error e =>
      cases h2 : appendKeyUsedAsEnv w0 r.1 r.2 usedBy with
      | error e0 =>
        rw [h1, h2] at hstep
        simpa [Except.map] using hstep
      | ok w2 =>
        rw [h1, h2] at hstep
        simp [Except.map] at hstep
    | ok w1 =>
      cases h2 : appendKeyUsedAsEnv w0 r.1 r.2 usedBy with
      | error e0 =>
        rw [h1, h2] at hstep
        simp [Except.map] at hstep
      | ok w2 =>
        rw [h1, h2] at hstep
        simp only [Except.map, Except.ok.injEq] at hstep
        exact ih w1 w2 hstep

theorem volumeRefs_append (a b : List v1.Volume) :
    volumeRefs (a ++ b) = volumeRefs a ++ volumeRefs b := by
  induction a with
  | nil => rfl
  | cons v vs ih => simp [volumeRefs, ih]

/-- An item reference to a key the (present) source does not have changes
nothing in the registry, wherever it stands in the run. -/
theorem configChains_recordVolumeRefs_skip (usedBy : UsedBy) (w : World)
    (before after : List VolumeRef) (name keyName : String)
    (hpres : GoMap.lookup w.configChains name ≠ none)
    (hk : hasKey w.configChains name keyName = false) :
    (recordVolumeRefs usedBy w (before ++ VolumeRef.item name keyName :: after)).configChains =
      (recordVolumeRefs usedBy w (before ++ after)).configChains := by
  rw [recordVolumeRefs_append, recordVolumeRefs_append, recordVolumeRefs]
  apply configChains_recordVolumeRefs
  have hk1 : hasKey (recordVolumeRefs usedBy w before).configChains name keyName = false := by
    rw [hasKey_recordVolumeRefs]; exact hk
  have hp1 : GoMap.countKey (recordVolumeRefs usedBy w before).configChains name ≠ 0 := by
    rw [countKey_recordVolumeRefs]
    have h0 : GoMap.countKey w.configChains name ≠ 0 :=
      (lookup_ne_none_iff_countKey _ _).1 hpres
    split
    · exact bump_ne_zero _
    · exact h0
  rw [hasKey_eq] at hk1
  rw [recordVolumeRef,
    appendKeyUsedAsVolumn_of_none _ name keyName usedBy (by simpa using hk1),
    getOrUnexpected_fst_of_some _ _ _ (lookup_of_countKey_ne_zero hp1)]

/-! ## Volume items with unknown keys, in a workload -/

theorem volumeRefsOfSource_of_ne_nil (name : String) (items : List v1.KeyToPath)
    (h : items ≠ []) :
    volumeRefsOfSource name items = items.map fun item => VolumeRef.item name item.Key := by
  have hl : ¬ items.length = 0 := fun e => h (List.length_eq_zero.1 e)
  simp only [volumeRefsOfSource, hl, if_false]

theorem volumeRefsOfVolume_dropsItem (volume reduced : v1.Volume) (key : String)
    (bad : v1.KeyToPath) (h : DropsItem volume reduced key bad) :
    ∃ P Q, volumeRefsOfVolume volume = P ++ VolumeRef.item key bad.Key :: Q ∧
      volumeRefsOfVolume reduced = P ++ Q := by
  obtain ⟨vname, cm, sec⟩ := volume
  obtain ⟨rname, rcm, rsec⟩ := reduced
  rcases h with ⟨n, before, after, rfl, hne, h1, h2, h3⟩ | ⟨n, before, after, rfl, hne, h1, h2, h3⟩
  · simp only at h1 h2 h3
    subst h1 h2 h3
    refine ⟨before.map fun item => VolumeRef.item (configmapKey n) item.Key,
      (after.map fun item => VolumeRef.item (configmapKey n) item.Key) ++
        (match rsec with
          | some s => volumeRefsOfSource (secretKey s.SecretName) s.Items
          | none => []), ?_, ?_⟩
    · simp only [volumeRefsOfVolume]
      rw [volumeRefsOfSource_of_ne_nil _ _ (by simp)]
      simp
    · simp only [volumeRefsOfVolume]
      rw [volumeRefsOfSource_of_ne_nil _ _ hne]
      simp
  · simp only at h1 h2 h3
    subst h1 h2 h3
    refine ⟨(match rcm with
          | some s => volumeRefsOfSource (configmapKey s.Name) s.Items
          | none => []) ++
        before.map fun item => VolumeRef.item (secretKey n) item.Key,
      after.map fun item => VolumeRef.item (secretKey n) item.Key, ?_, ?_⟩
    · simp only [volumeRefsOfVolume]
      rw [volumeRefsOfSource_of_ne_nil _ _ (by simp)]
      simp
    · simp only [volumeRefsOfVolume]
      rw [volumeRefsOfSource_of_ne_nil _ _ hne]
      simp

theorem mem_volumeRefs (volumes : List v1.Volume) (r : VolumeRef) :
    r ∈ volumeRefs volumes ↔ ∃ volume ∈ volumes, r ∈ volumeRefsOfVolume volume := by
  induction volumes with
  | nil => simp [volumeRefs]
  | cons v vs ih => simp [volumeRefs, ih]

theorem mem_volumeRefsOfVolume_of_item (volume : v1.Volume) (key : String)
    (item : v1.KeyToPath) (h : item ∈ volumeItems volume key) :
    VolumeRef.item key item.Key ∈ volumeRefsOfVolume volume := by
  obtain ⟨vname, cm, sec⟩ := volume
  simp only [volumeItems, List.mem_append] at h
  simp only [volumeRefsOfVolume, List.mem_append]
  rcases h with h | h
  · left
    cases cm with
    | none => simp at h
    | some s =>
      simp only at h ⊢
      by_cases hk : configmapKey s.Name = key
      · simp only [hk, if_true] at h
        rw [hk, volumeRefsOfSource_of_ne_nil _ _ (List.ne_nil_of_mem h)]
        exact List.mem_map.2 ⟨item, h, rfl⟩
      · simp [hk] at h
  · right
    cases sec with
    | none => simp at h
    | some s =>
      simp only at h ⊢
      by_cases hk : secretKey s.SecretName = key
      · simp only [hk, if_true] at h
        rw [hk, volumeRefsOfSource_of_ne_nil _ _ (List.ne_nil_of_mem h)]
        exact List.mem_map.2 ⟨item, h, rfl⟩
      · simp [hk] at h

/-- C2: for a source that is in the registry, a volume item whose key is not in
the source's `KeyUsed` leaves the registry exactly as it was and only writes the
line `"<key> is not in <kind>/<name>"` to stderr; after the item loop of a
volume the source has the same identity, the same `UsedAsVolumn`, no new key, and
every known key has gained one `AsVolumn` entry per item naming it; the volumes
of a pod never change whether, or with which message, `caculateConfigChain`
panics (without containers it always completes).  For a whole workload: after a
completed `caculateConfigChain` the source has its identity, has gained in
`UsedAsVolumn` only the whole mounts, has no new key, and each known key has
gained the environment entries and the volume items that name it; a workload
with such an item ends (registry or panic) exactly as the workload without it;
and the line of the item is on stderr. -/
theorem volume_item_with_unknown_key_is_tolerated (w : World) (name : String)
    (c : ConfigChain) (usedBy : UsedBy)
    (hc : GoMap.lookup w.configChains name = some c) :
    (∀ keyName, GoMap.lookup c.KeyUsed keyName = none →
        appendKeyUsedAsVolumn w name keyName usedBy =
          { configChains := w.configChains
            stderr := w.stderr ++ [keyName ++ " is not in " ++ name] }) ∧
      (∀ items : List v1.KeyToPath,
        ∃ c1, GoMap.lookup (caculateItems name usedBy w items).configChains name = some c1 ∧
          c1.Name = c.Name ∧ c1.Type_ = c.Type_ ∧ c1.Namespace = c.Namespace ∧
          c1.UsedAsVolumn = c.UsedAsVolumn ∧
          ∀ k, GoMap.lookup c1.KeyUsed k =
            (GoMap.lookup c.KeyUsed k).map (fun keyUsed =>
              { AsEnv := keyUsed.AsEnv
                AsVolumn := keyUsed.AsVolumn ++
                  List.replicate (items.countP (fun item => decide (item.Key = k))) usedBy })) ∧
      (∀ volumes containers msg,
        caculateConfigChain w ⟨volumes, containers⟩ usedBy = .error msg ↔
          caculateConfigChain w ⟨[], containers⟩ usedBy = .error msg) ∧
      (∀ volumes, ∃ w1, caculateConfigChain w ⟨volumes, []⟩ usedBy = .ok w1) ∧
      (∀ podSpec w1, caculateConfigChain w podSpec usedBy = .ok w1 →
        ∃ c1, GoMap.lookup w1.configChains name = some c1 ∧
          c1.Name = c.Name ∧ c1.Type_ = c.Type_ ∧ c1.Namespace = c.Namespace ∧
          c1.UsedAsVolumn =
            c.UsedAsVolumn ++
              List.replicate (podSpec.Volumes.countP (mountsWhole name)) usedBy ∧
          ∀ k, GoMap.lookup c1.KeyUsed k =
            (GoMap.lookup c.KeyUsed k).map (fun keyUsed =>
              { AsEnv := keyUsed.AsEnv ++
                  List.replicate (envUses name k podSpec.Containers) usedBy
                AsVolumn := keyUsed.AsVolumn ++
                  List.replicate (itemUses name k podSpec.Volumes) usedBy })) ∧
      (∀ (before after : List v1.Volume) (volume reduced : v1.Volume) (bad : v1.KeyToPath)
          (containers : List v1.Container),
        GoMap.lookup c.KeyUsed bad.Key = none → DropsItem volume reduced name bad →
          (caculateConfigChain w ⟨before ++ volume :: after, containers⟩ usedBy).map
              (fun x => x.configChains) =
            (caculateConfigChain w ⟨before ++ reduced :: after, containers⟩ usedBy).map
              (fun x => x.configChains)) ∧
      (∀ podSpec w1, caculateConfigChain w podSpec usedBy = .ok w1 →
        ∀ volume ∈ podSpec.Volumes, ∀ item ∈ volumeItems volume name,
          GoMap.lookup c.KeyUsed item.Key = none →
            (item.Key ++ " is not in " ++ name) ∈ w1.stderr) := by
  have he : entryOf w.configChains name = c := lookup_eq_some_entryOf hc
  have hunknown : ∀ k, GoMap.lookup c.KeyUsed k = none →
      hasKey w.configChains name k = false := by
    intro k hk
    rw [hasKey_of_lookup hc, hk]
    rfl
  refine ⟨?_, ?_, ?_, ?_, ?_, ?_, ?_⟩
  · intro keyName hk
    rw [appendKeyUsedAsVolumn_of_none w name keyName usedBy (by rw [he]; exact hk),
      getOrUnexpected_fst_of_some _ _ _ hc]
  · intro items
    have hrec := recordedVolumes_recordVolumeRefs usedBy w
      (items.map (fun item => VolumeRef.item name item.Key)) name
    rw [← caculateItems_eq, he] at hrec
    obtain ⟨h1, h2, h3, h4, h5⟩ := hrec
    have hcount : GoMap.countKey (caculateItems name usedBy w items).configChains name ≠ 0 := by
      rw [caculateItems_eq, countKey_recordVolumeRefs]
      have h0 : GoMap.countKey w.configChains name ≠ 0 := by
        rw [Ne, GoMap.countKey_eq_zero_iff, hc]; simp
      split
      · exact bump_ne_zero _
      · exact h0
    refine ⟨_, lookup_of_countKey_ne_zero hcount, h1, h2, h3, ?_, ?_⟩
    · rw [h4, count_whole_map_item]; simp
    · intro k
      rw [h5, count_item_map]
      rfl
  · intro volumes containers msg
    rw [caculateConfigChain_error_iff, caculateConfigChain_error_iff]
    rfl
  · intro volumes
    rw [caculateConfigChain_eq]
    exact ⟨_, rfl⟩
  · intro podSpec w1 hok
    obtain ⟨h1, h2, h3, h4, h5⟩ := recorded_caculateConfigChain w w1 podSpec usedBy hok name
    rw [he] at h1 h2 h3 h4 h5
    have hpres : GoMap.lookup w1.configChains name ≠ none :=
      (keys_after_caculateConfigChain w w1 podSpec usedBy hok name).2 (Or.inl (by simp [hc]))
    cases hl : GoMap.lookup w1.configChains name with
    | none => exact absurd hl hpres
    | some c1 =>
      rw [lookup_eq_some_entryOf hl] at h1 h2 h3 h4 h5
      exact ⟨c1, rfl, h1, h2, h3, h4, h5⟩
  · intro before after volume reduced bad containers hk hdrop
    obtain ⟨P, Q, hP, hQ⟩ := volumeRefsOfVolume_dropsItem volume reduced name bad hdrop
    rw [caculateConfigChain_eq, caculateConfigChain_eq]
    apply configChains_recordEnvRefs
    simp only [volumeRefs_append, volumeRefs, hP, hQ]
    have hskip := configChains_recordVolumeRefs_skip usedBy w (volumeRefs before ++ P)
      (Q ++ volumeRefs after) name bad.Key (by simp [hc]) (hunknown _ hk)
    simpa [List.append_assoc] using hskip
  · intro podSpec w1 hok volume hv item hi hk
    rw [caculateConfigChain_eq] at hok
    rw [stderr_recordEnvRefs usedBy _ w1 _ hok]
    apply mem_stderr_recordVolumeRefs usedBy w _ name item.Key _ (hunknown _ hk)
    exact (mem_volumeRefs _ _).2 ⟨volume, hv, mem_volumeRefsOfVolume_of_item volume name item hi⟩

/-- C2, at a concrete input: the deployment `web` has one volume of `app-config`
with the items `A` (known) and `Z` (unknown).  The call completes, `A` has the
workload in its `AsVolumn`, `Z` is not a key, and the line for `Z` is on
stderr. -/
theorem volume_item_with_unknown_key_is_tolerated_witness :
    GoMap.lookup sampleWorld.configChains "configmap/app-config" = some sampleConfigChain ∧
      caculateConfigChain sampleWorld mixedItemsPod "deployment/web" = .ok mixedItemsResult ∧
      "Z is not in configmap/app-config" ∈ mixedItemsResult.stderr ∧
      ∃ c1, GoMap.lookup mixedItemsResult.configChains "configmap/app-config" = some c1 ∧
        c1.UsedAsVolumn = [] ∧
        GoMap.lookup c1.KeyUsed "A" = some { AsEnv := [], AsVolumn := ["deployment/web"] } ∧
        GoMap.lookup c1.KeyUsed "Z" = none :=
  ⟨by decide, rfl,
    (volume_item_with_unknown_key_is_tolerated sampleWorld "configmap/app-config"
        sampleConfigChain "deployment/web" (by decide)).2.2.2.2.2.2
      mixedItemsPod mixedItemsResult rfl mixedItemsVolume (List.mem_singleton.2 rfl)
      ⟨"Z", "z.txt"⟩ (by decide) (by decide),
    ((volume_item_with_unknown_key_is_tolerated sampleWorld "configmap/app-config"
        sampleConfigChain "deployment/web" (by decide)).2.2.2.2.1
      mixedItemsPod mixedItemsResult rfl).elim
      fun c1 h =>
        ⟨c1, h.1, h.2.2.2.2.1.trans (by decide), (h.2.2.2.2.2 "A").trans (by decide),
          (h.2.2.2.2.2 "Z").trans (by decide)⟩⟩

/-! ## Environment references to unlisted sources, in a workload -/

/-- The record under a placeholder key after the volumes of a workload have been
processed. -/
theorem placeholder_after_volumes (w : World) (volumes : List v1.Volume) (usedBy : UsedBy)
    (key : String) (habs : GoMap.lookup w.configChains key = none) (e : ConfigChain)
    (he : GoMap.lookup (caculateVolumes usedBy w volumes).configChains key = some e) :
    e = { unexpectedConfigChain key with
          UsedAsVolumn := List.replicate (volumes.countP (mountsWhole key)) usedBy } := by
  rw [caculateVolumes_eq] at he
  have hv := recordedVolumes_recordVolumeRefs usedBy w (volumeRefs volumes) key
  rw [entryOf_of_lookup_none habs, lookup_eq_some_entryOf he] at hv
  obtain ⟨a1, b1, c1, d1, k1⟩ := hv
  rw [count_whole_volumeRefs, wholeMounts_eq_countP] at d1
  have hkeys : e.KeyUsed = [] := by
    apply GoMap.eq_nil_of_lookup_none
    intro k
    rw [k1]
    simp [unexpectedConfigChain, GoMap.lookup]
  have hused : e.UsedAsVolumn = List.replicate (volumes.countP (mountsWhole key)) usedBy := by
    rw [d1]
    simp [unexpectedConfigChain]
  obtain ⟨eName, eType, eNamespace, eUsed, eKeys⟩ := e
  simp only at a1 b1 c1 hkeys hused
  rw [a1, b1, c1, hkeys, hused]
  rfl

/-- C4 (amended): if the registry has no entry under `"<kind>/<name>"` and some
container environment entry of the workload references that source, resolving
the workload panics, with the message `"<key> is not in <kind>/<name>"` of the
workload's first environment reference to an unknown key.  `getOrUnexpected`
does create the placeholder of kind `"unexpected/<kind>"`, and the volumes of
the workload that name the source leave it in the registry, with one copy of the
workload reference per whole mount, before the containers are looked at; but a
placeholder has no keys, so `appendKeyUsedAsEnv` panics for every key instead of
recording the reference: on the registry as it was, after the volumes of the
workload, and after any completed resolution. -/
theorem env_reference_to_unlisted_source_panics (w : World) (podSpec : v1.PodSpec)
    (usedBy : UsedBy) (kind name key : String)
    (hkey : kind = "configmap" ∧ key = configmapKey name ∨
      kind = "secret" ∧ key = secretKey name)
    (habs : GoMap.lookup w.configChains key = none)
    (href : ∃ c ∈ podSpec.Containers, ∃ env ∈ c.Env, ∃ valueFrom,
      env.ValueFrom = some valueFrom ∧
        ((∃ s, valueFrom.ConfigMapKeyRef = some s ∧ configmapKey s.Name = key) ∨
          (∃ s, valueFrom.SecretKeyRef = some s ∧ secretKey s.Name = key))) :
    (∃ msg, caculateConfigChain w podSpec usedBy = .error msg) ∧
      (∀ keyName,
        appendKeyUsedAsEnv w key keyName usedBy = .error (keyName ++ " is not in " ++ key)) ∧
      getOrUnexpected w.configChains key =
        (w.configChains ++
            [(key, { Name := key, Type_ := "unexpected/" ++ kind, Namespace := "",
                     UsedAsVolumn := [], KeyUsed := [] })],
          { Name := key, Type_ := "unexpected/" ++ kind, Namespace := "",
            UsedAsVolumn := [], KeyUsed := [] }) ∧
      (∀ msg, caculateConfigChain w podSpec usedBy = .error msg →
        ∃ r, (envRefs podSpec).find? (fun r => !hasKey w.configChains r.1 r.2) = some r ∧
          msg = r.2 ++ " is not in " ++ r.1) ∧
      (∀ keyName,
        appendKeyUsedAsEnv (caculateVolumes usedBy w podSpec.Volumes) key keyName usedBy =
          .error (keyName ++ " is not in " ++ key)) ∧
      (∀ (other : v1.PodSpec) (otherUsedBy : UsedBy) (w1 : World),
        caculateConfigChain w other otherUsedBy = .ok w1 →
          ∀ keyName,
            appendKeyUsedAsEnv w1 key keyName usedBy =
              .error (keyName ++ " is not in " ++ key)) ∧
      (GoMap.lookup (caculateVolumes usedBy w podSpec.Volumes).configChains key ≠ none ↔
        ∃ volume ∈ podSpec.Volumes, volumeNames volume key) ∧
      (∀ e, GoMap.lookup (caculateVolumes usedBy w podSpec.Volumes).configChains key = some e →
        e = { Name := key, Type_ := "unexpected/" ++ kind, Namespace := "",
              UsedAsVolumn :=
                List.replicate (podSpec.Volumes.countP (mountsWhole key)) usedBy,
              KeyUsed := [] }) := by
  have hu : unexpectedConfigChain key =
      { Name := key, Type_ := "unexpected/" ++ kind, Namespace := "",
        UsedAsVolumn := [], KeyUsed := [] } := by
    rcases hkey with ⟨hk, rfl⟩ | ⟨hk, rfl⟩
    · rw [unexpectedConfigChain_configmapKey, hk]; rfl
    · rw [unexpectedConfigChain_secretKey, hk]; rfl
  refine ⟨?_, ?_, ?_, ?_, ?_, ?_, ?_, ?_⟩
  · apply (caculateConfigChain_panics_iff w podSpec usedBy).2
    obtain ⟨c, hc, env, henv, valueFrom, hvf, hcase⟩ := href
    refine ⟨c, hc, env, henv, valueFrom, hvf, ?_⟩
    rcases hcase with ⟨s, hs, hk⟩ | ⟨s, hs, hk⟩
    · exact Or.inl ⟨s, hs, by rw [hk]; exact hasKey_of_lookup_none habs _⟩
    · exact Or.inr ⟨s, hs, by rw [hk]; exact hasKey_of_lookup_none habs _⟩
  · intro keyName
    exact appendKeyUsedAsEnv_error_of_not_hasKey w key keyName usedBy
      (hasKey_of_lookup_none habs _)
  · have h1 := getOrUnexpected_fst_of_none w.configChains key habs
    have h2 := getOrUnexpected_snd w.configChains key
    rw [entryOf_of_lookup_none habs] at h2
    rw [hu] at h1 h2
    exact Prod.ext h1 h2
  · intro msg hmsg
    exact (caculateConfigChain_error_iff w podSpec usedBy msg).1 hmsg
  · intro keyName
    apply appendKeyUsedAsEnv_error_of_not_hasKey
    rw [caculateVolumes_eq, hasKey_recordVolumeRefs]
    exact hasKey_of_lookup_none habs _
  · intro other otherUsedBy w1 hok keyName
    apply appendKeyUsedAsEnv_error_of_not_hasKey
    rw [(survives_caculateConfigChain w w1 other otherUsedBy hok key).2]
    exact hasKey_of_lookup_none habs _
  · rw [caculateVolumes_eq, lookup_ne_none_iff_countKey, countKey_recordVolumeRefs,
      ← mem_names_volumeRefs]
    have h0 : GoMap.countKey w.configChains key = 0 := (GoMap.countKey_eq_zero_iff _ _).2 habs
    by_cases hm : key ∈ (volumeRefs podSpec.Volumes).map VolumeRef.name <;> simp [hm, h0, bump]
  · intro e he
    rw [placeholder_after_volumes w podSpec.Volumes usedBy key habs e he, hu]

/-- C4 (amended), at a concrete input: the empty registry and a workload that
mounts the unlisted configmap `foo` whole and takes a variable from its key `k`.
The volume leaves the workload on the placeholder, then the container panics. -/
theorem env_reference_to_unlisted_source_panics_witness :
    GoMap.lookup emptyWorld.configChains "configmap/foo" = none ∧
      caculateConfigChain emptyWorld mountAndEnvFooPod "deployment/web" =
        .error "k is not in configmap/foo" ∧
      (∃ msg, caculateConfigChain emptyWorld mountAndEnvFooPod "deployment/web" = .error msg) ∧
      GoMap.lookup
          (caculateVolumes "deployment/web" emptyWorld mountAndEnvFooPod.Volumes).configChains
          "configmap/foo" =
        some { Name := "configmap/foo", Type_ := "unexpected/configmap", Namespace := "",
               UsedAsVolumn := ["deployment/web"], KeyUsed := [] } ∧
      ({ Name := "configmap/foo", Type_ := "unexpected/configmap", Namespace := "",
         UsedAsVolumn := ["deployment/web"], KeyUsed := [] } : ConfigChain) =
        { Name := "configmap/foo", Type_ := "unexpected/" ++ "configmap", Namespace := "",
          UsedAsVolumn :=
            List.replicate (mountAndEnvFooPod.Volumes.countP (mountsWhole "configmap/foo"))
              "deployment/web",
          KeyUsed := [] } :=
  ⟨by decide, rfl,
    (env_reference_to_unlisted_source_panics emptyWorld mountAndEnvFooPod "deployment/web"
      "configmap" "foo" "configmap/foo" (Or.inl ⟨rfl, by decide⟩) (by decide)
      ⟨_, List.mem_singleton.2 rfl, _, List.mem_singleton.2 rfl, _, rfl,
        Or.inl ⟨_, rfl, by decide⟩⟩).1,
    by decide,
    (env_reference_to_unlisted_source_panics emptyWorld mountAndEnvFooPod "deployment/web"
      "configmap" "foo" "configmap/foo" (Or.inl ⟨rfl, by decide⟩) (by decide)
      ⟨_, List.mem_singleton.2 rfl, _, List.mem_singleton.2 rfl, _, rfl,
        Or.inl ⟨_, rfl, by decide⟩⟩).2.2.2.2.2.2.2 _ (by decide)⟩

end KubeConfigChain
